import Mathlib

/-!
# USPS / EasyPost bill adapter

A shallow embedding of `usps_easypost_transform/refernce_go_Script.go`
(`Adapter2`): bill identity extraction (`GetBills`), invoice-number synthesis
(`buildInvoiceNumber`), the dual-format `date` helper, tolerant numeric
extraction (`extractBillRecords`) and staging-plan assembly
(`BuildStagingPlan`).

Conventions of the embedding:

* a Go result pair `(v, err)` is a Lean pair `(v, e)` with `e : Option Error`;
  `none` is Go's `nil` error and a `nil` slice is the empty list;
* a Go `string` is a Lean `String` (lengths are counted in characters, which
  agrees with Go's byte length on ASCII cells);
* `time.Time` is its civil reading (year, month, day, clock, nanoseconds) in
  its own location, together with the offset of that location. Lean's `=` on
  `Time` is equality of these values. Go's `==` on `time.Time` also compares
  the `*Location` pointer, and `time.Parse` allocates a new zone for some
  offsets: `Time.sharedZone` says when the pointer is shared and
  `BillDetails.goEq` is Go's `==` on bills, the comparison the ordered set
  of `GetBills` uses;
* `float64` values are not computed: the numeric reading of a literal is a
  parameter (`FloatParser`). Where a statement is about the number read, the
  values are the rationals that finite `float64` values denote and the reading
  obeys `FloatParser.ReadsDecimals`: a decimal literal of a `float64` value is
  read as that value.
-/

namespace UspsEasypost

/-! ## Errors -/

/-- Go `error` values built by the adapter and the library calls it makes. -/
inductive Error where
  /-- `fmt.Errorf("header %q: invalid date %q", header, s)` in `date`. -/
  | invalidDate (header : String) (value : String)
  /-- A `strconv.NumError` of function `fn` on input `input`, for the given reason. -/
  | numError (fn : String) (input : String) (reason : String)
  /-- `fmt.Errorf(msg + ": %w", cause)`. -/
  | wrap (msg : String) (cause : Error)
  /-- `fmt.Errorf("account number mismatch: in bill=%s, given=%s", inBill, given)` in
  `Validate`. -/
  | accountMismatch (inBill : String) (given : String)
  deriving DecidableEq, Repr

/-! ## Header-indexed row access -/

/-- Go `map[string]int`: the most recent binding of a key is the first pair with that key. -/
abbrev HeaderIndex := List (String × Nat)

/-- Loop of `BuildHeaderIndex`: `m[h] = i` for each header `h` at position `i`. -/
def BuildHeaderIndex.loop : Nat → List String → HeaderIndex → HeaderIndex
  | _, [], m => m
  | i, h :: hs, m => BuildHeaderIndex.loop (i + 1) hs ((h, i) :: m)

/-- Modelled from the spec: `commons.BuildHeaderIndex` is not part of the source file.
The glossary calls the header index the "mapping from column name to its positional
offset within a row", "built once per batch from the header row". -/
def BuildHeaderIndex (headers : List String) : HeaderIndex :=
  BuildHeaderIndex.loop 0 headers []

/-- Modelled from the spec: `data.Val` is not part of the source file. "All field access
is a lookup-by-name-then-index, tolerant of missing columns": the cell of `rec` at the
position the index gives for `h`, verbatim, and the empty string when the column is
absent from the index or the row is too short. -/
def Val (rec : List String) (hidx : HeaderIndex) (h : String) : String :=
  match hidx.lookup h with
  | some i => rec.getD i ""
  | none => ""

/-- The column-name constants of package `columns` (not part of the source file) that the
adapter reads, and its table of database column names. -/
structure Columns where
  TrackingCode : String
  Rate : String
  LabelFee : String
  PostageFee : String
  InsuranceFee : String
  CarbonOffsetFee : String
  Weight : String
  Length : String
  Width : String
  Height : String
  FromZip : String
  USPSZone : String
  CreatedAt : String
  PostageLabelCreatedAt : String
  Service : String
  CarrierAccountID : String
  BillDBColumnNames : List String

/-! ## `time.Time`, `time.Parse` and `Time.Format` -/

/-- The location of a parsed time, as a value: `UTC` (the layout's `Z`), or the zone of a
numeric offset in seconds east of UTC (`Local` or a fixed zone in Go, both reading the
civil time as written). Two equal values need not be the same `*Location` pointer in Go:
see `Time.sharedZone`. -/
inductive Location where
  | UTC
  | Fixed (offset : Int)
  deriving DecidableEq, Repr

/-- A `time.Time`, read in its own location. -/
structure Time where
  year : Int
  month : Nat
  day : Nat
  hour : Nat
  min : Nat
  sec : Nat
  nsec : Nat
  loc : Location
  deriving DecidableEq, Repr

/-- Go `time.Time{}`: January 1, year 1, 00:00:00 UTC. -/
def Time.zero : Time := ⟨1, 1, 1, 0, 0, 0, 0, Location.UTC⟩

/-- Go `isLeap`. -/
def isLeap (year : Int) : Bool :=
  year % 4 == 0 && (year % 100 != 0 || year % 400 == 0)

/-- Go `daysIn`. -/
def daysIn (month : Nat) (year : Int) : Nat :=
  if month = 2 then (if isLeap year then 29 else 28)
  else if month = 4 ∨ month = 6 ∨ month = 9 ∨ month = 11 then 30
  else 31

/-- Well-formed civil readings: every `time.Time` has one. -/
def Time.Valid (t : Time) : Prop :=
  1 ≤ t.month ∧ t.month ≤ 12 ∧ 1 ≤ t.day ∧ t.day ≤ daysIn t.month t.year ∧
  t.hour < 24 ∧ t.min < 60 ∧ t.sec < 60 ∧ t.nsec < 1000000000

instance (t : Time) : Decidable t.Valid := by
  unfold Time.Valid; infer_instance

/-- Go `isDigit` on one byte. -/
def isDigit (c : Char) : Bool := 48 ≤ c.toNat && c.toNat ≤ 57

/-- The value `c - '0'` of a digit. -/
def digitVal (c : Char) : Nat := c.toNat - 48

/-- Go `getnum`: a one- or two-digit number; with `fixed` it must have two digits. -/
def getnum (s : List Char) (fixed : Bool) : Option (Nat × List Char) :=
  match s with
  | [] => none
  | c0 :: rest =>
    if !isDigit c0 then none
    else match rest with
      | [] => if fixed then none else some (digitVal c0, rest)
      | c1 :: rest2 =>
        if !isDigit c1 then (if fixed then none else some (digitVal c0, rest))
        else some (digitVal c0 * 10 + digitVal c1, rest2)

/-- Go `leadingInt`: the leading decimal digits of `s` (accumulated onto `x`) and the
remainder; `none` on overflow past `1 << 63`. -/
def leadingInt : List Char → Nat → Option (Nat × List Char)
  | [], x => some (x, [])
  | c :: cs, x =>
    if !isDigit c then some (x, c :: cs)
    else if x > 2 ^ 63 / 10 then none
    else if x * 10 + digitVal c > 2 ^ 63 then none
    else leadingInt cs (x * 10 + digitVal c)

/-- Go `atoi` of package `time`: an optional sign, then digits only. -/
def atoi (s : List Char) : Option Int :=
  let neg := s.head? == some '-'
  let s1 := if s.head? == some '-' || s.head? == some '+' then s.tail else s
  match leadingInt s1 0 with
  | none => none
  | some (q, rem) =>
    if rem ≠ [] then none
    else some (if neg then -(q : Int) else (q : Int))

/-- Go `skip` for a literal layout prefix of one non-blank byte. -/
def skip (value : List Char) (c : Char) : Option (List Char) :=
  match value with
  | [] => none
  | v :: rest => if v = c then some rest else none

/-- Go `parseNanoseconds` as `parse` calls it after the seconds of a layout without a
fractional part: if a `.` or `,` and a digit follow, every following digit is consumed and
the first nine give the nanoseconds. -/
def parseFraction (value : List Char) : Option (Nat × List Char) :=
  match value with
  | c :: d :: rest =>
    if (c = '.' || c = ',') && isDigit d then
      let digits := (d :: rest).takeWhile isDigit
      let ds := digits.take 9
      match atoi ds with
      | none => none
      | some ns =>
        if ns < 0 then none
        else some (ns.toNat * 10 ^ (9 - ds.length), (d :: rest).dropWhile isDigit)
    else some (0, value)
  | _ => some (0, value)

/-- The `Z07:00` element of a layout: `Z`, or a sign, two digits, a colon and two digits;
an offset of more than 24 hours or more than 60 minutes is a range error. -/
def parseZone (value : List Char) : Option (Location × List Char) :=
  match value with
  | 'Z' :: rest => some (Location.UTC, rest)
  | sign :: h1 :: h2 :: c :: m1 :: m2 :: rest =>
    if c ≠ ':' then none
    else match getnum [h1, h2] true, getnum [m1, m2] true with
      | some (hr, _), some (mm, _) =>
        if hr > 24 then none
        else if mm > 60 then none
        else if sign = '+' then some (Location.Fixed (((hr * 60 + mm) * 60 : Nat) : Int), rest)
        else if sign = '-' then some (Location.Fixed (-(((hr * 60 + mm) * 60 : Nat) : Int)), rest)
        else none
      | _, _ => none
  | _ => none

/-- A range or syntax check inside a parse: `none` is Go's parse error. -/
def check (ok : Bool) : Option Unit := if ok then some () else none

/-- The date elements `2006-01-02` of the RFC 3339 layout (stdLongYear, stdZeroMonth,
stdZeroDay with their separators): year, month, day and the remaining bytes. The year is
four bytes, the first a digit, read by `atoi`. -/
def parseDateElems (value : List Char) : Option (Int × Nat × Nat × List Char) := do
  check (4 ≤ value.length && (value.head?.map isDigit).getD false)
  let yr ← atoi (value.take 4)
  let v ← skip (value.drop 4) '-'
  let m ← getnum v true
  check (1 ≤ m.1 && m.1 ≤ 12)
  let v ← skip m.2 '-'
  let d ← getnum v true
  return (yr, m.1, d.1, d.2)

/-- The clock elements `15:04:05` of the RFC 3339 layout (stdHour, stdZeroMinute,
stdZeroSecond with an optional fraction): hour, minute, second, nanoseconds and the
remaining bytes. -/
def parseClockElems (value : List Char) : Option (Nat × Nat × Nat × Nat × List Char) := do
  let h ← getnum value false
  check (h.1 < 24)
  let v ← skip h.2 ':'
  let mi ← getnum v true
  check (mi.1 < 60)
  let v ← skip mi.2 ':'
  let s ← getnum v true
  check (s.1 < 60)
  let f ← parseFraction s.2
  return (h.1, mi.1, s.1, f.1, f.2)

/-- Go `time.Parse(time.RFC3339, value)`, layout `2006-01-02T15:04:05Z07:00`, on the bytes
of `value`; `none` when Go returns an error. -/
def parseRFC3339 (value : List Char) : Option Time := do
  let d ← parseDateElems value
  let v ← skip d.2.2.2 'T'
  let c ← parseClockElems v
  -- stdISO8601ColonTZ
  let z ← parseZone c.2.2.2.2
  -- end of layout: no extra text
  check z.2.isEmpty
  -- validate the day of the month
  check (1 ≤ d.2.2.1 && d.2.2.1 ≤ daysIn d.2.1 d.1)
  return ⟨d.1, d.2.1, d.2.2.1, c.1, c.2.1, c.2.2.1, c.2.2.2.1, z.1⟩

/-- Go `time.Parse("1/2/06", value)` on the bytes of `value`; `none` when Go returns an
error. A two-digit year `yy` is `19yy` from 69 on and `20yy` below. -/
def parseMDYY (value : List Char) : Option Time := do
  -- stdNumMonth
  let m ← getnum value false
  check (1 ≤ m.1 && m.1 ≤ 12)
  let v ← skip m.2 '/'
  -- stdDay
  let d ← getnum v false
  let v ← skip d.2 '/'
  -- stdYear: two bytes
  check (2 ≤ v.length)
  let yy ← atoi (v.take 2)
  let yr : Int := if yy ≥ 69 then yy + 1900 else yy + 2000
  -- end of layout: no extra text
  check (v.drop 2).isEmpty
  -- validate the day of the month
  check (1 ≤ d.1 && d.1 ≤ daysIn m.1 yr)
  return ⟨yr, m.1, d.1, 0, 0, 0, 0, Location.UTC⟩

/-- Go `time.Parse(time.RFC3339, s)`. -/
def Parse_RFC3339 (s : String) : Option Time := parseRFC3339 s.data

/-- Go `time.Parse("1/2/06", s)`. -/
def Parse_1_2_06 (s : String) : Option Time := parseMDYY s.data

/-- The byte `'0' + d`. -/
def digitChar (d : Nat) : Char := Char.ofNat (48 + d)

/-- The decimal digits of `u`, assembled from the last one as in Go `appendInt`; `fuel`
bounds the number of divisions. -/
def decimal : Nat → Nat → List Char → List Char
  | 0, u, acc => digitChar (u % 10) :: acc
  | fuel + 1, u, acc =>
    if 10 ≤ u then decimal fuel (u / 10) (digitChar (u % 10) :: acc)
    else digitChar u :: acc

/-- Go `appendInt`: a `-` for a negative number, then its decimal digits padded with
zeros on the left to at least `width` digits. -/
def appendInt (x : Int) (width : Nat) : List Char :=
  let u := x.natAbs
  let ds := decimal u u []
  (if x < 0 then ['-'] else []) ++ List.replicate (width - ds.length) '0' ++ ds

/-- Go `t.Format("2006-01-02")`. -/
def Time.Format (t : Time) : String :=
  String.mk (appendInt t.year 4 ++ '-' :: appendInt t.month 2 ++ '-' :: appendInt t.day 2)

/-! ## The `date` helper -/

/-- Go `date(record, idx, header)`. -/
def date (record : List String) (idx : HeaderIndex) (header : String) : Time × Option Error :=
  let s := Val record idx header
  if s = "" then (Time.zero, none)
  else match Parse_RFC3339 s with
    | some d => (d, none)
    | none =>
      match Parse_1_2_06 s with
      | none => (Time.zero, some (Error.invalidDate header s))
      | some d => (d, none)

/-! ## Bill identities -/

/-- Go `domain.BillDetails` (fields as `GetBills` sets them). Lean's `=` on bills is
equality of the four field values; Go's `==` is `BillDetails.goEq`. -/
structure BillDetails where
  InvoiceID : String
  InvoiceDate : Time
  WarehouseZip : String
  AccountNo : String
  deriving DecidableEq, Repr

/-- The machine's local time zone, `time.Local`, as `time.Parse` consults it after reading
a numeric offset: whether the local zone has, at the instant of the reading, the offset
of the reading. -/
structure LocalZone where
  hasOffsetOf : Time → Bool

/-- A machine whose local zone is UTC: the local zone has offset 0 at every instant. -/
def utcZone : LocalZone := ⟨fun t => t.loc == Location.Fixed 0⟩

/-- Go `FixedZone("", offset)` returns one shared `*Location` per whole hour from -12 to
+14 and allocates a new `Location` for every other offset. -/
def cachedHourZone (offset : Int) : Bool :=
  offset % 3600 == 0 && -12 ≤ offset / 3600 && offset / 3600 ≤ 14

/-- The `*Location` pointer of a time returned by `time.Parse` (or of the zero time) is
shared by every other such time of the same value: `nil` for UTC, `time.Local` when the
offset is that of the local zone, the cached zone of a whole hour; for any other offset
`time.Parse` allocates a new `Location` at each call. -/
def Time.sharedZone (tz : LocalZone) (t : Time) : Bool :=
  match t.loc with
  | Location.UTC => true
  | Location.Fixed offset => tz.hasOffsetOf t || cachedHourZone offset

/-- Go `a == b` on two `BillDetails` whose invoice dates come from different calls of
`date`: the four fields are compared, `time.Time` by its instant and its `*Location`
pointer, and the two pointers are the same only for a shared zone. -/
def BillDetails.goEq (tz : LocalZone) (a b : BillDetails) : Bool :=
  decide (a = b) && a.InvoiceDate.sharedZone tz

/-- Modelled from the spec: `util.OrderedSet` is not part of the source file. It is "an
order-preserving deduplicating set keyed by full structural equality", to be
reimplemented "as an explicit sequence plus a set/map of seen composite keys,
insertion-checked before appending". -/
structure OrderedSet (α : Type) where
  items : List α

/-- Modelled from the spec: `util.NewOrderedSet`, the empty set. -/
def NewOrderedSet {α : Type} : OrderedSet α := ⟨[]⟩

/-- Modelled from the spec: `OrderedSet.Add`, appending a value that was not seen before.
The set is generic over a comparable element type and is created without a key function
(`NewOrderedSet[domain.BillDetails]()`), so "seen" is Go's `==` on the element type, here
the parameter `same` applied to the new value and a stored one. -/
def OrderedSet.Add {α : Type} (same : α → α → Bool) (u : OrderedSet α) (x : α) :
    OrderedSet α :=
  if u.items.any (fun y => same x y) then u else ⟨u.items ++ [x]⟩

/-- Modelled from the spec: `OrderedSet.Values`, the values in first-seen order. -/
def OrderedSet.Values {α : Type} (u : OrderedSet α) : List α := u.items

/-- Go `Adapter2.buildInvoiceNumber`: `fmt.Sprintf("%s-%s", carrierAccountId, dateStr)`. -/
def buildInvoiceNumber (cols : Columns) (row : List String) (hidx : HeaderIndex)
    (createdAtDate : Time) : String :=
  let carrierAccountId := Val row hidx cols.CarrierAccountID
  let dateStr := createdAtDate.Format
  carrierAccountId ++ "-" ++ dateStr

/-- The row loop of `GetBills`; `tz` is the local zone of the machine it runs on. -/
def GetBills.loop (tz : LocalZone) (cols : Columns) (hidx : HeaderIndex) :
    List (List String) → OrderedSet BillDetails → List BillDetails × Option Error
  | [], unique => (unique.Values, none)
  | row :: rows, unique =>
    match date row hidx cols.CreatedAt with
    | (_, some err) => ([], some (Error.wrap "failed to parse invoice date" err))
    | (createdAtDate, none) =>
      let invoiceID := buildInvoiceNumber cols row hidx createdAtDate
      let warehouseZip := Val row hidx cols.FromZip
      let accountNumber := Val row hidx cols.CarrierAccountID
      GetBills.loop tz cols hidx rows
        (unique.Add (BillDetails.goEq tz)
          { InvoiceID := invoiceID, InvoiceDate := createdAtDate,
            WarehouseZip := warehouseZip, AccountNo := accountNumber })

/-- Go `Adapter2.GetBills`, run on a machine whose local zone is `tz`. -/
def GetBills (tz : LocalZone) (cols : Columns) (headers : List String)
    (rows : List (List String)) : List BillDetails × Option Error :=
  let hidx := BuildHeaderIndex headers
  GetBills.loop tz cols hidx rows NewOrderedSet

/-! ## Numeric cells -/

/-- The reading of `float64` literals, which the embedding does not compute: the value
type, its zero, and the value of each well-formed literal (`none` for a string that
`strconv.ParseFloat` rejects). -/
structure FloatParser (F : Type) where
  zero : F
  literal : String → Option F

/-- Go `strconv.ParseFloat(s, 64)`: the empty string is a syntax error with value 0; the
value returned with an error on a non-empty string is never used by the adapter. -/
def ParseFloat {F : Type} (fp : FloatParser F) (s : String) : F × Option Error :=
  if s = "" then (fp.zero, some (Error.numError "ParseFloat" s "invalid syntax"))
  else match fp.literal s with
    | some x => (x, none)
    | none => (fp.zero, some (Error.numError "ParseFloat" s "invalid syntax"))

/-- Modelled from the spec: `data.Float` is not part of the source file. A numeric column
is read by parsing its cell "as a float". -/
def Float {F : Type} (fp : FloatParser F) (rec : List String) (hidx : HeaderIndex)
    (h : String) : F × Option Error :=
  ParseFloat fp (Val rec hidx h)

/-- Go `strconv.Atoi` with a 64-bit `int`: an optional sign and decimal digits; a syntax
error gives 0, a range error the nearest bound. -/
def Atoi (s : String) : Int × Option Error :=
  let cs := s.data
  let neg := cs.head? == some '-'
  let ds := if cs.head? == some '-' || cs.head? == some '+' then cs.tail else cs
  if ds.isEmpty || !ds.all isDigit then (0, some (Error.numError "Atoi" s "invalid syntax"))
  else
    let n : Nat := ds.foldl (fun a c => a * 10 + digitVal c) 0
    if neg then
      if n > 2 ^ 63 then (-(2 ^ 63 : Int), some (Error.numError "Atoi" s "value out of range"))
      else (-(n : Int), none)
    else
      if n ≥ 2 ^ 63 then ((2 ^ 63 - 1 : Int), some (Error.numError "Atoi" s "value out of range"))
      else ((n : Int), none)

/-- The guard `err != nil && data.Val(rec, hidx, col) != ""` of `extractBillRecords`,
with the error `fmt.Errorf(msg + ": %w", err)` it returns. -/
def parseFailure (msg : String) (err : Option Error) (cell : String) : Option Error :=
  match err with
  | some e => if cell ≠ "" then some (Error.wrap msg e) else none
  | none => none

/-! ## Staging rows and the staging plan -/

/-- A Go `any` holding one of the value types the adapter stores in a staging row. -/
inductive AnyVal (F : Type) where
  | str (s : String)
  | float (x : F)
  | int (n : Int)
  | time (t : Time)

/-- Go `domain.BillUploadDetails` (the field the adapter reads). -/
structure BillUploadDetails where
  AccountNumber : String

/-- Go `domain.StagingBatch`. -/
structure StagingBatch (F : Type) where
  Name : String
  Table : String
  Cols : List String
  Rows : List (List (AnyVal F))
  Chunk : Nat

/-- Go `domain.SprocCall`. -/
structure SprocCall (F : Type) where
  Name : String
  After : List String
  Params : BillUploadDetails → List (AnyVal F)

/-- Go `domain.StagingPlan`. -/
structure StagingPlan (F : Type) where
  Batches : List (StagingBatch F)
  Sprocs : List (SprocCall F)

/-- Go `Adapter2.extractBillRecords`. -/
def extractBillRecords {F : Type} (fp : FloatParser F) (cols : Columns) (rec : List String)
    (hidx : HeaderIndex) (records : List (List (AnyVal F))) :
    List (List (AnyVal F)) × Option Error :=
  let trackingCode := Val rec hidx cols.TrackingCode
  let rate := Float fp rec hidx cols.Rate
  match parseFailure "parse rate" rate.2 (Val rec hidx cols.Rate) with
  | some e => ([], some e)
  | none =>
  let labelFee := Float fp rec hidx cols.LabelFee
  match parseFailure "parse label fee" labelFee.2 (Val rec hidx cols.LabelFee) with
  | some e => ([], some e)
  | none =>
  let postageFee := Float fp rec hidx cols.PostageFee
  match parseFailure "parse postage fee" postageFee.2 (Val rec hidx cols.PostageFee) with
  | some e => ([], some e)
  | none =>
  let insuranceFee := Float fp rec hidx cols.InsuranceFee
  match parseFailure "parse insurance fee" insuranceFee.2 (Val rec hidx cols.InsuranceFee) with
  | some e => ([], some e)
  | none =>
  let carbonOffsetFee := Float fp rec hidx cols.CarbonOffsetFee
  match parseFailure "parse carbon offset fee" carbonOffsetFee.2
      (Val rec hidx cols.CarbonOffsetFee) with
  | some e => ([], some e)
  | none =>
  let weight := Float fp rec hidx cols.Weight
  match parseFailure "parse weight" weight.2 (Val rec hidx cols.Weight) with
  | some e => ([], some e)
  | none =>
  let length := Float fp rec hidx cols.Length
  match parseFailure "parse length" length.2 (Val rec hidx cols.Length) with
  | some e => ([], some e)
  | none =>
  let width := Float fp rec hidx cols.Width
  match parseFailure "parse width" width.2 (Val rec hidx cols.Width) with
  | some e => ([], some e)
  | none =>
  let height := Float fp rec hidx cols.Height
  match parseFailure "parse height" height.2 (Val rec hidx cols.Height) with
  | some e => ([], some e)
  | none =>
  let fromZip := Val rec hidx cols.FromZip
  let uspsZone := Atoi (Val rec hidx cols.USPSZone)
  match parseFailure "parse uspsZone" uspsZone.2 (Val rec hidx cols.USPSZone) with
  | some e => ([], some e)
  | none =>
  let billDate := date rec hidx cols.CreatedAt
  match billDate.2 with
  | some e => ([], some (Error.wrap "parse created date" e))
  | none =>
  let postageLabelCreatedAt := date rec hidx cols.PostageLabelCreatedAt
  match postageLabelCreatedAt.2 with
  | some e => ([], some (Error.wrap "parse postage label date" e))
  | none =>
  let invoiceNumber := buildInvoiceNumber cols rec hidx billDate.1
  let service := Val rec hidx cols.Service
  (records ++ [[AnyVal.str trackingCode, AnyVal.float weight.1,
      AnyVal.float rate.1, AnyVal.float labelFee.1, AnyVal.float postageFee.1,
      AnyVal.int uspsZone.1, AnyVal.str fromZip,
      AnyVal.float length.1, AnyVal.float width.1, AnyVal.float height.1,
      AnyVal.time postageLabelCreatedAt.1,
      AnyVal.float insuranceFee.1, AnyVal.float carbonOffsetFee.1,
      AnyVal.time billDate.1, AnyVal.str invoiceNumber,
      AnyVal.str service]], none)

/-- Go `Adapter2.buildStagingPlan`. -/
def buildStagingPlan {F : Type} (cols : Columns) (records : List (List (AnyVal F))) :
    StagingPlan F :=
  { Batches := [
      { Name := "usps_easypost_bill"
        Table := "elt_stage.usps_easy_post_bill"
        Cols := cols.BillDBColumnNames
        Rows := records
        Chunk := 5000 }]
    Sprocs := [
      { Name := "elt_stage.usp_SyncUSPSEasyPost"
        After := ["usps_easypost_bill"]
        Params := fun _ => [] }] }

/-- The row loop of `BuildStagingPlan`. -/
def BuildStagingPlan.loop {F : Type} (fp : FloatParser F) (cols : Columns) (hidx : HeaderIndex) :
    List (List String) → List (List (AnyVal F)) → StagingPlan F × Option Error
  | [], fedexBillRecords => (buildStagingPlan cols fedexBillRecords, none)
  | row :: rows, fedexBillRecords =>
    match extractBillRecords fp cols row hidx fedexBillRecords with
    | (_, some err) => ({ Batches := [], Sprocs := [] }, some err)
    | (records, none) => BuildStagingPlan.loop fp cols hidx rows records

/-- Go `Adapter2.BuildStagingPlan`. -/
def BuildStagingPlan {F : Type} (fp : FloatParser F) (cols : Columns) (headers : List String)
    (rows : List (List String)) : StagingPlan F × Option Error :=
  let hidx := BuildHeaderIndex headers
  BuildStagingPlan.loop fp cols hidx rows []

/-! ## Validation -/

/-- The loop of `Validate`: a bill without account number is skipped, a bill whose account
number differs from the given one appends an error (the warning it also logs is not
modelled). -/
def Validate.loop (billUploadDetails : BillUploadDetails) :
    List BillDetails → List Error → List Error
  | [], errors => errors
  | bill :: rest, errors =>
    if bill.AccountNo = "" then Validate.loop billUploadDetails rest errors
    else if bill.AccountNo ≠ billUploadDetails.AccountNumber then
      Validate.loop billUploadDetails rest
        (errors ++ [Error.accountMismatch bill.AccountNo billUploadDetails.AccountNumber])
    else Validate.loop billUploadDetails rest errors

/-- Go `Adapter2.Validate`. -/
def Validate (billDetails : List BillDetails) (billUploadDetails : BillUploadDetails) :
    List Error :=
  Validate.loop billUploadDetails billDetails []

/-! ## Auxiliary definitions used in the statements -/

/-- The bill that the loop body of `GetBills` adds for `row` (source lines 47-55), with
`createdAtDate` the value returned by `date` for the creation-date column. -/
def rowBill (cols : Columns) (hidx : HeaderIndex) (row : List String) : BillDetails :=
  let createdAtDate := (date row hidx cols.CreatedAt).1
  { InvoiceID := buildInvoiceNumber cols row hidx createdAtDate
    InvoiceDate := createdAtDate
    WarehouseZip := Val row hidx cols.FromZip
    AccountNo := Val row hidx cols.CarrierAccountID }

/-- Column names used in the worked examples. -/
def sampleColumns : Columns :=
  { TrackingCode := "tracking_code", Rate := "rate", LabelFee := "label_fee"
    PostageFee := "postage_fee", InsuranceFee := "insurance_fee"
    CarbonOffsetFee := "carbon_offset_fee", Weight := "weight", Length := "length"
    Width := "width", Height := "height", FromZip := "from_zip", USPSZone := "usps_zone"
    CreatedAt := "created_at", PostageLabelCreatedAt := "postage_label_created_at"
    Service := "service", CarrierAccountID := "carrier_account_id"
    BillDBColumnNames := ["tracking_code", "weight", "rate", "label_fee", "postage_fee",
      "usps_zone", "from_zip", "length", "width", "height", "postage_label_created_at",
      "insurance_fee", "carbon_offset_fee", "bill_date", "invoice_number", "service"] }

/-- Header row used in the worked examples on `GetBills`. -/
def sampleHeaders : List String := ["carrier_account_id", "created_at", "from_zip"]

/-- Four rows, the first and the last giving the same bill, the second the same bill
again through the RFC 3339 form of the date. -/
def sampleRows : List (List String) :=
  [["1001", "3/5/24", "90210"], ["1001", "2024-03-05T00:00:00Z", "90210"],
   ["1002", "", "10001"], ["1001", "3/5/24", "90210"]]

/-- A row with a thirty-character carrier account. -/
def longAccountRows : List (List String) :=
  [["AAAAAAAAAAAAAAAAAAAAAAAAAAAAAA", "3/5/24", "90210"]]

/-- The staging row that `extractBillRecords` appends for `rec` (source lines 160-169). -/
def stagingRow {F : Type} (fp : FloatParser F) (cols : Columns) (rec : List String)
    (hidx : HeaderIndex) : List (AnyVal F) :=
  [AnyVal.str (Val rec hidx cols.TrackingCode), AnyVal.float (Float fp rec hidx cols.Weight).1,
   AnyVal.float (Float fp rec hidx cols.Rate).1, AnyVal.float (Float fp rec hidx cols.LabelFee).1,
   AnyVal.float (Float fp rec hidx cols.PostageFee).1,
   AnyVal.int (Atoi (Val rec hidx cols.USPSZone)).1, AnyVal.str (Val rec hidx cols.FromZip),
   AnyVal.float (Float fp rec hidx cols.Length).1, AnyVal.float (Float fp rec hidx cols.Width).1,
   AnyVal.float (Float fp rec hidx cols.Height).1,
   AnyVal.time (date rec hidx cols.PostageLabelCreatedAt).1,
   AnyVal.float (Float fp rec hidx cols.InsuranceFee).1,
   AnyVal.float (Float fp rec hidx cols.CarbonOffsetFee).1,
   AnyVal.time (date rec hidx cols.CreatedAt).1,
   AnyVal.str (buildInvoiceNumber cols rec hidx (date rec hidx cols.CreatedAt).1),
   AnyVal.str (Val rec hidx cols.Service)]

/-- The error checks of `extractBillRecords` in source order, each with the error it
returns. -/
def rowGuards {F : Type} (fp : FloatParser F) (cols : Columns) (rec : List String)
    (hidx : HeaderIndex) : List (Option Error) :=
  [parseFailure "parse rate" (Float fp rec hidx cols.Rate).2 (Val rec hidx cols.Rate),
   parseFailure "parse label fee" (Float fp rec hidx cols.LabelFee).2
     (Val rec hidx cols.LabelFee),
   parseFailure "parse postage fee" (Float fp rec hidx cols.PostageFee).2
     (Val rec hidx cols.PostageFee),
   parseFailure "parse insurance fee" (Float fp rec hidx cols.InsuranceFee).2
     (Val rec hidx cols.InsuranceFee),
   parseFailure "parse carbon offset fee" (Float fp rec hidx cols.CarbonOffsetFee).2
     (Val rec hidx cols.CarbonOffsetFee),
   parseFailure "parse weight" (Float fp rec hidx cols.Weight).2 (Val rec hidx cols.Weight),
   parseFailure "parse length" (Float fp rec hidx cols.Length).2 (Val rec hidx cols.Length),
   parseFailure "parse width" (Float fp rec hidx cols.Width).2 (Val rec hidx cols.Width),
   parseFailure "parse height" (Float fp rec hidx cols.Height).2 (Val rec hidx cols.Height),
   parseFailure "parse uspsZone" (Atoi (Val rec hidx cols.USPSZone)).2
     (Val rec hidx cols.USPSZone),
   (date rec hidx cols.CreatedAt).2.map (Error.wrap "parse created date"),
   (date rec hidx cols.PostageLabelCreatedAt).2.map (Error.wrap "parse postage label date")]

/-- The condition of claim C8 on one row: a non-empty cell that does not parse in one of
the nine float columns, in the USPS zone column (an integer), or in one of the two date
columns. -/
def RowRejected {F : Type} (fp : FloatParser F) (cols : Columns) (rec : List String)
    (hidx : HeaderIndex) : Prop :=
  (∃ c ∈ [cols.Rate, cols.LabelFee, cols.PostageFee, cols.InsuranceFee, cols.CarbonOffsetFee,
      cols.Weight, cols.Length, cols.Width, cols.Height],
    Val rec hidx c ≠ "" ∧ fp.literal (Val rec hidx c) = none) ∨
  (Val rec hidx cols.USPSZone ≠ "" ∧ (Atoi (Val rec hidx cols.USPSZone)).2 ≠ none) ∨
  (∃ c ∈ [cols.CreatedAt, cols.PostageLabelCreatedAt],
    Val rec hidx c ≠ "" ∧ Parse_RFC3339 (Val rec hidx c) = none ∧
      Parse_1_2_06 (Val rec hidx c) = none)

/-- The decimal value of a digit string. -/
def digitsValue (ds : List Char) : Nat := ds.foldl (fun a c => a * 10 + digitVal c) 0

/-- A reading of plain decimal literals `digits` and `digits.digits` as a pair (all the
digits as a number, how many of them follow the point), used in the worked examples. -/
def sampleFloats : FloatParser (Nat × Nat) :=
  { zero := (0, 0)
    literal := fun s =>
      let ip := s.data.takeWhile isDigit
      match s.data.dropWhile isDigit with
      | [] => if ip.isEmpty then none else some (digitsValue ip, 0)
      | c :: fr =>
        if c = '.' && fr.all isDigit && !ip.isEmpty && !fr.isEmpty then
          some (digitsValue (ip ++ fr), fr.length)
        else none }

/-- Header row used in the worked examples on `BuildStagingPlan`. -/
def stagingHeaders : List String :=
  ["tracking_code", "carrier_account_id", "created_at", "from_zip", "rate", "usps_zone"]

/-- Two rows that parse: a rate `12.5` in zone 4, and an empty rate and zone. -/
def stagingRows : List (List String) :=
  [["9400", "1001", "3/5/24", "90210", "12.5", "4"],
   ["9401", "1001", "2024-03-05T00:00:00Z", "90210", "", ""]]

/-- The `date` helper with its two parse attempts in the other order, the `1/2/06` layout
first and RFC 3339 second. It is not in the source; it serves to compare the two
orders. -/
def dateCompactFirst (record : List String) (idx : HeaderIndex) (header : String) :
    Time × Option Error :=
  let s := Val record idx header
  if s = "" then (Time.zero, none)
  else match Parse_1_2_06 s with
    | some d => (d, none)
    | none =>
      match Parse_RFC3339 s with
      | none => (Time.zero, some (Error.invalidDate header s))
      | some d => (d, none)

/-- A bill with the given account number, used in the worked examples on `Validate`. -/
def billWithAccount (account : String) : BillDetails :=
  { InvoiceID := account ++ "-2024-03-05"
    InvoiceDate := ⟨2024, 3, 5, 0, 0, 0, 0, Location.UTC⟩
    WarehouseZip := "90210"
    AccountNo := account }

/-- The columns that `extractBillRecords` parses: nine floats, the zone and two dates. -/
def parsedColumns (cols : Columns) : List String :=
  [cols.Rate, cols.LabelFee, cols.PostageFee, cols.InsuranceFee, cols.CarbonOffsetFee,
   cols.Weight, cols.Length, cols.Width, cols.Height, cols.USPSZone, cols.CreatedAt,
   cols.PostageLabelCreatedAt]

/-- A header row without creation date, from-zip and rate columns. -/
def shortHeaders : List String := ["tracking_code", "carrier_account_id"]

/-- Two rows with the same account and creation day and different from-zip cells. -/
def twoZipRows : List (List String) :=
  [["1001", "3/5/24", "90210"], ["1001", "3/5/24", "10001"]]

/-- Two rows with the same account, creation day and from-zip cell, created at different
times of that day. -/
def twoTimeRows : List (List String) :=
  [["1001", "2024-03-05T08:00:00Z", "90210"], ["1001", "2024-03-05T17:30:00Z", "90210"]]

/-- Header row used in the worked examples that run both `GetBills` and
`BuildStagingPlan`. -/
def fullHeaders : List String :=
  ["tracking_code", "carrier_account_id", "created_at", "from_zip", "rate", "usps_zone"]

/-- The two-digit decimal text of `n`. -/
def twoDigits (n : Nat) : List Char := [digitChar (n / 10), digitChar (n % 10)]

/-- The four-digit decimal text of `n`. -/
def fourDigits (n : Nat) : List Char :=
  [digitChar (n / 1000), digitChar (n / 100 % 10), digitChar (n / 10 % 10), digitChar (n % 10)]

/-- The number written by a list of decimal digits, most significant first. -/
def digitsNumber (ks : List Nat) : Nat := ks.foldl (fun a k => a * 10 + k) 0

/-- The zone element of an RFC 3339 timestamp: `Z`, or a numeric offset east or west of
UTC in hours and minutes. -/
inductive ZoneText where
  | Z
  | offset (east : Bool) (hours : Nat) (minutes : Nat)

/-- The text of a zone element: `Z`, `+hh:mm` or `-hh:mm`. -/
def ZoneText.text : ZoneText → List Char
  | ZoneText.Z => ['Z']
  | ZoneText.offset east h m => (if east then '+' else '-') :: (twoDigits h ++ ':' :: twoDigits m)

/-- The location a zone element denotes: UTC for `Z`, otherwise its offset in seconds. -/
def ZoneText.loc : ZoneText → Location
  | ZoneText.Z => Location.UTC
  | ZoneText.offset east h m =>
    Location.Fixed (if east then (((h * 60 + m) * 60 : Nat) : Int)
      else -(((h * 60 + m) * 60 : Nat) : Int))

/-- A zone element of RFC 3339: at most 23 hours and 59 minutes. -/
def ZoneText.WellFormed : ZoneText → Bool
  | ZoneText.Z => true
  | ZoneText.offset _ h m => decide (h ≤ 23) && decide (m ≤ 59)

/-- The fraction of a second written by the digits `fs`: nothing when there are none, else
a point and the digits. -/
def fractionText (fs : List Nat) : List Char :=
  if fs.isEmpty then [] else '.' :: fs.map digitChar

/-- The nanoseconds that a fraction of at most nine digits denotes. -/
def fractionNanos (fs : List Nat) : Nat := digitsNumber fs * 10 ^ (9 - fs.length)

/-- The RFC 3339 text `yyyy-mm-ddThh:mm:ss[.fraction]zone` of a timestamp. -/
def rfc3339Text (y mo d h mi s : Nat) (fs : List Nat) (z : ZoneText) : String :=
  String.mk (fourDigits y ++ '-' :: (twoDigits mo ++ '-' :: (twoDigits d ++ 'T' ::
    (twoDigits h ++ ':' :: (twoDigits mi ++ ':' :: (twoDigits s ++
      (fractionText fs ++ z.text)))))))

/-- The text of a month or day number in an `M/D/YY` date: one digit below ten unless it
is padded, two digits otherwise. -/
def shortNumber (n : Nat) (padded : Bool) : List Char :=
  if n < 10 && !padded then [digitChar n] else twoDigits n

/-- The `M/D/YY` text of a date with the two-digit year `yy`. -/
def compactText (mo d yy : Nat) (padMonth padDay : Bool) : String :=
  String.mk (shortNumber mo padMonth ++ '/' :: (shortNumber d padDay ++ '/' :: twoDigits yy))

/-- The year that a two-digit year denotes: `19yy` from 69 on, `20yy` below. -/
def centuryYear (yy : Nat) : Int := if 69 ≤ yy then 1900 + yy else 2000 + yy

/-- The sign written before a number: none, `+` or `-`. -/
inductive SignText where
  | none
  | plus
  | minus

/-- The text of a sign. -/
def SignText.text : SignText → List Char
  | SignText.none => []
  | SignText.plus => ['+']
  | SignText.minus => ['-']

/-- Whether a sign makes the number negative. -/
def SignText.negative : SignText → Bool
  | SignText.minus => true
  | _ => false

/-- The decimal text of an integer: an optional sign and the digits `ks`. -/
def intText (sg : SignText) (ks : List Nat) : String :=
  String.mk (sg.text ++ ks.map digitChar)

/-- The integer that `intText sg ks` denotes. -/
def intValue (sg : SignText) (ks : List Nat) : Int :=
  if sg.negative then -((digitsNumber ks : Nat) : Int) else ((digitsNumber ks : Nat) : Int)

/-- The text of a decimal literal: an optional sign, the integer digits `ip` and, when
there are fraction digits `fr`, a point and those digits. -/
def decimalText (sg : SignText) (ip fr : List Nat) : String :=
  String.mk (sg.text ++ (ip.map digitChar ++ fractionText fr))

/-- The rational number that `decimalText sg ip fr` denotes. -/
def decimalValue (sg : SignText) (ip fr : List Nat) : ℚ :=
  if sg.negative then -(((digitsNumber (ip ++ fr) : Nat) : ℚ) / 10 ^ fr.length)
  else ((digitsNumber (ip ++ fr) : Nat) : ℚ) / 10 ^ fr.length

/-- A sufficient test that the rational `q` is a finite `float64` value: in lowest terms
its numerator is below `2 ^ 53` in magnitude and its denominator is a power of two not
above `2 ^ 1074`, so that `q` is `m * 2 ^ (-k)` with a 53-bit `m` and `k ≤ 1074`. -/
def isFloat64 (q : ℚ) : Bool := decide (q.num.natAbs < 2 ^ 53) && decide (q.den ∣ 2 ^ 1074)

/-- What claim C9 uses of `strconv.ParseFloat(s, 64)`, for a reading whose values are the
rationals that finite `float64` values denote: the zero value is 0; a decimal literal
whose value is a `float64` is read as exactly that value (the result is the nearest
`float64`); and a string that starts with a byte other than a digit, a sign, a point, or
the first letter of `inf`, `infinity` or `nan` is a syntax error. -/
structure FloatParser.ReadsDecimals (fp : FloatParser ℚ) : Prop where
  zero_eq : fp.zero = 0
  decimal : ∀ (sg : SignText) (ip fr : List Nat), ip ≠ [] → (∀ k ∈ ip, k < 10) →
    (∀ k ∈ fr, k < 10) → isFloat64 (decimalValue sg ip fr) = true →
    fp.literal (decimalText sg ip fr) = some (decimalValue sg ip fr)
  reject : ∀ (s : String) (c : Char) (rest : List Char), s.data = c :: rest →
    isDigit c = false → c ∉ ['+', '-', '.', 'i', 'I', 'n', 'N'] → fp.literal s = none

/-- The number written by an unsigned decimal literal `digits` or `digits.digits`; `none`
for any other string. -/
def readUnsigned (ds : List Char) : Option ℚ :=
  match ds.dropWhile isDigit with
  | [] => if (ds.takeWhile isDigit).isEmpty then none
    else some ((digitsValue (ds.takeWhile isDigit) : Nat) : ℚ)
  | c :: fr =>
    if c = '.' && fr.all isDigit && !(ds.takeWhile isDigit).isEmpty && !fr.isEmpty then
      some (((digitsValue (ds.takeWhile isDigit ++ fr) : Nat) : ℚ) / 10 ^ fr.length)
    else none

/-- A reading that satisfies `FloatParser.ReadsDecimals`: a decimal literal
`[sign]digits[.digits]` is read as the rational it denotes, every other string is
rejected. -/
def exactDecimals : FloatParser ℚ :=
  { zero := 0
    literal := fun s =>
      let neg := s.data.head? == some '-'
      let ds := if s.data.head? == some '-' || s.data.head? == some '+' then s.data.tail
        else s.data
      (readUnsigned ds).map (fun v => if neg then -v else v) }

/-- The tolerant reading of a float cell: zero when the cell is empty, the number the cell
denotes when the cell is a decimal literal of a `float64` value, and in any case the
reading of the cell when it is a well-formed literal. -/
def TolerantFloat (fp : FloatParser ℚ) (cell : String) (v : ℚ) : Prop :=
  (cell = "" → v = 0) ∧
  (∀ (sg : SignText) (ip fr : List Nat), ip ≠ [] → (∀ k ∈ ip, k < 10) → (∀ k ∈ fr, k < 10) →
    isFloat64 (decimalValue sg ip fr) = true → cell = decimalText sg ip fr →
    v = decimalValue sg ip fr) ∧
  (∀ x, cell ≠ "" → fp.literal cell = some x → v = x)

/-- The tolerant reading of an integer cell: zero when the cell is empty, the number the
cell denotes when the cell is the decimal text of an integer that fits 64 bits. -/
def TolerantInt (cell : String) (n : Int) : Prop :=
  (cell = "" → n = 0) ∧
  (∀ (sg : SignText) (ks : List Nat), ks ≠ [] → (∀ k ∈ ks, k < 10) →
    digitsNumber ks < 2 ^ 63 → cell = intText sg ks → n = intValue sg ks)

/-- The staging row `r` holds at position `i` a float that is the tolerant reading of
`cell`. -/
def HoldsFloat (fp : FloatParser ℚ) (r : List (AnyVal ℚ)) (i : Nat) (cell : String) : Prop :=
  ∃ v, r[i]? = some (AnyVal.float v) ∧ TolerantFloat fp cell v

/-- The staging row `r` holds at position `i` an integer that is the tolerant reading of
`cell`. -/
def HoldsInt {F : Type} (r : List (AnyVal F)) (i : Nat) (cell : String) : Prop :=
  ∃ n, r[i]? = some (AnyVal.int n) ∧ TolerantInt cell n

/-- The condition of claim C13 on one row: a non-empty cell that does not parse, in a
parsed column that the header row has (one of the nine float columns, the USPS zone
column, or one of the two date columns). -/
def RowRejectedPresent {F : Type} (fp : FloatParser F) (cols : Columns)
    (headers : List String) (rec : List String) : Prop :=
  (∃ c ∈ [cols.Rate, cols.LabelFee, cols.PostageFee, cols.InsuranceFee, cols.CarbonOffsetFee,
      cols.Weight, cols.Length, cols.Width, cols.Height],
    c ∈ headers ∧ Val rec (BuildHeaderIndex headers) c ≠ "" ∧
      fp.literal (Val rec (BuildHeaderIndex headers) c) = none) ∨
  (cols.USPSZone ∈ headers ∧ Val rec (BuildHeaderIndex headers) cols.USPSZone ≠ "" ∧
    (Atoi (Val rec (BuildHeaderIndex headers) cols.USPSZone)).2 ≠ none) ∨
  (∃ c ∈ [cols.CreatedAt, cols.PostageLabelCreatedAt],
    c ∈ headers ∧ Val rec (BuildHeaderIndex headers) c ≠ "" ∧
      Parse_RFC3339 (Val rec (BuildHeaderIndex headers) c) = none ∧
      Parse_1_2_06 (Val rec (BuildHeaderIndex headers) c) = none)

/-- The columns that fill a staging row, each with its position in the row and the value
that an empty cell gives there: the empty string for the three text columns, zero for the
ten numeric columns and the zero date for the two date columns. (Position 14, the invoice
number, is built from two columns.) -/
def emptyValues {F : Type} (fp : FloatParser F) (cols : Columns) :
    List (String × Nat × AnyVal F) :=
  [(cols.TrackingCode, 0, AnyVal.str ""), (cols.Weight, 1, AnyVal.float fp.zero),
   (cols.Rate, 2, AnyVal.float fp.zero), (cols.LabelFee, 3, AnyVal.float fp.zero),
   (cols.PostageFee, 4, AnyVal.float fp.zero), (cols.USPSZone, 5, AnyVal.int 0),
   (cols.FromZip, 6, AnyVal.str ""), (cols.Length, 7, AnyVal.float fp.zero),
   (cols.Width, 8, AnyVal.float fp.zero), (cols.Height, 9, AnyVal.float fp.zero),
   (cols.PostageLabelCreatedAt, 10, AnyVal.time Time.zero),
   (cols.InsuranceFee, 11, AnyVal.float fp.zero),
   (cols.CarbonOffsetFee, 12, AnyVal.float fp.zero),
   (cols.CreatedAt, 13, AnyVal.time Time.zero), (cols.Service, 15, AnyVal.str "")]

/-! ## The ordered set -/

theorem OrderedSet.Add_of_not_mem {α : Type} (same : α → α → Bool) (u : OrderedSet α) (x : α)
    (hs : ∀ y, same x y = true → x = y) (h : x ∉ u.items) :
    (u.Add same x).items = u.items ++ [x] := by
  have hany : u.items.any (fun y => same x y) = false := by
    rw [Bool.eq_false_iff]
    intro hany
    obtain ⟨y, hy, hxy⟩ := List.any_eq_true.1 hany
    exact h (hs y hxy ▸ hy)
  simp [OrderedSet.Add, hany]

theorem OrderedSet.Add_of_mem {α : Type} [DecidableEq α] (same : α → α → Bool)
    (u : OrderedSet α) (x : α) (hx : ∀ y, same x y = decide (x = y)) (h : x ∈ u.items) :
    u.Add same x = u := by
  have hany : u.items.any (fun y => same x y) = true :=
    List.any_eq_true.2 ⟨x, h, by rw [hx]; simp⟩
  simp [OrderedSet.Add, hany]

theorem OrderedSet.mem_Add {α : Type} (same : α → α → Bool) (u : OrderedSet α) (y x : α)
    (hs : ∀ z, same y z = true → y = z) :
    x ∈ (u.Add same y).items ↔ x ∈ u.items ∨ x = y := by
  unfold OrderedSet.Add
  by_cases hany : u.items.any (fun z => same y z) = true
  · simp only [hany, if_true]
    constructor
    · exact Or.inl
    · rintro (h | h)
      · exact h
      · obtain ⟨z, hz, hyz⟩ := List.any_eq_true.1 hany
        rw [h, hs z hyz]
        exact hz
  · simp [hany]

theorem OrderedSet.mem_foldl_Add {α : Type} (same : α → α → Bool) (xs : List α)
    (hs : ∀ x ∈ xs, ∀ y, same x y = true → x = y) :
    ∀ (u : OrderedSet α) (x : α),
      x ∈ (xs.foldl (OrderedSet.Add same) u).items ↔ x ∈ u.items ∨ x ∈ xs := by
  induction xs with
  | nil => intro u x; simp
  | cons y ys ih =>
    intro u x
    rw [List.foldl_cons, ih (fun z hz => hs z (List.mem_cons_of_mem _ hz)),
      OrderedSet.mem_Add same u y x (hs y (List.mem_cons_self _ _)), List.mem_cons, or_assoc]

theorem OrderedSet.length_Add_le {α : Type} (same : α → α → Bool) (u : OrderedSet α)
    (x : α) : (u.Add same x).items.length ≤ u.items.length + 1 := by
  unfold OrderedSet.Add
  split_ifs <;> simp

theorem OrderedSet.length_foldl_Add_le {α : Type} (same : α → α → Bool) (xs : List α) :
    ∀ (u : OrderedSet α),
      (xs.foldl (OrderedSet.Add same) u).items.length ≤ u.items.length + xs.length := by
  induction xs with
  | nil => intro u; simp
  | cons y ys ih =>
    intro u
    rw [List.foldl_cons]
    refine le_trans (ih _) ?_
    have := OrderedSet.length_Add_le same u y
    simp only [List.length_cons]
    omega

theorem OrderedSet.nodup_foldl_Add {α : Type} [DecidableEq α] (same : α → α → Bool)
    (xs : List α) (hx : ∀ x ∈ xs, ∀ y, same x y = decide (x = y)) :
    ∀ (u : OrderedSet α), u.items.Nodup →
      (xs.foldl (OrderedSet.Add same) u).items.Nodup := by
  induction xs with
  | nil => intro u h; simpa using h
  | cons y ys ih =>
    intro u h
    rw [List.foldl_cons]
    apply ih (fun x hxm => hx x (List.mem_cons_of_mem _ hxm))
    have hy := hx y (List.mem_cons_self _ _)
    by_cases hmem : y ∈ u.items
    · rw [OrderedSet.Add_of_mem same u y hy hmem]
      exact h
    · rw [OrderedSet.Add_of_not_mem same u y (fun z hz => by simpa [hy] using hz) hmem]
      exact List.Nodup.append h (List.nodup_singleton y) (by simpa using hmem)

theorem OrderedSet.pairwise_foldl_Add {α : Type} [DecidableEq α] (same : α → α → Bool)
    (xs : List α) (hx : ∀ x ∈ xs, ∀ y, same x y = decide (x = y)) :
    ((xs.foldl (OrderedSet.Add same) NewOrderedSet).items).Pairwise
      (fun a b => xs.indexOf a < xs.indexOf b) := by
  induction xs using List.reverseRecOn with
  | nil => simp [NewOrderedSet]
  | append_singleton ys y ih =>
    have hxs : ∀ x ∈ ys, ∀ z, same x z = decide (x = z) :=
      fun x hxm => hx x (List.mem_append_left _ hxm)
    have hs : ∀ x ∈ ys, ∀ z, same x z = true → x = z := by
      intro x hxm z hz
      simpa [hxs x hxm] using hz
    have hy := hx y (List.mem_append_right _ (List.mem_singleton_self y))
    have ih := ih hxs
    rw [List.foldl_append, List.foldl_cons, List.foldl_nil]
    have hmem : ∀ a, a ∈ (ys.foldl (OrderedSet.Add same) NewOrderedSet).items ↔ a ∈ ys := by
      intro a
      rw [OrderedSet.mem_foldl_Add same ys hs]
      simp [NewOrderedSet]
    have hold : ((ys.foldl (OrderedSet.Add same) NewOrderedSet).items).Pairwise
        (fun a b => (ys ++ [y]).indexOf a < (ys ++ [y]).indexOf b) := by
      refine List.Pairwise.imp_of_mem ?_ ih
      intro a b ha hb hab
      rw [List.indexOf_append_of_mem ((hmem a).1 ha),
        List.indexOf_append_of_mem ((hmem b).1 hb)]
      exact hab
    by_cases hyin : y ∈ (ys.foldl (OrderedSet.Add same) NewOrderedSet).items
    · rw [OrderedSet.Add_of_mem same _ y hy hyin]
      exact hold
    · rw [OrderedSet.Add_of_not_mem same _ y (fun z hz => by simpa [hy] using hz) hyin,
        List.pairwise_append]
      refine ⟨hold, List.pairwise_singleton _ _, ?_⟩
      intro a ha b hb
      rw [List.mem_singleton] at hb
      subst hb
      have hyys : b ∉ ys := fun hb => hyin ((hmem b).2 hb)
      rw [List.indexOf_append_of_mem ((hmem a).1 ha), List.indexOf_append_of_not_mem hyys]
      have := List.indexOf_lt_length.2 ((hmem a).1 ha)
      omega

/-! ## The row loop of `GetBills` -/

theorem BillDetails.eq_of_goEq (tz : LocalZone) (a b : BillDetails)
    (h : BillDetails.goEq tz a b = true) : a = b := by
  unfold BillDetails.goEq at h
  simp only [Bool.and_eq_true, decide_eq_true_eq] at h
  exact h.1

theorem BillDetails.goEq_of_sharedZone (tz : LocalZone) (a b : BillDetails)
    (h : a.InvoiceDate.sharedZone tz = true) :
    BillDetails.goEq tz a b = decide (a = b) := by
  simp [BillDetails.goEq, h]

theorem GetBills.loop_of_all_ok (tz : LocalZone) (cols : Columns) (hidx : HeaderIndex) :
    ∀ (rows : List (List String)) (u : OrderedSet BillDetails),
      (∀ row ∈ rows, (date row hidx cols.CreatedAt).2 = none) →
      GetBills.loop tz cols hidx rows u
        = (((rows.map (rowBill cols hidx)).foldl
            (OrderedSet.Add (BillDetails.goEq tz)) u).Values, none) := by
  intro rows
  induction rows with
  | nil => intro u _; rfl
  | cons row rows ih =>
    intro u h
    have h1 := h row (List.mem_cons_self _ _)
    have h2 := ih (u.Add (BillDetails.goEq tz) (rowBill cols hidx row))
      (fun r hr => h r (List.mem_cons_of_mem _ hr))
    cases hd : date row hidx cols.CreatedAt with
    | mk t e =>
      rw [hd] at h1
      simp only at h1
      subst h1
      simp only [GetBills.loop, hd, List.map_cons, List.foldl_cons]
      simpa only [rowBill, hd] using h2

theorem GetBills.loop_of_fail (tz : LocalZone) (cols : Columns) (hidx : HeaderIndex) :
    ∀ (rows : List (List String)) (u : OrderedSet BillDetails),
      (∃ row ∈ rows, (date row hidx cols.CreatedAt).2 ≠ none) →
      ∃ e, GetBills.loop tz cols hidx rows u = ([], some e) := by
  intro rows
  induction rows with
  | nil => intro u h; simp at h
  | cons row rows ih =>
    intro u h
    cases hd : date row hidx cols.CreatedAt with
    | mk t e =>
      cases e with
      | some err =>
        refine ⟨Error.wrap "failed to parse invoice date" err, ?_⟩
        simp only [GetBills.loop, hd]
      | none =>
        simp only [GetBills.loop, hd]
        apply ih
        obtain ⟨r, hr, hne⟩ := h
        rcases List.mem_cons.1 hr with rfl | hr
        · rw [hd] at hne; exact absurd rfl hne
        · exact ⟨r, hr, hne⟩

theorem GetBills.all_ok_of_ok (tz : LocalZone) (cols : Columns) (hidx : HeaderIndex)
    (rows : List (List String)) (u : OrderedSet BillDetails)
    (h : (GetBills.loop tz cols hidx rows u).2 = none) :
    ∀ row ∈ rows, (date row hidx cols.CreatedAt).2 = none := by
  by_contra hne
  push_neg at hne
  obtain ⟨e, he⟩ := GetBills.loop_of_fail tz cols hidx rows u hne
  rw [he] at h
  exact absurd h (by simp)

theorem GetBills.bills_eq_of_ok (tz : LocalZone) (cols : Columns) (headers : List String)
    (rows : List (List String)) (h : (GetBills tz cols headers rows).2 = none) :
    (GetBills tz cols headers rows).1
      = ((rows.map (rowBill cols (BuildHeaderIndex headers))).foldl
          (OrderedSet.Add (BillDetails.goEq tz)) NewOrderedSet).items := by
  have hall := GetBills.all_ok_of_ok tz cols (BuildHeaderIndex headers) rows NewOrderedSet h
  have := GetBills.loop_of_all_ok tz cols (BuildHeaderIndex headers) rows NewOrderedSet hall
  unfold GetBills
  rw [this]
  rfl

theorem GetBills.mem_iff_of_ok (tz : LocalZone) (cols : Columns) (headers : List String)
    (rows : List (List String)) (h : (GetBills tz cols headers rows).2 = none)
    (b : BillDetails) :
    b ∈ (GetBills tz cols headers rows).1 ↔
      b ∈ rows.map (rowBill cols (BuildHeaderIndex headers)) := by
  rw [GetBills.bills_eq_of_ok tz cols headers rows h,
    OrderedSet.mem_foldl_Add _ _ (fun x _ y hxy => BillDetails.eq_of_goEq tz x y hxy)]
  simp [NewOrderedSet]

/-- On rows whose creation dates all read in UTC (empty, `1/2/06` or `Z` cells) the result
of `GetBills` is the same on every machine. -/
theorem GetBills.loop_eq_of_all_utc (tz tz' : LocalZone) (cols : Columns)
    (hidx : HeaderIndex) :
    ∀ (rows : List (List String)) (u : OrderedSet BillDetails),
      (∀ row ∈ rows, (date row hidx cols.CreatedAt).1.loc = Location.UTC) →
      GetBills.loop tz cols hidx rows u = GetBills.loop tz' cols hidx rows u := by
  intro rows
  induction rows with
  | nil => intro u _; rfl
  | cons row rows ih =>
    intro u h
    have h1 := h row (List.mem_cons_self _ _)
    cases hd : date row hidx cols.CreatedAt with
    | mk t e =>
      rw [hd] at h1
      simp only at h1
      cases e with
      | some err => simp only [GetBills.loop, hd]
      | none =>
        simp only [GetBills.loop, hd]
        have hsame : ∀ b : BillDetails, b.InvoiceDate = t →
            BillDetails.goEq tz b = BillDetails.goEq tz' b := by
          intro b hb
          funext y
          simp [BillDetails.goEq, Time.sharedZone, hb, h1]
        have hadd : ∀ b : BillDetails, b.InvoiceDate = t →
            u.Add (BillDetails.goEq tz) b = u.Add (BillDetails.goEq tz') b := by
          intro b hb
          unfold OrderedSet.Add
          rw [hsame b hb]
        rw [hadd _ rfl]
        exact ih _ (fun r hr => h r (List.mem_cons_of_mem _ hr))

theorem GetBills.eq_of_all_utc (tz tz' : LocalZone) (cols : Columns) (headers : List String)
    (rows : List (List String))
    (h : ∀ row ∈ rows,
      (date row (BuildHeaderIndex headers) cols.CreatedAt).1.loc = Location.UTC) :
    GetBills tz cols headers rows = GetBills tz' cols headers rows :=
  GetBills.loop_eq_of_all_utc tz tz' cols (BuildHeaderIndex headers) rows NewOrderedSet h

/-! ## Header index of a header row without repeated names -/

theorem BuildHeaderIndex.loop_lookup_of_not_mem (h : String) :
    ∀ (hs : List String) (i : Nat) (m : HeaderIndex), h ∉ hs →
      (BuildHeaderIndex.loop i hs m).lookup h = m.lookup h := by
  intro hs
  induction hs with
  | nil => intro i m _; rfl
  | cons x xs ih =>
    intro i m hn
    have hx : h ≠ x := fun e => hn (e ▸ List.mem_cons_self _ _)
    have hxs : h ∉ xs := fun e => hn (List.mem_cons_of_mem _ e)
    have hbeq : (h == x) = false := by simpa using hx
    rw [BuildHeaderIndex.loop, ih (i + 1) _ hxs]
    simp [List.lookup, hbeq]

theorem BuildHeaderIndex.loop_lookup (h : String) :
    ∀ (hs : List String) (i : Nat) (m : HeaderIndex) (k : Nat), hs.Nodup →
      hs[k]? = some h → (BuildHeaderIndex.loop i hs m).lookup h = some (i + k) := by
  intro hs
  induction hs with
  | nil => intro i m k _ hk; simp at hk
  | cons x xs ih =>
    intro i m k hnd hk
    rw [List.nodup_cons] at hnd
    cases k with
    | zero =>
      simp only [List.getElem?_cons_zero, Option.some.injEq] at hk
      subst hk
      rw [BuildHeaderIndex.loop, BuildHeaderIndex.loop_lookup_of_not_mem x xs _ _ hnd.1]
      simp [List.lookup]
    | succ k =>
      simp only [List.getElem?_cons_succ] at hk
      rw [BuildHeaderIndex.loop, ih (i + 1) _ k hnd.2 hk]
      congr 1
      omega

/-- With a header row without repeated names, `Val` reads the cell under the column
name, verbatim, and the empty string when the row is too short. -/
theorem Val_BuildHeaderIndex (headers : List String) (row : List String) (col : String)
    (k : Nat) (hnd : headers.Nodup) (hk : headers[k]? = some col) :
    Val row (BuildHeaderIndex headers) col = row.getD k "" := by
  unfold Val BuildHeaderIndex
  rw [BuildHeaderIndex.loop_lookup col headers 0 [] k hnd hk]
  simp

/-! ## Decimal formatting -/

theorem decimal_of_lt_ten (fuel u : Nat) (acc : List Char) (h : u < 10) :
    decimal fuel u acc = digitChar u :: acc := by
  cases fuel with
  | zero => simp [decimal, Nat.mod_eq_of_lt h]
  | succ n => simp [decimal, Nat.not_le.2 h]

theorem decimal_step (fuel u : Nat) (acc : List Char) (h : 10 ≤ u) :
    decimal (fuel + 1) u acc = decimal fuel (u / 10) (digitChar (u % 10) :: acc) := by
  simp [decimal, h]

theorem appendInt_two (n : Nat) (h : n ≤ 99) :
    appendInt (n : Int) 2 = [digitChar (n / 10), digitChar (n % 10)] := by
  have hneg : ¬ ((n : Int) < 0) := by omega
  simp only [appendInt, Int.natAbs_ofNat, hneg, if_false, List.nil_append]
  by_cases h10 : n < 10
  · rw [decimal_of_lt_ten n n [] h10]
    have h0 : n / 10 = 0 := by omega
    have h1 : n % 10 = n := by omega
    rw [h0, h1]
    rfl
  · obtain ⟨k, rfl⟩ : ∃ k, n = k + 1 := ⟨n - 1, by omega⟩
    rw [decimal_step k (k + 1) [] (by omega), decimal_of_lt_ten _ _ _ (by omega)]
    rfl

theorem appendInt_four (n : Nat) (h : n ≤ 9999) :
    appendInt (n : Int) 4
      = [digitChar (n / 1000), digitChar (n / 100 % 10), digitChar (n / 10 % 10),
         digitChar (n % 10)] := by
  have hneg : ¬ ((n : Int) < 0) := by omega
  simp only [appendInt, Int.natAbs_ofNat, hneg, if_false, List.nil_append]
  by_cases h10 : n < 10
  · rw [decimal_of_lt_ten n n [] h10]
    have e0 : n / 1000 = 0 := by omega
    have e1 : n / 100 % 10 = 0 := by omega
    have e2 : n / 10 % 10 = 0 := by omega
    have e3 : n % 10 = n := by omega
    rw [e0, e1, e2, e3]
    rfl
  · by_cases h100 : n < 100
    · obtain ⟨k, rfl⟩ : ∃ k, n = k + 1 := ⟨n - 1, by omega⟩
      rw [decimal_step k (k + 1) [] (by omega), decimal_of_lt_ten _ _ _ (by omega)]
      have e0 : (k + 1) / 1000 = 0 := by omega
      have e1 : (k + 1) / 100 % 10 = 0 := by omega
      have e2 : (k + 1) / 10 % 10 = (k + 1) / 10 := by omega
      rw [e0, e1, e2]
      rfl
    · by_cases h1000 : n < 1000
      · obtain ⟨k, rfl⟩ : ∃ k, n = k + 2 := ⟨n - 2, by omega⟩
        rw [decimal_step (k + 1) (k + 2) [] (by omega), decimal_step k _ _ (by omega),
          decimal_of_lt_ten _ _ _ (by omega)]
        have e0 : (k + 2) / 1000 = 0 := by omega
        have e1 : (k + 2) / 100 % 10 = (k + 2) / 10 / 10 := by omega
        rw [e0, e1]
        rfl
      · obtain ⟨k, rfl⟩ : ∃ k, n = k + 3 := ⟨n - 3, by omega⟩
        rw [decimal_step (k + 2) (k + 3) [] (by omega), decimal_step (k + 1) _ _ (by omega),
          decimal_step k _ _ (by omega), decimal_of_lt_ten _ _ _ (by omega)]
        have e0 : (k + 3) / 1000 = (k + 3) / 10 / 10 / 10 := by omega
        have e1 : (k + 3) / 100 % 10 = (k + 3) / 10 / 10 % 10 := by omega
        rw [e0, e1]
        rfl

theorem daysIn_le (month : Nat) (year : Int) : daysIn month year ≤ 31 := by
  unfold daysIn
  split_ifs <;> omega

/-- The date text of a time whose year has at most four digits. -/
theorem Time.Format_of_year_range (t : Time) (h0 : 0 ≤ t.year) (h1 : t.year ≤ 9999)
    (hv : t.Valid) :
    t.Format = String.mk
      [digitChar (t.year.toNat / 1000), digitChar (t.year.toNat / 100 % 10),
       digitChar (t.year.toNat / 10 % 10), digitChar (t.year.toNat % 10), '-',
       digitChar (t.month / 10), digitChar (t.month % 10), '-',
       digitChar (t.day / 10), digitChar (t.day % 10)] := by
  obtain ⟨_, hm, _, hd, _⟩ := hv
  have hd2 := daysIn_le t.month t.year
  have hy := appendInt_four t.year.toNat (by omega)
  rw [Int.toNat_of_nonneg h0] at hy
  unfold Time.Format
  rw [hy, appendInt_two t.month (by omega), appendInt_two t.day (by omega)]
  rfl

/-! ## The `date` helper -/

theorem Parse_RFC3339_empty : Parse_RFC3339 "" = none := by decide

theorem Parse_1_2_06_empty : Parse_1_2_06 "" = none := by decide

theorem date_of_empty (record : List String) (idx : HeaderIndex) (header : String)
    (h : Val record idx header = "") : date record idx header = (Time.zero, none) := by
  simp [date, h]

theorem date_of_rfc3339 (record : List String) (idx : HeaderIndex) (header : String)
    (d : Time) (h : Parse_RFC3339 (Val record idx header) = some d) :
    date record idx header = (d, none) := by
  have hne : Val record idx header ≠ "" := by
    intro e
    rw [e, Parse_RFC3339_empty] at h
    exact absurd h (by simp)
  simp [date, hne, h]

theorem date_of_compact (record : List String) (idx : HeaderIndex) (header : String)
    (d : Time) (h1 : Parse_RFC3339 (Val record idx header) = none)
    (h2 : Parse_1_2_06 (Val record idx header) = some d) :
    date record idx header = (d, none) := by
  have hne : Val record idx header ≠ "" := by
    intro e
    rw [e, Parse_1_2_06_empty] at h2
    exact absurd h2 (by simp)
  simp [date, hne, h1, h2]

theorem date_of_unparseable (record : List String) (idx : HeaderIndex) (header : String)
    (h0 : Val record idx header ≠ "") (h1 : Parse_RFC3339 (Val record idx header) = none)
    (h2 : Parse_1_2_06 (Val record idx header) = none) :
    date record idx header
      = (Time.zero, some (Error.invalidDate header (Val record idx header))) := by
  simp [date, h0, h1, h2]

theorem date_error_iff (record : List String) (idx : HeaderIndex) (header : String) :
    (date record idx header).2 ≠ none ↔
      (Val record idx header ≠ "" ∧ Parse_RFC3339 (Val record idx header) = none ∧
        Parse_1_2_06 (Val record idx header) = none) := by
  by_cases h0 : Val record idx header = ""
  · simp [date_of_empty record idx header h0, h0]
  · cases h1 : Parse_RFC3339 (Val record idx header) with
    | some d => simp [date_of_rfc3339 record idx header d h1]
    | none =>
      cases h2 : Parse_1_2_06 (Val record idx header) with
      | some d => simp [date_of_compact record idx header d h1 h2]
      | none => simp [date_of_unparseable record idx header h0 h1 h2, h0]

/-! ## `extractBillRecords` -/

theorem extractBillRecords_eq {F : Type} (fp : FloatParser F) (cols : Columns)
    (rec : List String) (hidx : HeaderIndex) (records : List (List (AnyVal F))) :
    extractBillRecords fp cols rec hidx records
      = match (rowGuards fp cols rec hidx).findSome? id with
        | some e => ([], some e)
        | none => (records ++ [stagingRow fp cols rec hidx], none) := by
  unfold extractBillRecords rowGuards stagingRow
  simp only [List.findSome?, id]
  repeat' split
  all_goals simp_all

theorem parseFailure_eq_none_iff (msg : String) (err : Option Error) (cell : String) :
    parseFailure msg err cell = none ↔ (err = none ∨ cell = "") := by
  cases err with
  | none => simp [parseFailure]
  | some e =>
    by_cases hc : cell = ""
    · simp [parseFailure, hc]
    · simp [parseFailure, hc]

theorem Float_error_iff {F : Type} (fp : FloatParser F) (rec : List String)
    (hidx : HeaderIndex) (h : String) :
    (Float fp rec hidx h).2 = none ↔
      (Val rec hidx h ≠ "" ∧ fp.literal (Val rec hidx h) ≠ none) := by
  unfold Float ParseFloat
  by_cases hc : Val rec hidx h = ""
  · simp [hc]
  · cases hl : fp.literal (Val rec hidx h) <;> simp [hc]

theorem floatGuard_eq_none_iff {F : Type} (fp : FloatParser F) (rec : List String)
    (hidx : HeaderIndex) (msg h : String) :
    parseFailure msg (Float fp rec hidx h).2 (Val rec hidx h) = none ↔
      ¬ (Val rec hidx h ≠ "" ∧ fp.literal (Val rec hidx h) = none) := by
  rw [parseFailure_eq_none_iff, Float_error_iff]
  by_cases hc : Val rec hidx h = ""
  · simp [hc]
  · cases hl : fp.literal (Val rec hidx h) <;> simp [hc]

theorem dateGuard_eq_none_iff (rec : List String) (hidx : HeaderIndex) (msg h : String) :
    (date rec hidx h).2.map (Error.wrap msg) = none ↔
      ¬ (Val rec hidx h ≠ "" ∧ Parse_RFC3339 (Val rec hidx h) = none ∧
          Parse_1_2_06 (Val rec hidx h) = none) := by
  rw [← date_error_iff]
  cases (date rec hidx h).2 <;> simp

theorem intGuard_eq_none_iff (msg : String) (err : Option Error) (cell : String) :
    parseFailure msg err cell = none ↔ ¬ (cell ≠ "" ∧ err ≠ none) := by
  rw [parseFailure_eq_none_iff]
  tauto

theorem rowGuards_findSome_eq_none_iff {F : Type} (fp : FloatParser F) (cols : Columns)
    (rec : List String) (hidx : HeaderIndex) :
    (rowGuards fp cols rec hidx).findSome? id = none ↔ ¬ RowRejected fp cols rec hidx := by
  have hl : (rowGuards fp cols rec hidx).findSome? id = none ↔
      ∀ x ∈ rowGuards fp cols rec hidx, x = none := by
    rw [List.findSome?_eq_none_iff]
    rfl
  rw [hl]
  unfold rowGuards RowRejected
  simp only [List.forall_mem_cons, floatGuard_eq_none_iff, dateGuard_eq_none_iff]
  simp only [intGuard_eq_none_iff]
  simp only [List.mem_cons, exists_eq_or_imp, exists_eq_left, List.not_mem_nil, false_and,
    exists_false, or_false, IsEmpty.forall_iff, implies_true, and_true, not_or, and_assoc]

theorem extractBillRecords_of_accepted {F : Type} (fp : FloatParser F) (cols : Columns)
    (rec : List String) (hidx : HeaderIndex) (records : List (List (AnyVal F)))
    (h : ¬ RowRejected fp cols rec hidx) :
    extractBillRecords fp cols rec hidx records
      = (records ++ [stagingRow fp cols rec hidx], none) := by
  rw [extractBillRecords_eq, (rowGuards_findSome_eq_none_iff fp cols rec hidx).2 h]

theorem extractBillRecords_of_rejected {F : Type} (fp : FloatParser F) (cols : Columns)
    (rec : List String) (hidx : HeaderIndex) (records : List (List (AnyVal F)))
    (h : RowRejected fp cols rec hidx) :
    ∃ e, extractBillRecords fp cols rec hidx records = ([], some e) := by
  rw [extractBillRecords_eq]
  cases hg : (rowGuards fp cols rec hidx).findSome? id with
  | none => exact absurd h ((rowGuards_findSome_eq_none_iff fp cols rec hidx).1 hg)
  | some e => exact ⟨e, rfl⟩

/-! ## The row loop of `BuildStagingPlan` -/

theorem BuildStagingPlan.loop_of_all_accepted {F : Type} (fp : FloatParser F)
    (cols : Columns) (hidx : HeaderIndex) :
    ∀ (rows : List (List String)) (records : List (List (AnyVal F))),
      (∀ row ∈ rows, ¬ RowRejected fp cols row hidx) →
      BuildStagingPlan.loop fp cols hidx rows records
        = (buildStagingPlan cols (records ++ rows.map (fun row => stagingRow fp cols row hidx)),
            none) := by
  intro rows
  induction rows with
  | nil => intro records _; simp [BuildStagingPlan.loop]
  | cons row rows ih =>
    intro records h
    have h1 := extractBillRecords_of_accepted fp cols row hidx records
      (h row (List.mem_cons_self _ _))
    simp only [BuildStagingPlan.loop, h1]
    rw [ih _ (fun r hr => h r (List.mem_cons_of_mem _ hr))]
    simp

theorem BuildStagingPlan.loop_of_rejected {F : Type} (fp : FloatParser F)
    (cols : Columns) (hidx : HeaderIndex) :
    ∀ (rows : List (List String)) (records : List (List (AnyVal F))),
      (∃ row ∈ rows, RowRejected fp cols row hidx) →
      ∃ e, BuildStagingPlan.loop fp cols hidx rows records
        = ({ Batches := [], Sprocs := [] }, some e) := by
  intro rows
  induction rows with
  | nil => intro records h; simp at h
  | cons row rows ih =>
    intro records h
    by_cases hrow : RowRejected fp cols row hidx
    · obtain ⟨e, he⟩ := extractBillRecords_of_rejected fp cols row hidx records hrow
      exact ⟨e, by simp only [BuildStagingPlan.loop, he]⟩
    · have h1 := extractBillRecords_of_accepted fp cols row hidx records hrow
      simp only [BuildStagingPlan.loop, h1]
      apply ih
      obtain ⟨r, hr, hbad⟩ := h
      rcases List.mem_cons.1 hr with rfl | hr
      · exact absurd hbad hrow
      · exact ⟨r, hr, hbad⟩

theorem BuildStagingPlan.accepted_of_ok {F : Type} (fp : FloatParser F) (cols : Columns)
    (headers : List String) (rows : List (List String))
    (h : (BuildStagingPlan fp cols headers rows).2 = none) :
    ∀ row ∈ rows, ¬ RowRejected fp cols row (BuildHeaderIndex headers) := by
  by_contra hne
  push_neg at hne
  obtain ⟨e, he⟩ := BuildStagingPlan.loop_of_rejected fp cols (BuildHeaderIndex headers)
    rows [] hne
  unfold BuildStagingPlan at h
  rw [he] at h
  exact absurd h (by simp)

theorem BuildStagingPlan.plan_eq_of_ok {F : Type} (fp : FloatParser F) (cols : Columns)
    (headers : List String) (rows : List (List String))
    (h : (BuildStagingPlan fp cols headers rows).2 = none) :
    (BuildStagingPlan fp cols headers rows).1
      = buildStagingPlan cols
          (rows.map (fun row => stagingRow fp cols row (BuildHeaderIndex headers))) := by
  have := BuildStagingPlan.loop_of_all_accepted fp cols (BuildHeaderIndex headers) rows []
    (BuildStagingPlan.accepted_of_ok fp cols headers rows h)
  unfold BuildStagingPlan
  rw [this]
  simp

/-! ## Tolerant numeric cells -/

theorem extractBillRecords_error_of_rejected {F : Type} (fp : FloatParser F) (cols : Columns)
    (rec : List String) (hidx : HeaderIndex) (records : List (List (AnyVal F)))
    (h : RowRejected fp cols rec hidx) :
    (extractBillRecords fp cols rec hidx records).2 ≠ none := by
  obtain ⟨e, he⟩ := extractBillRecords_of_rejected fp cols rec hidx records h
  rw [he]
  simp

/-- The readings used in the worked examples: an empty cell reads as zero, `12.5` as
125 with one decimal, and `abc` is not a number. -/
theorem sampleFloats_examples :
    (ParseFloat sampleFloats "").1 = (0, 0) ∧
    ParseFloat sampleFloats "12.5" = ((125, 1), none) ∧
    (ParseFloat sampleFloats "abc").2 ≠ none := by
  decide

/-! ## Every date returned by `date` is a well-formed time with a four-digit year -/

theorem digitVal_le_nine (c : Char) (h : isDigit c = true) : digitVal c ≤ 9 := by
  unfold isDigit at h
  unfold digitVal
  simp only [Bool.and_eq_true, decide_eq_true_eq] at h
  omega

theorem leadingInt_bound : ∀ (cs : List Char) (x q : Nat),
    leadingInt cs x = some (q, []) → q < (x + 1) * 10 ^ cs.length := by
  intro cs
  induction cs with
  | nil =>
    intro x q h
    simp only [leadingInt, Option.some.injEq, Prod.mk.injEq, and_true] at h
    subst h
    simp
  | cons c cs ih =>
    intro x q h
    unfold leadingInt at h
    by_cases hd : isDigit c = true
    · simp only [hd, Bool.not_true, Bool.false_eq_true, if_false] at h
      split_ifs at h
      have h9 := digitVal_le_nine c hd
      have := ih _ _ h
      calc q < (x * 10 + digitVal c + 1) * 10 ^ cs.length := this
        _ ≤ ((x + 1) * 10) * 10 ^ cs.length := Nat.mul_le_mul_right _ (by omega)
        _ = (x + 1) * 10 ^ (c :: cs).length := by
          rw [List.length_cons, pow_succ]; ring
    · simp [hd] at h

theorem atoi_bounds (s : List Char) (n : Int) (h : atoi s = some n) :
    -(10 ^ s.length : Int) < n ∧ n < 10 ^ s.length ∧
      ((s.head?.map isDigit).getD false = true → 0 ≤ n) := by
  unfold atoi at h
  simp only at h
  cases hl : leadingInt (if (s.head? == some '-' || s.head? == some '+') = true
      then s.tail else s) 0 with
  | none => rw [hl] at h; simp at h
  | some p =>
    obtain ⟨q, rem⟩ := p
    rw [hl] at h
    simp only at h
    by_cases hrem : rem = []
    · subst hrem
      simp only [ne_eq, not_true_eq_false, if_false, Option.some.injEq] at h
      have hb := leadingInt_bound _ _ _ hl
      have hlen : (if (s.head? == some '-' || s.head? == some '+') = true
          then s.tail else s).length ≤ s.length := by
        split_ifs
        · simp
        · exact le_refl _
      have hq : (q : Int) < 10 ^ s.length := by
        have h1 : q < 10 ^ s.length :=
          lt_of_lt_of_le (by simpa using hb) (Nat.pow_le_pow_right (by norm_num) hlen)
        exact_mod_cast h1
      have hq0 : (0 : Int) ≤ q := Int.ofNat_nonneg q
      refine ⟨?_, ?_, ?_⟩
      · split_ifs at h <;> omega
      · split_ifs at h <;> omega
      · intro hdig
        cases s with
        | nil => simp at hdig
        | cons c cs =>
          simp only [List.head?_cons, Option.map_some', Option.getD_some] at hdig
          have hc : c ≠ '-' := by
            rintro rfl
            exact absurd hdig (by decide)
          have hneg : ((c :: cs).head? == some '-') = false := by
            simpa using hc
          rw [hneg] at h
          simp only [Bool.false_eq_true, if_false] at h
          omega
    · simp [hrem] at h

theorem parseFraction_bound (v : List Char) (ns : Nat) (rest : List Char)
    (h : parseFraction v = some (ns, rest)) : ns < 1000000000 := by
  unfold parseFraction at h
  split at h
  · rename_i c d r
    split_ifs at h with hc
    · simp only at h
      cases ha : atoi (List.take 9 (List.takeWhile isDigit (d :: r))) with
      | none => rw [ha] at h; simp at h
      | some k =>
        rw [ha] at h
        simp only at h
        split_ifs at h with hk
        simp only [Option.some.injEq, Prod.mk.injEq] at h
        obtain ⟨rfl, _⟩ := h
        obtain ⟨_, hub, _⟩ := atoi_bounds _ _ ha
        have hlen : (List.take 9 (List.takeWhile isDigit (d :: r))).length ≤ 9 := by
          simp
        generalize (List.take 9 (List.takeWhile isDigit (d :: r))).length = m at hub hlen
        have hk2 : k.toNat < 10 ^ m := by
          have : ((k.toNat : Nat) : Int) < 10 ^ m := by
            rw [Int.toNat_of_nonneg (by omega)]
            exact hub
          exact_mod_cast this
        calc k.toNat * 10 ^ (9 - m) < 10 ^ m * 10 ^ (9 - m) :=
              Nat.mul_lt_mul_of_pos_right hk2 (Nat.pow_pos (by norm_num))
          _ = 10 ^ 9 := by rw [← pow_add]; congr 1; omega
          _ = 1000000000 := by norm_num
    · simp only [Option.some.injEq, Prod.mk.injEq] at h
      omega
  · simp only [Option.some.injEq, Prod.mk.injEq] at h
    omega

theorem parseDateElems_bounds (v : List Char) (yr : Int) (m d : Nat) (rest : List Char)
    (h : parseDateElems v = some (yr, m, d, rest)) :
    0 ≤ yr ∧ yr ≤ 9999 ∧ 1 ≤ m ∧ m ≤ 12 := by
  simp [parseDateElems, check, Option.bind_eq_some] at h
  obtain ⟨⟨_, hdig⟩, y, hy, _, _, mm, _, _, hmr, _, _, dd, _, _, hyr, hm, _, _⟩ := h
  obtain ⟨_, hub, h0⟩ := atoi_bounds _ _ hy
  have hlen : (List.take 4 v).length ≤ 4 := by simp
  have hhead : ((List.take 4 v).head?.map isDigit).getD false = true := by
    cases v with
    | nil => simp at hdig
    | cons c cs => simpa using hdig
  have hub2 : y < 10 ^ 4 :=
    lt_of_lt_of_le hub (pow_le_pow_right₀ (by norm_num) hlen)
  have h00 := h0 hhead
  subst hyr hm
  exact ⟨h00, by omega, hmr.1, hmr.2⟩

theorem parseClockElems_bounds (v : List Char) (hh mi s ns : Nat) (rest : List Char)
    (h : parseClockElems v = some (hh, mi, s, ns, rest)) :
    hh < 24 ∧ mi < 60 ∧ s < 60 ∧ ns < 1000000000 := by
  simp [parseClockElems, check, Option.bind_eq_some] at h
  obtain ⟨a, _, _, ha, _, _, b, _, _, hb, _, _, c, _, _, hc, f, r, hf, rfl, rfl, rfl, rfl, _⟩
    := h
  exact ⟨ha, hb, hc, parseFraction_bound _ f r hf⟩

theorem parseRFC3339_valid (v : List Char) (t : Time) (h : parseRFC3339 v = some t) :
    t.Valid ∧ 0 ≤ t.year ∧ t.year ≤ 9999 := by
  simp [parseRFC3339, check, Option.bind_eq_some] at h
  obtain ⟨yr, m, d, r, hd, _, _, hh, mi, s, ns, r2, hc, z, _, _, _, hday, rfl⟩ := h
  obtain ⟨h0, h1, hm1, hm2⟩ := parseDateElems_bounds v yr m d r hd
  obtain ⟨h24, hmi, hs, hns⟩ := parseClockElems_bounds _ hh mi s ns r2 hc
  exact ⟨⟨hm1, hm2, hday.1, hday.2, h24, hmi, hs, hns⟩, h0, h1⟩

theorem parseMDYY_valid (v : List Char) (t : Time) (h : parseMDYY v = some t) :
    t.Valid ∧ 0 ≤ t.year ∧ t.year ≤ 9999 := by
  simp [parseMDYY, check, Option.bind_eq_some] at h
  obtain ⟨m, _, _, hm, _, _, d, _, _, w, _, _, yy, hyy, _, hday, rfl⟩ := h
  obtain ⟨hlb, hub, _⟩ := atoi_bounds _ _ hyy
  have hlen : (List.take 2 w).length ≤ 2 := by simp
  have hub2 : yy < 10 ^ 2 := lt_of_lt_of_le hub (pow_le_pow_right₀ (by norm_num) hlen)
  have hlb2 : -(10 ^ 2 : Int) < yy :=
    lt_of_le_of_lt (neg_le_neg (pow_le_pow_right₀ (by norm_num) hlen)) hlb
  refine ⟨⟨hm.1, hm.2, hday.1, hday.2, by norm_num, by norm_num, by norm_num, by norm_num⟩,
    ?_, ?_⟩
  · show (0 : Int) ≤ if 69 ≤ yy then yy + 1900 else yy + 2000
    split_ifs <;> omega
  · show (if 69 ≤ yy then yy + 1900 else yy + 2000) ≤ (9999 : Int)
    split_ifs <;> omega

/-- Every time returned by `date` is well formed and has a year between 0 and 9999. -/
theorem date_valid (record : List String) (idx : HeaderIndex) (header : String) :
    (date record idx header).1.Valid ∧ 0 ≤ (date record idx header).1.year ∧
      (date record idx header).1.year ≤ 9999 := by
  have hz : Time.zero.Valid ∧ 0 ≤ Time.zero.year ∧ Time.zero.year ≤ 9999 := by decide
  by_cases h0 : Val record idx header = ""
  · rw [date_of_empty record idx header h0]
    exact hz
  · cases h1 : Parse_RFC3339 (Val record idx header) with
    | some d =>
      rw [date_of_rfc3339 record idx header d h1]
      exact parseRFC3339_valid _ d h1
    | none =>
      cases h2 : Parse_1_2_06 (Val record idx header) with
      | some d =>
        rw [date_of_compact record idx header d h1 h2]
        exact parseMDYY_valid _ d h2
      | none =>
        rw [date_of_unparseable record idx header h0 h1 h2]
        exact hz

/-! ## `Validate` -/

theorem Validate.loop_eq (d : BillUploadDetails) :
    ∀ (bills : List BillDetails) (errors : List Error),
      Validate.loop d bills errors
        = errors ++ (bills.filter
            (fun b => decide (b.AccountNo ≠ "" ∧ b.AccountNo ≠ d.AccountNumber))).map
            (fun b => Error.accountMismatch b.AccountNo d.AccountNumber) := by
  intro bills
  induction bills with
  | nil => intro errors; simp [Validate.loop]
  | cons b rest ih =>
    intro errors
    unfold Validate.loop
    by_cases h1 : b.AccountNo = ""
    · simp [h1, ih]
    · by_cases h2 : b.AccountNo = d.AccountNumber
      · simp [h1, h2, ih]
      · simp [h1, h2, ih, List.filter_cons]

/-! ## Columns absent from the header row -/

theorem Val_of_not_mem (headers : List String) (row : List String) (col : String)
    (h : col ∉ headers) : Val row (BuildHeaderIndex headers) col = "" := by
  unfold Val BuildHeaderIndex
  rw [BuildHeaderIndex.loop_lookup_of_not_mem col headers 0 [] h]
  rfl

theorem mem_of_Val_ne_empty (headers : List String) (row : List String) (col : String)
    (h : Val row (BuildHeaderIndex headers) col ≠ "") : col ∈ headers := by
  by_contra hn
  exact h (Val_of_not_mem headers row col hn)

theorem RowRejected.exists_present_column {F : Type} (fp : FloatParser F) (cols : Columns)
    (headers : List String) (row : List String)
    (h : RowRejected fp cols row (BuildHeaderIndex headers)) :
    ∃ c ∈ parsedColumns cols, c ∈ headers ∧ Val row (BuildHeaderIndex headers) c ≠ "" := by
  rcases h with ⟨c, hc, hne, _⟩ | ⟨hne, _⟩ | ⟨c, hc, hne, _⟩
  · refine ⟨c, ?_, mem_of_Val_ne_empty headers row c hne, hne⟩
    simp only [parsedColumns, List.mem_cons, List.mem_singleton, List.not_mem_nil,
      or_false] at hc ⊢
    tauto
  · refine ⟨cols.USPSZone, ?_, mem_of_Val_ne_empty headers row _ hne, hne⟩
    simp [parsedColumns]
  · refine ⟨c, ?_, mem_of_Val_ne_empty headers row c hne, hne⟩
    simp only [parsedColumns, List.mem_cons, List.mem_singleton, List.not_mem_nil,
      or_false] at hc ⊢
    tauto

theorem GetBills.error_iff (tz : LocalZone) (cols : Columns) (headers : List String)
    (rows : List (List String)) :
    (GetBills tz cols headers rows).2 ≠ none ↔
      ∃ row ∈ rows, (date row (BuildHeaderIndex headers) cols.CreatedAt).2 ≠ none := by
  constructor
  · intro hne
    by_contra hall
    push_neg at hall
    have := GetBills.loop_of_all_ok tz cols (BuildHeaderIndex headers) rows NewOrderedSet hall
    apply hne
    unfold GetBills
    rw [this]
  · intro hex
    obtain ⟨e, he⟩ := GetBills.loop_of_fail tz cols (BuildHeaderIndex headers) rows
      NewOrderedSet hex
    unfold GetBills
    rw [he]
    simp

theorem BuildStagingPlan.ok_iff {F : Type} (fp : FloatParser F) (cols : Columns)
    (headers : List String) (rows : List (List String)) :
    (BuildStagingPlan fp cols headers rows).2 = none ↔
      ∀ row ∈ rows, ¬ RowRejected fp cols row (BuildHeaderIndex headers) := by
  constructor
  · exact BuildStagingPlan.accepted_of_ok fp cols headers rows
  · intro hall
    have := BuildStagingPlan.loop_of_all_accepted fp cols (BuildHeaderIndex headers)
      rows [] hall
    unfold BuildStagingPlan
    rw [this]

/-! ## No string is accepted by both date layouts -/

theorem leadingInt_all_digits : ∀ (cs : List Char) (x q : Nat),
    leadingInt cs x = some (q, []) → ∀ c ∈ cs, isDigit c = true := by
  intro cs
  induction cs with
  | nil => intro x q _ c hc; simp at hc
  | cons d ds ih =>
    intro x q h c hc
    unfold leadingInt at h
    by_cases hd : isDigit d = true
    · simp only [hd, Bool.not_true, Bool.false_eq_true, if_false] at h
      split_ifs at h
      rcases List.mem_cons.1 hc with rfl | hc
      · exact hd
      · exact ih _ _ h c hc
    · simp [hd] at h

theorem atoi_all_digits (s : List Char) (n : Int) (h : atoi s = some n)
    (hd : (s.head?.map isDigit).getD false = true) : ∀ c ∈ s, isDigit c = true := by
  cases s with
  | nil => simp at hd
  | cons a r =>
    simp only [List.head?_cons, Option.map_some', Option.getD_some] at hd
    have ha1 : a ≠ '-' := by
      rintro rfl
      exact absurd hd (by decide)
    have ha2 : a ≠ '+' := by
      rintro rfl
      exact absurd hd (by decide)
    have hsign : (((a :: r).head? == some '-' || (a :: r).head? == some '+') = true)
        = False := by
      simp [ha1, ha2]
    unfold atoi at h
    simp only [hsign, if_false] at h
    cases hl : leadingInt (a :: r) 0 with
    | none => rw [hl] at h; simp at h
    | some p =>
      obtain ⟨q, rem⟩ := p
      rw [hl] at h
      simp only at h
      by_cases hrem : rem = []
      · subst hrem
        exact leadingInt_all_digits _ _ _ hl
      · simp [hrem] at h

theorem parseDateElems_starts_with_digits (v : List Char)
    (r : Int × Nat × Nat × List Char) (h : parseDateElems v = some r) :
    ∃ a b c rest, v = a :: b :: c :: rest ∧ isDigit b = true ∧ isDigit c = true := by
  obtain ⟨yr, m, d, rest⟩ := r
  simp [parseDateElems, check, Option.bind_eq_some] at h
  obtain ⟨⟨hlen, hdig⟩, y, hy, _⟩ := h
  match v, hlen, hdig, hy with
  | a :: b :: c :: e :: rest, _, hdig, hy =>
    have hhead : (((a :: b :: c :: e :: rest).take 4).head?.map isDigit).getD false = true := by
      simpa using hdig
    have hall := atoi_all_digits _ y hy hhead
    exact ⟨a, b, c, e :: rest, rfl, hall b (by simp), hall c (by simp)⟩

theorem getnum_then_slash (v b w : List Char) (m : Nat)
    (h1 : getnum v false = some (m, b)) (h2 : skip b '/' = some w) :
    (∃ a rest, v = a :: '/' :: rest) ∨ (∃ a c rest, v = a :: c :: '/' :: rest) := by
  unfold getnum at h1
  match v, h1 with
  | [a], h1 =>
    simp only [Bool.not_eq_true, Bool.false_eq_true, if_false] at h1
    split_ifs at h1
    simp only [Option.some.injEq, Prod.mk.injEq] at h1
    obtain ⟨_, rfl⟩ := h1
    simp [skip] at h2
  | a :: c :: rest, h1 =>
    simp only [Bool.not_eq_true, Bool.false_eq_true, if_false] at h1
    split_ifs at h1
    · simp only [Option.some.injEq, Prod.mk.injEq] at h1
      obtain ⟨_, rfl⟩ := h1
      simp only [skip] at h2
      split_ifs at h2 with hc
      exact Or.inl ⟨a, rest, by rw [hc]⟩
    · simp only [Option.some.injEq, Prod.mk.injEq] at h1
      obtain ⟨_, rfl⟩ := h1
      match rest, h2 with
      | e :: rest2, h2 =>
        simp only [skip] at h2
        split_ifs at h2 with hc
        exact Or.inr ⟨a, c, rest2, by rw [hc]⟩

theorem parseMDYY_has_early_slash (v : List Char) (t : Time) (h : parseMDYY v = some t) :
    (∃ a rest, v = a :: '/' :: rest) ∨ (∃ a c rest, v = a :: c :: '/' :: rest) := by
  simp [parseMDYY, check, Option.bind_eq_some] at h
  obtain ⟨m, b, h1, _, w, h2, _⟩ := h
  exact getnum_then_slash v b w m h1 h2

theorem parse_layouts_disjoint (s : String) :
    Parse_RFC3339 s = none ∨ Parse_1_2_06 s = none := by
  cases h1 : Parse_RFC3339 s with
  | none => exact Or.inl rfl
  | some t1 =>
    cases h2 : Parse_1_2_06 s with
    | none => exact Or.inr rfl
    | some t2 =>
      exfalso
      unfold Parse_RFC3339 at h1
      unfold Parse_1_2_06 at h2
      have hd : ∃ r, parseDateElems s.data = some r := by
        simp [parseRFC3339, Option.bind_eq_some] at h1
        obtain ⟨yr, m, d, r, hd, _⟩ := h1
        exact ⟨_, hd⟩
      obtain ⟨r, hr⟩ := hd
      obtain ⟨a, b, c, rest, hv, hb, hc⟩ := parseDateElems_starts_with_digits _ r hr
      have hslash : isDigit '/' = false := by decide
      rcases parseMDYY_has_early_slash _ t2 h2 with ⟨a', rest', hv'⟩ | ⟨a', c', rest', hv'⟩
      · rw [hv] at hv'
        simp only [List.cons.injEq] at hv'
        rw [hv'.2.1, hslash] at hb
        exact absurd hb (by simp)
      · rw [hv] at hv'
        simp only [List.cons.injEq] at hv'
        rw [hv'.2.2.1, hslash] at hc
        exact absurd hc (by simp)

theorem dateCompactFirst_eq_date (record : List String) (idx : HeaderIndex)
    (header : String) : dateCompactFirst record idx header = date record idx header := by
  unfold dateCompactFirst date
  by_cases h0 : Val record idx header = ""
  · simp [h0]
  · simp only [h0, if_false]
    rcases parse_layouts_disjoint (Val record idx header) with h | h
    · rw [h]
      cases Parse_1_2_06 (Val record idx header) <;> rfl
    · rw [h]
      cases Parse_RFC3339 (Val record idx header) <;> rfl

/-! ## `GetBills` and `BuildStagingPlan` on the same rows -/

theorem date_ok_of_accepted {F : Type} (fp : FloatParser F) (cols : Columns)
    (row : List String) (hidx : HeaderIndex) (h : ¬ RowRejected fp cols row hidx) :
    (date row hidx cols.CreatedAt).2 = none := by
  by_contra hne
  apply h
  refine Or.inr (Or.inr ⟨cols.CreatedAt, List.mem_cons_self _ _, ?_⟩)
  exact (date_error_iff row hidx cols.CreatedAt).1 hne

theorem GetBills.ok_of_staging_ok (tz : LocalZone) {F : Type} (fp : FloatParser F) (cols : Columns)
    (headers : List String) (rows : List (List String))
    (h : (BuildStagingPlan fp cols headers rows).2 = none) :
    (GetBills tz cols headers rows).2 = none := by
  have hacc := (BuildStagingPlan.ok_iff fp cols headers rows).1 h
  have := GetBills.loop_of_all_ok tz cols (BuildHeaderIndex headers) rows NewOrderedSet
    (fun row hr => date_ok_of_accepted fp cols row _ (hacc row hr))
  unfold GetBills
  rw [this]

theorem Time.zero_Format : Time.zero.Format = "0001-01-01" := by decide

theorem rowBill_of_empty_date (cols : Columns) (hidx : HeaderIndex) (row : List String)
    (h : Val row hidx cols.CreatedAt = "") :
    rowBill cols hidx row
      = { InvoiceID := Val row hidx cols.CarrierAccountID ++ "-0001-01-01"
          InvoiceDate := Time.zero
          WarehouseZip := Val row hidx cols.FromZip
          AccountNo := Val row hidx cols.CarrierAccountID } := by
  have hs : ∀ a : String, a ++ "-" ++ "0001-01-01" = a ++ "-0001-01-01" := by
    intro a
    rw [String.append_assoc]
    rfl
  simp only [rowBill, date_of_empty row hidx cols.CreatedAt h, buildInvoiceNumber,
    Time.zero_Format, hs]

/-- What the ordered set of `GetBills` does guarantee: when every creation date reads in a
shared zone (UTC, the local zone or a whole-hour offset), the bills returned are pairwise
distinct and ordered by the first row that produced each of them. -/
theorem GetBills.distinct_of_shared_zones (tz : LocalZone) (cols : Columns)
    (headers : List String) (rows : List (List String))
    (h : (GetBills tz cols headers rows).2 = none)
    (hz : ∀ row ∈ rows,
      (date row (BuildHeaderIndex headers) cols.CreatedAt).1.sharedZone tz = true) :
    (GetBills tz cols headers rows).1.Nodup ∧
    (GetBills tz cols headers rows).1.Pairwise (fun a b =>
      (rows.map (rowBill cols (BuildHeaderIndex headers))).indexOf a
        < (rows.map (rowBill cols (BuildHeaderIndex headers))).indexOf b) := by
  have hx : ∀ x ∈ rows.map (rowBill cols (BuildHeaderIndex headers)),
      ∀ y, BillDetails.goEq tz x y = decide (x = y) := by
    intro x hxm y
    obtain ⟨row, hr, rfl⟩ := List.mem_map.1 hxm
    exact BillDetails.goEq_of_sharedZone tz _ y (hz row hr)
  rw [GetBills.bills_eq_of_ok tz cols headers rows h]
  exact ⟨OrderedSet.nodup_foldl_Add _ _ hx _ (by simp [NewOrderedSet]),
    OrderedSet.pairwise_foldl_Add _ _ hx⟩

/-! ## What the two layouts read -/

theorem isDigit_digitChar (k : Nat) (h : k < 10) : isDigit (digitChar k) = true := by
  interval_cases k <;> decide

theorem digitVal_digitChar (k : Nat) (h : k < 10) : digitVal (digitChar k) = k := by
  interval_cases k <;> decide

theorem getnum_two_digits (a b : Nat) (ha : a < 10) (hb : b < 10) (isFixed : Bool)
    (rest : List Char) :
    getnum (digitChar a :: digitChar b :: rest) isFixed = some (a * 10 + b, rest) := by
  simp [getnum, isDigit_digitChar, digitVal_digitChar, ha, hb]

theorem getnum_twoDigits (n : Nat) (h : n ≤ 99) (isFixed : Bool) (rest : List Char) :
    getnum (twoDigits n ++ rest) isFixed = some (n, rest) := by
  have := getnum_two_digits (n / 10) (n % 10) (by omega) (by omega) isFixed rest
  have hn : n / 10 * 10 + n % 10 = n := by omega
  rw [hn] at this
  exact this

theorem getnum_one_digit (a : Nat) (ha : a < 10) (c : Char) (hc : isDigit c = false)
    (rest : List Char) :
    getnum (digitChar a :: c :: rest) false = some (a, c :: rest) := by
  simp [getnum, isDigit_digitChar, digitVal_digitChar, ha, hc]

theorem getnum_shortNumber (n : Nat) (h : n ≤ 99) (padded : Bool) (rest : List Char) :
    getnum (shortNumber n padded ++ '/' :: rest) false = some (n, '/' :: rest) := by
  unfold shortNumber
  split_ifs with hc
  · simp only [Bool.and_eq_true, decide_eq_true_eq] at hc
    exact getnum_one_digit n hc.1 '/' (by decide) rest
  · exact getnum_twoDigits n h false _

theorem leadingInt_digits : ∀ (ks : List Nat) (x : Nat), (∀ k ∈ ks, k < 10) →
    (x + 1) * 10 ^ ks.length ≤ 10 ^ 18 →
    leadingInt (ks.map digitChar) x = some (ks.foldl (fun a k => a * 10 + k) x, []) := by
  intro ks
  induction ks with
  | nil => intro x _ _; rfl
  | cons k ks ih =>
    intro x hk hx
    have hk10 : k < 10 := hk k (List.mem_cons_self _ _)
    have hpos : 1 ≤ 10 ^ ks.length := Nat.one_le_pow _ _ (by norm_num)
    have hx' : (x + 1) * 10 * 10 ^ ks.length ≤ 10 ^ 18 := by
      rw [List.length_cons, pow_succ] at hx
      calc (x + 1) * 10 * 10 ^ ks.length = (x + 1) * (10 ^ ks.length * 10) := by ring
        _ ≤ 10 ^ 18 := hx
    have hx10 : (x + 1) * 10 ≤ 10 ^ 18 :=
      le_trans (Nat.le_mul_of_pos_right _ hpos) hx'
    have h63 : (2 : Nat) ^ 63 = 9223372036854775808 := by norm_num
    have h18 : (10 : Nat) ^ 18 = 1000000000000000000 := by norm_num
    have hnext : (x * 10 + k + 1) * 10 ^ ks.length ≤ 10 ^ 18 :=
      le_trans (Nat.mul_le_mul_right _ (by omega)) hx'
    simp only [List.map_cons, leadingInt, isDigit_digitChar k hk10, Bool.not_true,
      Bool.false_eq_true, if_false, digitVal_digitChar k hk10, List.foldl_cons]
    rw [if_neg (by omega), if_neg (by omega)]
    exact ih _ (fun j hj => hk j (List.mem_cons_of_mem _ hj)) hnext

theorem atoi_digits (ks : List Nat) (hne : ks ≠ []) (hk : ∀ k ∈ ks, k < 10)
    (hlen : ks.length ≤ 17) :
    atoi (ks.map digitChar) = some ((digitsNumber ks : Nat) : Int) := by
  obtain ⟨k, ks', rfl⟩ := List.exists_cons_of_ne_nil hne
  have hk10 : k < 10 := hk k (List.mem_cons_self _ _)
  have hminus : digitChar k ≠ '-' := by
    intro e
    have := isDigit_digitChar k hk10
    rw [e] at this
    exact absurd this (by decide)
  have hplus : digitChar k ≠ '+' := by
    intro e
    have := isDigit_digitChar k hk10
    rw [e] at this
    exact absurd this (by decide)
  have hb : (0 + 1) * 10 ^ (k :: ks').length ≤ 10 ^ 18 := by
    rw [Nat.zero_add, Nat.one_mul]
    exact Nat.pow_le_pow_right (by norm_num) (by omega)
  have hl := leadingInt_digits (k :: ks') 0 hk hb
  simp only [List.map_cons] at hl
  simp [atoi, hminus, hplus, hl, digitsNumber]

theorem atoi_fourDigits (y : Nat) (h : y ≤ 9999) : atoi (fourDigits y) = some (y : Int) := by
  have := atoi_digits [y / 1000, y / 100 % 10, y / 10 % 10, y % 10] (by simp)
    (by
      intro k hk
      simp only [List.mem_cons, List.mem_singleton, List.not_mem_nil, or_false] at hk
      omega) (by simp)
  have hv : digitsNumber [y / 1000, y / 100 % 10, y / 10 % 10, y % 10] = y := by
    simp only [digitsNumber, List.foldl_cons, List.foldl_nil]
    omega
  rw [hv] at this
  exact this

theorem atoi_twoDigits (n : Nat) (h : n ≤ 99) : atoi (twoDigits n) = some (n : Int) := by
  have := atoi_digits [n / 10, n % 10] (by simp)
    (by
      intro k hk
      simp only [List.mem_cons, List.mem_singleton, List.not_mem_nil, or_false] at hk
      omega) (by simp)
  have hv : digitsNumber [n / 10, n % 10] = n := by
    simp only [digitsNumber, List.foldl_cons, List.foldl_nil]
    omega
  rw [hv] at this
  exact this

theorem parseDateElems_text (y mo d : Nat) (rest : List Char) (hy : y ≤ 9999)
    (hmo1 : 1 ≤ mo) (hmo : mo ≤ 12) (hd : d ≤ 99) :
    parseDateElems (fourDigits y ++ '-' :: (twoDigits mo ++ '-' :: (twoDigits d ++ rest)))
      = some ((y : Int), mo, d, rest) := by
  have hy4 := atoi_fourDigits y hy
  have hy1 := isDigit_digitChar (y / 1000) (by omega)
  have gm := getnum_twoDigits mo (by omega) true ('-' :: (twoDigits d ++ rest))
  have gd := getnum_twoDigits d hd true rest
  simp only [fourDigits, twoDigits, List.cons_append, List.nil_append] at hy4 gm gd ⊢
  simp [parseDateElems, check, skip, hy4, hy1, gm, gd, hmo1, hmo]

theorem takeWhile_digits (ks : List Nat) (hk : ∀ k ∈ ks, k < 10) (c : Char)
    (hc : isDigit c = false) (rest : List Char) :
    (ks.map digitChar ++ c :: rest).takeWhile isDigit = ks.map digitChar ∧
    (ks.map digitChar ++ c :: rest).dropWhile isDigit = c :: rest := by
  induction ks with
  | nil => simp [List.takeWhile, List.dropWhile, hc]
  | cons k ks ih =>
    have h10 := isDigit_digitChar k (hk k (List.mem_cons_self _ _))
    have := ih (fun j hj => hk j (List.mem_cons_of_mem _ hj))
    simp [List.takeWhile, List.dropWhile, h10, this]

theorem ZoneText.text_head (z : ZoneText) :
    ∃ c r, z.text = c :: r ∧ isDigit c = false ∧ c ≠ '.' ∧ c ≠ ',' := by
  cases z with
  | Z => exact ⟨'Z', [], rfl, by decide, by decide, by decide⟩
  | offset east h m =>
    cases east
    · exact ⟨'-', _, rfl, by decide, by decide, by decide⟩
    · exact ⟨'+', _, rfl, by decide, by decide, by decide⟩

theorem parseFraction_text (fs : List Nat) (hk : ∀ k ∈ fs, k < 10) (hlen : fs.length ≤ 9)
    (z : ZoneText) :
    parseFraction (fractionText fs ++ z.text) = some (fractionNanos fs, z.text) := by
  obtain ⟨c, r, hz, hc, hdot, hcomma⟩ := z.text_head
  cases fs with
  | nil =>
    rw [hz]
    cases r with
    | nil => simp [fractionText, parseFraction, fractionNanos, digitsNumber]
    | cons e r => simp [fractionText, parseFraction, fractionNanos, digitsNumber, hdot, hcomma]
  | cons k ks =>
    have h10 := isDigit_digitChar k (hk k (List.mem_cons_self _ _))
    have htd := takeWhile_digits (k :: ks) hk c hc r
    have hat := atoi_digits (k :: ks) (by simp) hk (by omega)
    have hl : ((k :: ks).map digitChar).length ≤ 9 := by simpa using hlen
    have htake : ((k :: ks).map digitChar).take 9 = (k :: ks).map digitChar :=
      List.take_of_length_le hl
    rw [hz]
    simp only [List.map_cons, List.cons_append] at htd hat htake
    simp only [fractionText, List.isEmpty_cons, Bool.false_eq_true, if_false, List.map_cons,
      List.cons_append, parseFraction, h10, Bool.and_true, Bool.or_false, decide_True,
      if_true, htd.1, htd.2, htake, hat]
    simp [fractionNanos]

theorem parseClockElems_text (h mi s : Nat) (fs : List Nat) (z : ZoneText) (hh : h < 24)
    (hmi : mi < 60) (hs : s < 60) (hk : ∀ k ∈ fs, k < 10) (hlen : fs.length ≤ 9) :
    parseClockElems (twoDigits h ++ ':' :: (twoDigits mi ++ ':' :: (twoDigits s ++
      (fractionText fs ++ z.text))))
      = some (h, mi, s, fractionNanos fs, z.text) := by
  have gh := getnum_twoDigits h (by omega) false (':' :: (twoDigits mi ++ ':' ::
    (twoDigits s ++ (fractionText fs ++ z.text))))
  have gmi := getnum_twoDigits mi (by omega) true (':' :: (twoDigits s ++
    (fractionText fs ++ z.text)))
  have gs := getnum_twoDigits s (by omega) true (fractionText fs ++ z.text)
  have hf := parseFraction_text fs hk hlen z
  simp only [twoDigits, List.cons_append, List.nil_append] at gh gmi gs ⊢
  simp [parseClockElems, check, skip, gh, gmi, gs, hf, hh, hmi, hs]

theorem parseZone_text (z : ZoneText) (hz : z.WellFormed = true) :
    parseZone z.text = some (z.loc, []) := by
  cases z with
  | Z => rfl
  | offset east h m =>
    simp only [ZoneText.WellFormed, Bool.and_eq_true, decide_eq_true_eq] at hz
    obtain ⟨hh, hm⟩ := hz
    have gh := getnum_twoDigits h (by omega) true []
    have gm := getnum_twoDigits m (by omega) true []
    simp only [twoDigits, List.cons_append, List.nil_append, List.append_nil] at gh gm
    have h24 : ¬ h > 24 := by omega
    have h60 : ¬ m > 60 := by omega
    cases east
    · have e : ZoneText.text (ZoneText.offset false h m)
          = '-' :: digitChar (h / 10) :: digitChar (h % 10) :: ':' :: digitChar (m / 10)
            :: digitChar (m % 10) :: [] := rfl
      rw [e]
      simp [parseZone, gh, gm, h24, h60, ZoneText.loc]
    · have e : ZoneText.text (ZoneText.offset true h m)
          = '+' :: digitChar (h / 10) :: digitChar (h % 10) :: ':' :: digitChar (m / 10)
            :: digitChar (m % 10) :: [] := rfl
      rw [e]
      simp [parseZone, gh, gm, h24, h60, ZoneText.loc]

theorem parseRFC3339_text (y mo d h mi s : Nat) (fs : List Nat) (z : ZoneText)
    (hy : y ≤ 9999) (hmo1 : 1 ≤ mo) (hmo : mo ≤ 12) (hd1 : 1 ≤ d)
    (hd : d ≤ daysIn mo (y : Int)) (hh : h < 24) (hmi : mi < 60) (hs : s < 60)
    (hk : ∀ k ∈ fs, k < 10) (hlen : fs.length ≤ 9) (hz : z.WellFormed = true) :
    Parse_RFC3339 (rfc3339Text y mo d h mi s fs z)
      = some ⟨(y : Int), mo, d, h, mi, s, fractionNanos fs, z.loc⟩ := by
  have hd99 : d ≤ 99 := le_trans hd (le_trans (daysIn_le mo (y : Int)) (by norm_num))
  have hde := parseDateElems_text y mo d ('T' :: (twoDigits h ++ ':' :: (twoDigits mi ++ ':' ::
    (twoDigits s ++ (fractionText fs ++ z.text))))) hy hmo1 hmo hd99
  have hce := parseClockElems_text h mi s fs z hh hmi hs hk hlen
  have hze := parseZone_text z hz
  simp [Parse_RFC3339, rfc3339Text, parseRFC3339, hde, skip, hce, hze, check, hd1, hd]

theorem parseMDYY_text (mo d yy : Nat) (padMonth padDay : Bool) (hmo1 : 1 ≤ mo)
    (hmo : mo ≤ 12) (hyy : yy ≤ 99) (hd1 : 1 ≤ d) (hd : d ≤ daysIn mo (centuryYear yy)) :
    Parse_1_2_06 (compactText mo d yy padMonth padDay)
      = some ⟨centuryYear yy, mo, d, 0, 0, 0, 0, Location.UTC⟩ := by
  have hd99 : d ≤ 99 := le_trans hd (le_trans (daysIn_le mo _) (by norm_num))
  have gm := getnum_shortNumber mo (by omega) padMonth (shortNumber d padDay ++ '/' :: twoDigits yy)
  have gd := getnum_shortNumber d hd99 padDay (twoDigits yy)
  have hy := atoi_twoDigits yy hyy
  have hc : (if 69 ≤ yy then (yy : Int) + 1900 else (yy : Int) + 2000)
      = centuryYear yy := by
    unfold centuryYear
    split_ifs <;> omega
  simp only [twoDigits] at hy gm gd
  simp [Parse_1_2_06, compactText, parseMDYY, check, skip, twoDigits, gm, gd, hy, hc, hmo1,
    hmo, hd1, hd]

/-! ## What the number readers read -/

theorem digitChar_ne_sign (k : Nat) (h : k < 10) :
    digitChar k ≠ '-' ∧ digitChar k ≠ '+' ∧ digitChar k ≠ '.' := by
  interval_cases k <;> decide

theorem digitsValue_map (ks : List Nat) (hk : ∀ k ∈ ks, k < 10) :
    ∀ x : Nat, (ks.map digitChar).foldl (fun a c => a * 10 + digitVal c) x
      = ks.foldl (fun a k => a * 10 + k) x := by
  induction ks with
  | nil => intro x; rfl
  | cons k ks ih =>
    intro x
    simp only [List.map_cons, List.foldl_cons,
      digitVal_digitChar k (hk k (List.mem_cons_self _ _))]
    exact ih (fun j hj => hk j (List.mem_cons_of_mem _ hj)) _

theorem digitsValue_digits (ks : List Nat) (hk : ∀ k ∈ ks, k < 10) :
    digitsValue (ks.map digitChar) = digitsNumber ks :=
  digitsValue_map ks hk 0

theorem all_isDigit_map (ks : List Nat) (hk : ∀ k ∈ ks, k < 10) :
    (ks.map digitChar).all isDigit = true := by
  simp only [List.all_eq_true, List.mem_map]
  rintro c ⟨k, hk', rfl⟩
  exact isDigit_digitChar k (hk k hk')

theorem Atoi_digits (neg : Bool) (s : String) (ks : List Nat) (hne : ks ≠ [])
    (hk : ∀ k ∈ ks, k < 10) (hv : digitsNumber ks < 2 ^ 63)
    (hneg : (s.data.head? == some '-') = neg)
    (hds : (if s.data.head? == some '-' || s.data.head? == some '+' then s.data.tail
      else s.data) = ks.map digitChar) :
    Atoi s = (if neg then -((digitsNumber ks : Nat) : Int) else ((digitsNumber ks : Nat) : Int),
      none) := by
  have hall := all_isDigit_map ks hk
  have hval : List.foldl (fun a c => a * 10 + digitVal c) 0 (ks.map digitChar)
      = digitsNumber ks := digitsValue_map ks hk 0
  have hemp : (ks.map digitChar).isEmpty = false := by
    cases ks with
    | nil => exact absurd rfl hne
    | cons k ks => rfl
  have hv1 : ¬ digitsNumber ks > 2 ^ 63 := by omega
  have hv2 : ¬ digitsNumber ks ≥ 2 ^ 63 := by omega
  unfold Atoi
  simp only [hds]
  simp only [hneg, hall, hemp, hval, Bool.not_true, Bool.or_self, Bool.false_eq_true,
    if_false, if_neg hv1, if_neg hv2]
  cases neg <;> simp

theorem Atoi_intText (sg : SignText) (ks : List Nat) (hne : ks ≠ [])
    (hk : ∀ k ∈ ks, k < 10) (hv : digitsNumber ks < 2 ^ 63) :
    Atoi (intText sg ks) = (intValue sg ks, none) := by
  obtain ⟨k, ks', rfl⟩ := List.exists_cons_of_ne_nil hne
  obtain ⟨hminus, hplus, _⟩ := digitChar_ne_sign k (hk k (List.mem_cons_self _ _))
  cases sg
  · exact Atoi_digits false _ (k :: ks') hne hk hv
      (by simp [intText, SignText.text, hminus])
      (by simp [intText, SignText.text, hminus, hplus])
  · exact Atoi_digits false _ (k :: ks') hne hk hv
      (by simp [intText, SignText.text])
      (by simp [intText, SignText.text])
  · exact Atoi_digits true _ (k :: ks') hne hk hv
      (by simp [intText, SignText.text])
      (by simp [intText, SignText.text])

theorem takeWhile_all_digits (ks : List Nat) (hk : ∀ k ∈ ks, k < 10) :
    (ks.map digitChar).takeWhile isDigit = ks.map digitChar ∧
    (ks.map digitChar).dropWhile isDigit = [] := by
  induction ks with
  | nil => simp
  | cons k ks ih =>
    have h10 := isDigit_digitChar k (hk k (List.mem_cons_self _ _))
    have := ih (fun j hj => hk j (List.mem_cons_of_mem _ hj))
    simp [List.takeWhile, List.dropWhile, h10, this]

theorem readUnsigned_text (ip fr : List Nat) (hne : ip ≠ []) (hip : ∀ k ∈ ip, k < 10)
    (hfr : ∀ k ∈ fr, k < 10) :
    readUnsigned (ip.map digitChar ++ fractionText fr)
      = some (((digitsNumber (ip ++ fr) : Nat) : ℚ) / 10 ^ fr.length) := by
  have hipne : (ip.map digitChar).isEmpty = false := by
    cases ip with
    | nil => exact absurd rfl hne
    | cons k ks => rfl
  cases fr with
  | nil =>
    have h := takeWhile_all_digits ip hip
    have hval := digitsValue_digits ip hip
    have e : fractionText [] = [] := rfl
    rw [e, List.append_nil, List.append_nil]
    unfold readUnsigned
    rw [h.2, h.1]
    simp only [hipne, Bool.false_eq_true, if_false, hval, List.length_nil, pow_zero, div_one]
  | cons f fs =>
    have h := takeWhile_digits ip hip '.' (by decide) ((f :: fs).map digitChar)
    have hall := all_isDigit_map (f :: fs) hfr
    have hval := digitsValue_digits (ip ++ f :: fs)
      (by
        intro k hk
        rcases List.mem_append.1 hk with h1 | h1
        · exact hip k h1
        · exact hfr k h1)
    rw [List.map_append] at hval
    have e : fractionText (f :: fs) = '.' :: (f :: fs).map digitChar := rfl
    have hfe : ((f :: fs).map digitChar).isEmpty = false := rfl
    rw [e]
    unfold readUnsigned
    rw [h.2, h.1]
    simp only [hall, hipne, hfe, hval, Bool.not_false, Bool.and_true, decide_True, if_true,
      List.length_map]

theorem exactDecimals_literal (neg : Bool) (s : String) (ds : List Char)
    (hneg : (s.data.head? == some '-') = neg)
    (hds : (if s.data.head? == some '-' || s.data.head? == some '+' then s.data.tail
      else s.data) = ds) :
    exactDecimals.literal s = (readUnsigned ds).map (fun v => if neg then -v else v) := by
  subst hneg
  subst hds
  rfl

theorem exactDecimals_readsDecimals : exactDecimals.ReadsDecimals := by
  refine ⟨rfl, ?_, ?_⟩
  · intro sg ip fr hne hip hfr _
    have hu := readUnsigned_text ip fr hne hip hfr
    obtain ⟨k, ks', rfl⟩ := List.exists_cons_of_ne_nil hne
    obtain ⟨hminus, hplus, _⟩ := digitChar_ne_sign k (hip k (List.mem_cons_self _ _))
    cases sg
    · rw [exactDecimals_literal false _ ((k :: ks').map digitChar ++ fractionText fr)
        (by simp [decimalText, SignText.text, hminus])
        (by simp [decimalText, SignText.text, hminus, hplus]), hu]
      simp [decimalValue, SignText.negative]
    · rw [exactDecimals_literal false _ ((k :: ks').map digitChar ++ fractionText fr)
        (by simp [decimalText, SignText.text])
        (by simp [decimalText, SignText.text]), hu]
      simp [decimalValue, SignText.negative]
    · rw [exactDecimals_literal true _ ((k :: ks').map digitChar ++ fractionText fr)
        (by simp [decimalText, SignText.text])
        (by simp [decimalText, SignText.text]), hu]
      simp [decimalValue, SignText.negative]
  · intro s c rest hs hc hmem
    simp only [List.mem_cons, List.mem_singleton, List.not_mem_nil, or_false, not_or] at hmem
    obtain ⟨hplus, hminus, hdot, _⟩ := hmem
    rw [exactDecimals_literal false s (c :: rest) (by simp [hs, hminus])
      (by simp [hs, hminus, hplus])]
    simp [readUnsigned, List.dropWhile, List.takeWhile, hc, hdot]

theorem decimalText_ne_empty (sg : SignText) (ip fr : List Nat) (hne : ip ≠ []) :
    decimalText sg ip fr ≠ "" := by
  obtain ⟨k, ks, rfl⟩ := List.exists_cons_of_ne_nil hne
  intro h
  have hd := congrArg String.data h
  cases sg <;> simp [decimalText, SignText.text] at hd

theorem isFloat64_of_dyadic (m : Int) (k : Nat) (hm : m.natAbs < 2 ^ 53) (hk : k ≤ 1074) :
    isFloat64 ((m : ℚ) / 2 ^ k) = true := by
  have e : ((m : ℚ) / 2 ^ k) = ((m : ℤ) : ℚ) / (((2 ^ k : ℕ) : ℤ) : ℚ) := by push_cast; rfl
  have hp : (0 : ℤ) < ((2 ^ k : ℕ) : ℤ) := by positivity
  have hden : ((m : ℚ) / 2 ^ k).den ∣ 2 ^ k := by
    rw [e]
    have := Rat.den_dvd m ((2 ^ k : ℕ) : ℤ)
    exact_mod_cast this
  have hnum : ((m : ℚ) / 2 ^ k).num ∣ m := by
    rw [e]
    have := Rat.num_dvd m (ne_of_gt hp)
    rw [Rat.divInt_eq_div] at this
    exact this
  have hle : ((m : ℚ) / 2 ^ k).num.natAbs ≤ m.natAbs ∨ m = 0 := by
    by_cases h0 : m = 0
    · exact Or.inr h0
    · exact Or.inl (Nat.le_of_dvd (Int.natAbs_pos.2 h0) (Int.natAbs_dvd_natAbs.2 hnum))
  simp only [isFloat64, Bool.and_eq_true, decide_eq_true_eq]
  constructor
  · rcases hle with h | h
    · exact lt_of_le_of_lt h hm
    · subst h
      simp
  · exact dvd_trans hden (pow_dvd_pow 2 hk)

theorem Float_of_empty_cell {F : Type} (fp : FloatParser F) (rec : List String)
    (hidx : HeaderIndex) (h : String) (hv : Val rec hidx h = "") :
    Float fp rec hidx h = (fp.zero, some (Error.numError "ParseFloat" "" "invalid syntax")) := by
  simp [Float, ParseFloat, hv]

theorem Atoi_of_empty :
    Atoi "" = (0, some (Error.numError "Atoi" "" "invalid syntax")) := by
  decide

theorem ParseFloat_of_empty (fp : FloatParser ℚ) (hfp : fp.ReadsDecimals) :
    ParseFloat fp "" = (0, some (Error.numError "ParseFloat" "" "invalid syntax")) := by
  simp [ParseFloat, hfp.zero_eq]

theorem ParseFloat_of_decimal (fp : FloatParser ℚ) (hfp : fp.ReadsDecimals) (sg : SignText)
    (ip fr : List Nat) (hne : ip ≠ []) (hip : ∀ k ∈ ip, k < 10) (hfr : ∀ k ∈ fr, k < 10)
    (hq : isFloat64 (decimalValue sg ip fr) = true) :
    ParseFloat fp (decimalText sg ip fr) = (decimalValue sg ip fr, none) := by
  simp [ParseFloat, decimalText_ne_empty sg ip fr hne, hfp.decimal sg ip fr hne hip hfr hq]

theorem ParseFloat_of_rejected (fp : FloatParser ℚ) (hfp : fp.ReadsDecimals) (s : String)
    (c : Char) (rest : List Char) (hs : s.data = c :: rest) (hc : isDigit c = false)
    (hmem : c ∉ ['+', '-', '.', 'i', 'I', 'n', 'N']) :
    ParseFloat fp s = (0, some (Error.numError "ParseFloat" s "invalid syntax")) := by
  have hne : s ≠ "" := by
    intro h
    rw [h] at hs
    exact absurd hs (by simp)
  simp [ParseFloat, hne, hfp.reject s c rest hs hc hmem, hfp.zero_eq]

/-- The readings of the worked examples: `12.5` is read as 25/2, `-0.25` as -1/4, `abc`
is rejected. -/
theorem ParseFloat_examples (fp : FloatParser ℚ) (hfp : fp.ReadsDecimals) :
    ParseFloat fp "12.5" = (25 / 2, none) ∧
    ParseFloat fp "-0.25" = (-1 / 4, none) ∧
    ParseFloat fp "abc" = (0, some (Error.numError "ParseFloat" "abc" "invalid syntax")) := by
  refine ⟨?_, ?_, ?_⟩
  · have hv : decimalValue SignText.none [1, 2] [5] = 25 / 2 := by
      norm_num [decimalValue, digitsNumber, SignText.negative]
    have hq : isFloat64 (decimalValue SignText.none [1, 2] [5]) = true := by
      rw [hv]
      have h := isFloat64_of_dyadic 25 1 (by norm_num) (by norm_num)
      have e : ((25 : ℤ) : ℚ) / 2 ^ 1 = 25 / 2 := by norm_num
      rw [e] at h
      exact h
    have := ParseFloat_of_decimal fp hfp SignText.none [1, 2] [5] (by simp) (by decide)
      (by decide) hq
    rw [hv] at this
    exact this
  · have hv : decimalValue SignText.minus [0] [2, 5] = -1 / 4 := by
      norm_num [decimalValue, digitsNumber, SignText.negative]
    have hq : isFloat64 (decimalValue SignText.minus [0] [2, 5]) = true := by
      rw [hv]
      have h := isFloat64_of_dyadic (-1) 2 (by norm_num) (by norm_num)
      have e : ((-1 : ℤ) : ℚ) / 2 ^ 2 = -1 / 4 := by norm_num
      rw [e] at h
      exact h
    have := ParseFloat_of_decimal fp hfp SignText.minus [0] [2, 5] (by simp) (by decide)
      (by decide) hq
    rw [hv] at this
    exact this
  · exact ParseFloat_of_rejected fp hfp "abc" 'a' ['b', 'c'] rfl (by decide) (by decide)

theorem Float_tolerant (fp : FloatParser ℚ) (hfp : fp.ReadsDecimals) (rec : List String)
    (hidx : HeaderIndex) (h : String) :
    TolerantFloat fp (Val rec hidx h) (Float fp rec hidx h).1 := by
  refine ⟨?_, ?_, ?_⟩
  · intro hc
    unfold Float
    rw [hc, ParseFloat_of_empty fp hfp]
  · intro sg ip fr hne hip hfr hq hc
    unfold Float
    rw [hc, ParseFloat_of_decimal fp hfp sg ip fr hne hip hfr hq]
  · intro x hc hx
    simp [Float, ParseFloat, hc, hx]

theorem Atoi_tolerant (cell : String) : TolerantInt cell (Atoi cell).1 := by
  constructor
  · intro hc
    subst hc
    decide
  · intro sg ks hne hk hv hc
    rw [hc, Atoi_intText sg ks hne hk hv]

theorem parseFailure_of_empty (msg : String) (err : Option Error) :
    parseFailure msg err "" = none := by
  cases err <;> simp [parseFailure]

theorem parseFailure_of_none (msg : String) (cell : String) :
    parseFailure msg none cell = none := rfl

/-- A row that has, of the parsed columns, at most the rate, the zone and the creation
date: the first failing check of the three decides, and the staging row holds zero for
every other number and the zero date for the postage-label date. -/
theorem extractBillRecords_of_three_cells (fp : FloatParser ℚ) (hfp : fp.ReadsDecimals)
    (cols : Columns) (rec : List String) (hidx : HeaderIndex) (records : List (List (AnyVal ℚ)))
    (h : ∀ c ∈ [cols.LabelFee, cols.PostageFee, cols.InsuranceFee, cols.CarbonOffsetFee,
      cols.Weight, cols.Length, cols.Width, cols.Height, cols.PostageLabelCreatedAt],
      Val rec hidx c = "") :
    extractBillRecords fp cols rec hidx records
      = match parseFailure "parse rate" (Float fp rec hidx cols.Rate).2
            (Val rec hidx cols.Rate) with
        | some e => ([], some e)
        | none =>
          match parseFailure "parse uspsZone" (Atoi (Val rec hidx cols.USPSZone)).2
              (Val rec hidx cols.USPSZone) with
          | some e => ([], some e)
          | none =>
            match (date rec hidx cols.CreatedAt).2 with
            | some e => ([], some (Error.wrap "parse created date" e))
            | none =>
              (records ++ [[AnyVal.str (Val rec hidx cols.TrackingCode), AnyVal.float 0,
                AnyVal.float (Float fp rec hidx cols.Rate).1, AnyVal.float 0, AnyVal.float 0,
                AnyVal.int (Atoi (Val rec hidx cols.USPSZone)).1,
                AnyVal.str (Val rec hidx cols.FromZip), AnyVal.float 0, AnyVal.float 0,
                AnyVal.float 0, AnyVal.time Time.zero, AnyVal.float 0, AnyVal.float 0,
                AnyVal.time (date rec hidx cols.CreatedAt).1,
                AnyVal.str (buildInvoiceNumber cols rec hidx (date rec hidx cols.CreatedAt).1),
                AnyVal.str (Val rec hidx cols.Service)]], none) := by
  simp only [List.forall_mem_cons, List.not_mem_nil, IsEmpty.forall_iff, implies_true,
    and_true] at h
  obtain ⟨h1, h2, h3, h4, h5, h6, h7, h8, h9⟩ := h
  unfold extractBillRecords
  simp only [Float_of_empty_cell fp rec hidx _ h1, Float_of_empty_cell fp rec hidx _ h2,
    Float_of_empty_cell fp rec hidx _ h3, Float_of_empty_cell fp rec hidx _ h4,
    Float_of_empty_cell fp rec hidx _ h5, Float_of_empty_cell fp rec hidx _ h6,
    Float_of_empty_cell fp rec hidx _ h7, Float_of_empty_cell fp rec hidx _ h8,
    date_of_empty rec hidx _ h9, h1, h2, h3, h4, h5, h6, h7, h8, parseFailure_of_empty,
    hfp.zero_eq]

/-! ## Columns that the header row lacks -/

theorem RowRejected_iff_present {F : Type} (fp : FloatParser F) (cols : Columns)
    (headers : List String) (row : List String) :
    RowRejected fp cols row (BuildHeaderIndex headers)
      ↔ RowRejectedPresent fp cols headers row := by
  constructor
  · rintro (⟨c, hc, hne, hl⟩ | ⟨hne, he⟩ | ⟨c, hc, hne, h1, h2⟩)
    · exact Or.inl ⟨c, hc, mem_of_Val_ne_empty headers row c hne, hne, hl⟩
    · exact Or.inr (Or.inl ⟨mem_of_Val_ne_empty headers row _ hne, hne, he⟩)
    · exact Or.inr (Or.inr ⟨c, hc, mem_of_Val_ne_empty headers row c hne, hne, h1, h2⟩)
  · rintro (⟨c, hc, _, hne, hl⟩ | ⟨_, hne, he⟩ | ⟨c, hc, _, hne, h1, h2⟩)
    · exact Or.inl ⟨c, hc, hne, hl⟩
    · exact Or.inr (Or.inl ⟨hne, he⟩)
    · exact Or.inr (Or.inr ⟨c, hc, hne, h1, h2⟩)

theorem RowRejectedPresent.exists_parsed_column {F : Type} (fp : FloatParser F)
    (cols : Columns) (headers : List String) (row : List String)
    (h : RowRejectedPresent fp cols headers row) :
    ∃ c ∈ parsedColumns cols, c ∈ headers := by
  obtain ⟨c, hc, hh, _⟩ := RowRejected.exists_present_column fp cols headers row
    ((RowRejected_iff_present fp cols headers row).2 h)
  exact ⟨c, hc, hh⟩

theorem stagingRow_of_absent {F : Type} (fp : FloatParser F) (cols : Columns)
    (headers : List String) (row : List String) :
    ∀ t ∈ emptyValues fp cols, t.1 ∉ headers →
      (stagingRow fp cols row (BuildHeaderIndex headers))[t.2.1]? = some t.2.2 := by
  intro t ht hc
  have hv := Val_of_not_mem headers row t.1 hc
  have hf := Float_of_empty_cell fp row (BuildHeaderIndex headers) t.1 hv
  have hd := date_of_empty row (BuildHeaderIndex headers) t.1 hv
  have ha := Atoi_of_empty
  simp only [emptyValues, List.mem_cons, List.mem_singleton, List.not_mem_nil, or_false] at ht
  rcases ht with rfl | rfl | rfl | rfl | rfl | rfl | rfl | rfl | rfl | rfl | rfl | rfl | rfl |
    rfl | rfl
  all_goals simp only [] at hv hf hd
  all_goals simp [stagingRow, hv, hf, hd, ha]

theorem stagingRow_invoice_of_absent_date {F : Type} (fp : FloatParser F) (cols : Columns)
    (headers : List String) (row : List String) (h : cols.CreatedAt ∉ headers) :
    (stagingRow fp cols row (BuildHeaderIndex headers))[14]?
      = some (AnyVal.str (Val row (BuildHeaderIndex headers) cols.CarrierAccountID
          ++ "-0001-01-01")) := by
  have hb := rowBill_of_empty_date cols (BuildHeaderIndex headers) row
    (Val_of_not_mem headers row _ h)
  have hi := congrArg BillDetails.InvoiceID hb
  simp only [rowBill] at hi
  simp [stagingRow, hi]

/-! ## Claims -/

/-- C2: whenever `GetBills` succeeds, every row parsed its creation date and its bill
(invoice ID synthesized from the row and that date, the date, the from-zip cell, the
carrier-account cell) is in the output, and every output bill is such a bill of some
row; with a header row without repeated names a cell read by `Val` is the row's entry
under that column name, unchanged. -/
theorem getBills_exactly_the_row_bills (tz : LocalZone) (cols : Columns) (headers : List String)
    (rows : List (List String)) (h : (GetBills tz cols headers rows).2 = none) :
    (∀ row ∈ rows, ∃ d : Time,
        date row (BuildHeaderIndex headers) cols.CreatedAt = (d, none) ∧
        ({ InvoiceID := buildInvoiceNumber cols row (BuildHeaderIndex headers) d
           InvoiceDate := d
           WarehouseZip := Val row (BuildHeaderIndex headers) cols.FromZip
           AccountNo := Val row (BuildHeaderIndex headers) cols.CarrierAccountID }
          : BillDetails) ∈ (GetBills tz cols headers rows).1) ∧
    (∀ b ∈ (GetBills tz cols headers rows).1, ∃ row ∈ rows, ∃ d : Time,
        date row (BuildHeaderIndex headers) cols.CreatedAt = (d, none) ∧
        b = { InvoiceID := buildInvoiceNumber cols row (BuildHeaderIndex headers) d
              InvoiceDate := d
              WarehouseZip := Val row (BuildHeaderIndex headers) cols.FromZip
              AccountNo := Val row (BuildHeaderIndex headers) cols.CarrierAccountID }) ∧
    (∀ (row : List String) (col : String) (k : Nat), headers.Nodup →
        headers[k]? = some col → Val row (BuildHeaderIndex headers) col = row.getD k "") := by
  have hall := GetBills.all_ok_of_ok tz cols (BuildHeaderIndex headers) rows NewOrderedSet h
  have hdate : ∀ row ∈ rows, date row (BuildHeaderIndex headers) cols.CreatedAt
      = ((date row (BuildHeaderIndex headers) cols.CreatedAt).1, none) := by
    intro row hr
    exact Prod.ext rfl (hall row hr)
  have hmem : ∀ b, b ∈ (GetBills tz cols headers rows).1 ↔
      b ∈ rows.map (rowBill cols (BuildHeaderIndex headers)) := by
    intro b
    exact GetBills.mem_iff_of_ok tz cols headers rows h b
  refine ⟨?_, ?_, ?_⟩
  · intro row hr
    refine ⟨_, hdate row hr, ?_⟩
    rw [hmem]
    exact List.mem_map.2 ⟨row, hr, rfl⟩
  · intro b hb
    rw [hmem] at hb
    obtain ⟨row, hr, rfl⟩ := List.mem_map.1 hb
    exact ⟨row, hr, _, hdate row hr, rfl⟩
  · intro row col k hnd hk
    exact Val_BuildHeaderIndex headers row col k hnd hk

/-- Witness of C2: on the sample rows the bill of the third row (empty creation date,
account 1002) is returned. -/
theorem getBills_exactly_the_row_bills_witness :
    (GetBills utcZone sampleColumns sampleHeaders sampleRows).2 = none ∧
    ∃ d : Time,
      date ["1002", "", "10001"] (BuildHeaderIndex sampleHeaders) sampleColumns.CreatedAt
        = (d, none) ∧
      ({ InvoiceID := buildInvoiceNumber sampleColumns ["1002", "", "10001"]
            (BuildHeaderIndex sampleHeaders) d
         InvoiceDate := d
         WarehouseZip := Val ["1002", "", "10001"] (BuildHeaderIndex sampleHeaders)
            sampleColumns.FromZip
         AccountNo := Val ["1002", "", "10001"] (BuildHeaderIndex sampleHeaders)
            sampleColumns.CarrierAccountID } : BillDetails)
        ∈ (GetBills utcZone sampleColumns sampleHeaders sampleRows).1 :=
  ⟨by decide,
    (getBills_exactly_the_row_bills utcZone sampleColumns sampleHeaders sampleRows (by decide)).1
      ["1002", "", "10001"] (by decide)⟩

/-- C3: for every row and every date that the date helper returns, which are the dates
the adapter passes to it, `buildInvoiceNumber` returns the carrier-account cell, a dash,
and the date as four year digits, two month digits and two day digits separated by
dashes; for the account `1001` and 5 March 2024 it returns `1001-2024-03-05`. -/
theorem buildInvoiceNumber_format (cols : Columns) (row : List String) (hidx : HeaderIndex)
    (record : List String) (idx : HeaderIndex) (header : String) :
    buildInvoiceNumber cols row hidx (date record idx header).1
      = Val row hidx cols.CarrierAccountID ++ "-" ++ String.mk
          [digitChar ((date record idx header).1.year.toNat / 1000),
           digitChar ((date record idx header).1.year.toNat / 100 % 10),
           digitChar ((date record idx header).1.year.toNat / 10 % 10),
           digitChar ((date record idx header).1.year.toNat % 10), '-',
           digitChar ((date record idx header).1.month / 10),
           digitChar ((date record idx header).1.month % 10), '-',
           digitChar ((date record idx header).1.day / 10),
           digitChar ((date record idx header).1.day % 10)] ∧
    (date ["1001", "3/5/24"] [("carrier_account_id", 0), ("created_at", 1)] "created_at").1
      = ⟨2024, 3, 5, 0, 0, 0, 0, Location.UTC⟩ ∧
    buildInvoiceNumber sampleColumns ["1001", "3/5/24"]
        [("carrier_account_id", 0), ("created_at", 1)]
        (date ["1001", "3/5/24"] [("carrier_account_id", 0), ("created_at", 1)]
          "created_at").1 = "1001-2024-03-05" := by
  refine ⟨?_, by decide, by decide⟩
  obtain ⟨hv, h0, h1⟩ := date_valid record idx header
  unfold buildInvoiceNumber
  rw [Time.Format_of_year_range _ h0 h1 hv]

/-- C4 fails on the code: a thirty-character carrier account with the creation date
`3/5/24` gives a bill whose invoice ID has 41 characters; in general the invoice ID built
from a date that `date` returned has eleven characters more than the carrier-account
cell. -/
theorem getBills_invoice_id_of_41_characters (tz : LocalZone) :
    ((GetBills tz sampleColumns sampleHeaders longAccountRows).2 = none ∧
      (GetBills tz sampleColumns sampleHeaders longAccountRows).1.map
          (fun b => (b.InvoiceID, b.InvoiceID.length))
        = [("AAAAAAAAAAAAAAAAAAAAAAAAAAAAAA-2024-03-05", 41)]) ∧
    (∀ (cols : Columns) (row : List String) (hidx : HeaderIndex) (col : String),
      (buildInvoiceNumber cols row hidx (date row hidx col).1).length
        = (Val row hidx cols.CarrierAccountID).length + 11) := by
  refine ⟨?_, ?_⟩
  · rw [GetBills.eq_of_all_utc tz utcZone sampleColumns sampleHeaders longAccountRows
      (by decide)]
    decide
  intro cols row hidx col
  obtain ⟨hv, h0, h1⟩ := date_valid row hidx col
  unfold buildInvoiceNumber
  rw [Time.Format_of_year_range _ h0 h1 hv]
  simp only [String.length_append, String.length_mk, List.length_cons, List.length_nil]
  have : "-".length = 1 := by decide
  omega

/-- C5: the date helper returns without error the zero date for an empty cell; the
timestamp a cell denotes when the cell is an RFC 3339 text
`yyyy-mm-ddThh:mm:ss[.fraction](Z|+hh:mm|-hh:mm)` of a real calendar day and clock time
(its civil fields, its fraction in nanoseconds, and UTC for `Z` or else the written offset
in seconds); and the calendar date a cell denotes, at midnight UTC, when the cell is an
`M/D/YY` text (month and day with or without a leading zero, `yy` meaning `19yy` from 69
on and `20yy` below). More generally it returns whatever the RFC 3339 layout reads, and
otherwise whatever the `1/2/06` layout reads. `2024-03-05T00:00:00Z` and `3/5/24` both
give 5 March 2024 (midnight, UTC), the empty cell gives the zero date, an offset and a
fraction are kept (`+05:30` is 19800 seconds east, `.25` is 250000000 nanoseconds), and a
timestamp followed by more text, a compact date with a four-digit year and a day that is
not in the calendar (29 February 2100, 30 February) are not read as dates. -/
theorem date_returns_parsed_value (record : List String) (idx : HeaderIndex)
    (header : String) :
    (Val record idx header = "" → date record idx header = (Time.zero, none)) ∧
    (∀ (y mo d h mi s : Nat) (fs : List Nat) (z : ZoneText),
      y ≤ 9999 → 1 ≤ mo → mo ≤ 12 → 1 ≤ d → d ≤ daysIn mo (y : Int) →
      h < 24 → mi < 60 → s < 60 → (∀ k ∈ fs, k < 10) → fs.length ≤ 9 → z.WellFormed = true →
      Val record idx header = rfc3339Text y mo d h mi s fs z →
      date record idx header
        = (⟨(y : Int), mo, d, h, mi, s, fractionNanos fs, z.loc⟩, none)) ∧
    (∀ (mo d yy : Nat) (padMonth padDay : Bool),
      1 ≤ mo → mo ≤ 12 → yy ≤ 99 → 1 ≤ d → d ≤ daysIn mo (centuryYear yy) →
      Val record idx header = compactText mo d yy padMonth padDay →
      date record idx header
        = (⟨centuryYear yy, mo, d, 0, 0, 0, 0, Location.UTC⟩, none)) ∧
    (∀ d, Parse_RFC3339 (Val record idx header) = some d →
      date record idx header = (d, none)) ∧
    (∀ d, Parse_RFC3339 (Val record idx header) = none →
      Parse_1_2_06 (Val record idx header) = some d →
      date record idx header = (d, none)) ∧
    date ["2024-03-05T00:00:00Z"] [("created_at", 0)] "created_at"
      = (⟨2024, 3, 5, 0, 0, 0, 0, Location.UTC⟩, none) ∧
    date ["3/5/24"] [("created_at", 0)] "created_at"
      = (⟨2024, 3, 5, 0, 0, 0, 0, Location.UTC⟩, none) ∧
    date [""] [("created_at", 0)] "created_at" = (Time.zero, none) ∧
    date ["2024-03-05T10:00:00+05:30"] [("created_at", 0)] "created_at"
      = (⟨2024, 3, 5, 10, 0, 0, 0, Location.Fixed 19800⟩, none) ∧
    date ["2024-03-05T10:00:00.25-08:00"] [("created_at", 0)] "created_at"
      = (⟨2024, 3, 5, 10, 0, 0, 250000000, Location.Fixed (-28800)⟩, none) ∧
    date ["2024-03-05T00:00:00Z and more"] [("created_at", 0)] "created_at"
      = (Time.zero, some (Error.invalidDate "created_at" "2024-03-05T00:00:00Z and more")) ∧
    date ["3/5/2024"] [("created_at", 0)] "created_at"
      = (Time.zero, some (Error.invalidDate "created_at" "3/5/2024")) ∧
    date ["2100-02-29T00:00:00Z"] [("created_at", 0)] "created_at"
      = (Time.zero, some (Error.invalidDate "created_at" "2100-02-29T00:00:00Z")) ∧
    date ["2/30/24"] [("created_at", 0)] "created_at"
      = (Time.zero, some (Error.invalidDate "created_at" "2/30/24")) := by
  refine ⟨date_of_empty record idx header, ?_, ?_,
    fun d => date_of_rfc3339 record idx header d,
    fun d => date_of_compact record idx header d,
    by decide, by decide, by decide, by decide, by decide, by decide, by decide, by decide,
    by decide⟩
  · intro y mo d h mi s fs z hy hmo1 hmo hd1 hd hh hmi hs hk hlen hz hv
    apply date_of_rfc3339
    rw [hv]
    exact parseRFC3339_text y mo d h mi s fs z hy hmo1 hmo hd1 hd hh hmi hs hk hlen hz
  · intro mo d yy padMonth padDay hmo1 hmo hyy hd1 hd hv
    have hc := parseMDYY_text mo d yy padMonth padDay hmo1 hmo hyy hd1 hd
    apply date_of_compact
    · rw [hv]
      rcases parse_layouts_disjoint (compactText mo d yy padMonth padDay) with h | h
      · exact h
      · rw [hc] at h
        exact absurd h (by simp)
    · rw [hv]
      exact hc

/-- Witness of C5: the cell `2024-02-29T23:59:59.5+05:30` is the RFC 3339 text of
29 February 2024, 23:59:59 and a half, 19800 seconds east of UTC, and is read as that. -/
theorem date_returns_parsed_value_witness :
    date ["2024-02-29T23:59:59.5+05:30"] [("created_at", 0)] "created_at"
      = (⟨2024, 2, 29, 23, 59, 59, 500000000, Location.Fixed 19800⟩, none) :=
  (date_returns_parsed_value ["2024-02-29T23:59:59.5+05:30"] [("created_at", 0)]
    "created_at").2.1 2024 2 29 23 59 59 [5] (ZoneText.offset true 5 30)
    (by decide) (by decide) (by decide) (by decide) (by decide) (by decide) (by decide)
    (by decide) (by decide) (by decide) (by decide) (by decide)

/-- C6: the date helper fails exactly when the column's cell is non-empty and parses in
neither layout, as `not-a-date` does; the error it then returns carries the column name
and the cell. -/
theorem date_fails_iff_unparseable (record : List String) (idx : HeaderIndex)
    (header : String) :
    ((date record idx header).2 ≠ none ↔
      (Val record idx header ≠ "" ∧ Parse_RFC3339 (Val record idx header) = none ∧
        Parse_1_2_06 (Val record idx header) = none)) ∧
    (∀ e, (date record idx header).2 = some e →
      e = Error.invalidDate header (Val record idx header)) ∧
    date ["not-a-date"] [("created_at", 0)] "created_at"
      = (Time.zero, some (Error.invalidDate "created_at" "not-a-date")) := by
  refine ⟨date_error_iff record idx header, ?_, by decide⟩
  intro e he
  have hne : (date record idx header).2 ≠ none := by rw [he]; simp
  obtain ⟨h0, h1, h2⟩ := (date_error_iff record idx header).1 hne
  rw [date_of_unparseable record idx header h0 h1 h2] at he
  simpa using he.symm

/-- Witness of C6: the cell `2024-02-30T00:00:00Z` (no such day) fails, and the error
names the column and the cell. -/
theorem date_fails_iff_unparseable_witness :
    (date ["2024-02-30T00:00:00Z"] [("created_at", 0)] "created_at").2
      = some (Error.invalidDate "created_at" "2024-02-30T00:00:00Z") ∧
    Error.invalidDate "created_at" "2024-02-30T00:00:00Z"
      = Error.invalidDate "created_at"
          (Val ["2024-02-30T00:00:00Z"] [("created_at", 0)] "created_at") :=
  ⟨by decide,
    (date_fails_iff_unparseable ["2024-02-30T00:00:00Z"] [("created_at", 0)]
      "created_at").2.1 _ (by decide)⟩

/-- C7: `GetBills` fails exactly when some row has a creation-date cell that is non-empty
and parses in neither layout, whatever the other cells hold; when it fails it returns
no bills. -/
theorem getBills_fails_iff_bad_creation_date (tz : LocalZone) (cols : Columns) (headers : List String)
    (rows : List (List String)) :
    ((GetBills tz cols headers rows).2 ≠ none ↔
      ∃ row ∈ rows, Val row (BuildHeaderIndex headers) cols.CreatedAt ≠ "" ∧
        Parse_RFC3339 (Val row (BuildHeaderIndex headers) cols.CreatedAt) = none ∧
        Parse_1_2_06 (Val row (BuildHeaderIndex headers) cols.CreatedAt) = none) ∧
    ((GetBills tz cols headers rows).2 ≠ none → (GetBills tz cols headers rows).1 = []) := by
  have key : (GetBills tz cols headers rows).2 ≠ none ↔
      ∃ row ∈ rows, (date row (BuildHeaderIndex headers) cols.CreatedAt).2 ≠ none := by
    constructor
    · intro hne
      by_contra hall
      push_neg at hall
      have := GetBills.loop_of_all_ok tz cols (BuildHeaderIndex headers) rows NewOrderedSet hall
      apply hne
      unfold GetBills
      rw [this]
    · intro hex
      obtain ⟨e, he⟩ := GetBills.loop_of_fail tz cols (BuildHeaderIndex headers) rows
        NewOrderedSet hex
      unfold GetBills
      rw [he]
      simp
  refine ⟨?_, ?_⟩
  · rw [key]
    constructor
    · rintro ⟨row, hr, hne⟩
      exact ⟨row, hr, (date_error_iff _ _ _).1 hne⟩
    · rintro ⟨row, hr, hbad⟩
      exact ⟨row, hr, (date_error_iff _ _ _).2 hbad⟩
  · intro hne
    obtain ⟨e, he⟩ := GetBills.loop_of_fail tz cols (BuildHeaderIndex headers) rows
      NewOrderedSet (key.1 hne)
    unfold GetBills
    rw [he]

/-- Witness of C7: a good row followed by a row whose creation date is `not-a-date`
makes `GetBills` fail with no bills, not even the bill of the first row. -/
theorem getBills_fails_iff_bad_creation_date_witness :
    (GetBills utcZone sampleColumns sampleHeaders
        [["1001", "3/5/24", "90210"], ["1001", "not-a-date", "90210"]]).2 ≠ none ∧
    (GetBills utcZone sampleColumns sampleHeaders
        [["1001", "3/5/24", "90210"], ["1001", "not-a-date", "90210"]]).1 = [] :=
  ⟨by decide,
    (getBills_fails_iff_bad_creation_date utcZone sampleColumns sampleHeaders
      [["1001", "3/5/24", "90210"], ["1001", "not-a-date", "90210"]]).2 (by decide)⟩

/-- C8: `BuildStagingPlan` fails exactly when some row has a non-empty cell that does not
parse in one of the nine float columns, in the USPS zone column or in one of the two date
columns; when it fails the plan it returns has no batch and no stored-procedure call. -/
theorem buildStagingPlan_fails_iff_bad_cell {F : Type} (fp : FloatParser F) (cols : Columns)
    (headers : List String) (rows : List (List String)) :
    ((BuildStagingPlan fp cols headers rows).2 ≠ none ↔
      ∃ row ∈ rows, RowRejected fp cols row (BuildHeaderIndex headers)) ∧
    ((BuildStagingPlan fp cols headers rows).2 ≠ none →
      (BuildStagingPlan fp cols headers rows).1.Batches = [] ∧
      (BuildStagingPlan fp cols headers rows).1.Sprocs = []) := by
  have key : (BuildStagingPlan fp cols headers rows).2 ≠ none ↔
      ∃ row ∈ rows, RowRejected fp cols row (BuildHeaderIndex headers) := by
    constructor
    · intro hne
      by_contra hall
      push_neg at hall
      have := BuildStagingPlan.loop_of_all_accepted fp cols (BuildHeaderIndex headers)
        rows [] hall
      apply hne
      unfold BuildStagingPlan
      rw [this]
    · intro hex
      obtain ⟨e, he⟩ := BuildStagingPlan.loop_of_rejected fp cols (BuildHeaderIndex headers)
        rows [] hex
      unfold BuildStagingPlan
      rw [he]
      simp
  refine ⟨key, ?_⟩
  intro hne
  obtain ⟨e, he⟩ := BuildStagingPlan.loop_of_rejected fp cols (BuildHeaderIndex headers)
    rows [] (key.1 hne)
  unfold BuildStagingPlan
  rw [he]
  exact ⟨rfl, rfl⟩

/-- Witness of C8: a row that parses followed by a row with the rate `abc` makes
`BuildStagingPlan` fail with an empty plan. -/
theorem buildStagingPlan_fails_iff_bad_cell_witness :
    (BuildStagingPlan sampleFloats sampleColumns stagingHeaders
        [["9400", "1001", "3/5/24", "90210", "12.5", "4"],
         ["9401", "1001", "3/5/24", "90210", "abc", "4"]]).2 ≠ none ∧
    (BuildStagingPlan sampleFloats sampleColumns stagingHeaders
        [["9400", "1001", "3/5/24", "90210", "12.5", "4"],
         ["9401", "1001", "3/5/24", "90210", "abc", "4"]]).1.Batches = [] :=
  ⟨by decide,
    ((buildStagingPlan_fails_iff_bad_cell sampleFloats sampleColumns stagingHeaders
      [["9400", "1001", "3/5/24", "90210", "12.5", "4"],
       ["9401", "1001", "3/5/24", "90210", "abc", "4"]]).2 (by decide)).1⟩

/-- C9: for a reading of float literals that obeys `strconv.ParseFloat` on decimal
literals (values are the rationals that `float64` values denote), when
`extractBillRecords` succeeds on a row it appends one staging row, which holds for each
of the ten numeric columns, at that column's position, zero when the cell is empty and
the number the cell denotes when the cell is a decimal literal of a `float64` value (for
the zone: the decimal text of a 64-bit integer); a non-empty rate cell that is not a
number makes it fail. A row with the rate cell `12.5` and the zone cell `4` is staged
with the rate 25/2 and the zone 4, its absent numeric columns with 0; empty rate and zone
cells are staged as 0; the rate cell `abc` and the zone cell `abc` are rejected. -/
theorem extractBillRecords_tolerant_numbers (fp : FloatParser ℚ) (hfp : fp.ReadsDecimals)
    (cols : Columns) (rec : List String) (hidx : HeaderIndex)
    (records : List (List (AnyVal ℚ))) :
    ((extractBillRecords fp cols rec hidx records).2 = none →
      ∃ r, (extractBillRecords fp cols rec hidx records).1 = records ++ [r] ∧
        HoldsFloat fp r 1 (Val rec hidx cols.Weight) ∧
        HoldsFloat fp r 2 (Val rec hidx cols.Rate) ∧
        HoldsFloat fp r 3 (Val rec hidx cols.LabelFee) ∧
        HoldsFloat fp r 4 (Val rec hidx cols.PostageFee) ∧
        HoldsInt r 5 (Val rec hidx cols.USPSZone) ∧
        HoldsFloat fp r 7 (Val rec hidx cols.Length) ∧
        HoldsFloat fp r 8 (Val rec hidx cols.Width) ∧
        HoldsFloat fp r 9 (Val rec hidx cols.Height) ∧
        HoldsFloat fp r 11 (Val rec hidx cols.InsuranceFee) ∧
        HoldsFloat fp r 12 (Val rec hidx cols.CarbonOffsetFee)) ∧
    (Val rec hidx cols.Rate ≠ "" → fp.literal (Val rec hidx cols.Rate) = none →
      (extractBillRecords fp cols rec hidx records).2 ≠ none) ∧
    extractBillRecords fp sampleColumns ["9400", "1001", "3/5/24", "90210", "12.5", "4"]
        (BuildHeaderIndex stagingHeaders) records
      = (records ++ [[AnyVal.str "9400", AnyVal.float 0, AnyVal.float (25 / 2),
          AnyVal.float 0, AnyVal.float 0, AnyVal.int 4, AnyVal.str "90210", AnyVal.float 0,
          AnyVal.float 0, AnyVal.float 0, AnyVal.time Time.zero, AnyVal.float 0,
          AnyVal.float 0, AnyVal.time ⟨2024, 3, 5, 0, 0, 0, 0, Location.UTC⟩,
          AnyVal.str "1001-2024-03-05", AnyVal.str ""]], none) ∧
    extractBillRecords fp sampleColumns ["9400", "1001", "3/5/24", "90210", "", ""]
        (BuildHeaderIndex stagingHeaders) records
      = (records ++ [[AnyVal.str "9400", AnyVal.float 0, AnyVal.float 0,
          AnyVal.float 0, AnyVal.float 0, AnyVal.int 0, AnyVal.str "90210", AnyVal.float 0,
          AnyVal.float 0, AnyVal.float 0, AnyVal.time Time.zero, AnyVal.float 0,
          AnyVal.float 0, AnyVal.time ⟨2024, 3, 5, 0, 0, 0, 0, Location.UTC⟩,
          AnyVal.str "1001-2024-03-05", AnyVal.str ""]], none) ∧
    extractBillRecords fp sampleColumns ["9400", "1001", "3/5/24", "90210", "-0.25", "-12"]
        (BuildHeaderIndex stagingHeaders) records
      = (records ++ [[AnyVal.str "9400", AnyVal.float 0, AnyVal.float (-1 / 4),
          AnyVal.float 0, AnyVal.float 0, AnyVal.int (-12), AnyVal.str "90210",
          AnyVal.float 0, AnyVal.float 0, AnyVal.float 0, AnyVal.time Time.zero,
          AnyVal.float 0, AnyVal.float 0, AnyVal.time ⟨2024, 3, 5, 0, 0, 0, 0, Location.UTC⟩,
          AnyVal.str "1001-2024-03-05", AnyVal.str ""]], none) ∧
    extractBillRecords fp sampleColumns ["9400", "1001", "3/5/24", "90210", "abc", "4"]
        (BuildHeaderIndex stagingHeaders) records
      = ([], some (Error.wrap "parse rate"
          (Error.numError "ParseFloat" "abc" "invalid syntax"))) ∧
    extractBillRecords fp sampleColumns ["9400", "1001", "3/5/24", "90210", "12.5", "abc"]
        (BuildHeaderIndex stagingHeaders) records
      = ([], some (Error.wrap "parse uspsZone"
          (Error.numError "Atoi" "abc" "invalid syntax"))) := by
  obtain ⟨hx1, hx2, hx3⟩ := ParseFloat_examples fp hfp
  refine ⟨?_, ?_, ?_, ?_, ?_, ?_, ?_⟩
  · intro h
    have hacc : ¬ RowRejected fp cols rec hidx := fun hr =>
      extractBillRecords_error_of_rejected fp cols rec hidx records hr h
    rw [extractBillRecords_of_accepted fp cols rec hidx records hacc]
    exact ⟨stagingRow fp cols rec hidx, rfl,
      ⟨_, rfl, Float_tolerant fp hfp rec hidx _⟩, ⟨_, rfl, Float_tolerant fp hfp rec hidx _⟩,
      ⟨_, rfl, Float_tolerant fp hfp rec hidx _⟩, ⟨_, rfl, Float_tolerant fp hfp rec hidx _⟩,
      ⟨_, rfl, Atoi_tolerant _⟩,
      ⟨_, rfl, Float_tolerant fp hfp rec hidx _⟩, ⟨_, rfl, Float_tolerant fp hfp rec hidx _⟩,
      ⟨_, rfl, Float_tolerant fp hfp rec hidx _⟩, ⟨_, rfl, Float_tolerant fp hfp rec hidx _⟩,
      ⟨_, rfl, Float_tolerant fp hfp rec hidx _⟩⟩
  · intro h0 h1
    apply extractBillRecords_error_of_rejected
    exact Or.inl ⟨cols.Rate, List.mem_cons_self _ _, h0, h1⟩
  · rw [extractBillRecords_of_three_cells fp hfp _ _ _ _ (by decide)]
    have hr : Val ["9400", "1001", "3/5/24", "90210", "12.5", "4"]
        (BuildHeaderIndex stagingHeaders) sampleColumns.Rate = "12.5" := by decide
    have hv : Val ["9400", "1001", "3/5/24", "90210", "12.5", "4"]
        (BuildHeaderIndex stagingHeaders) sampleColumns.USPSZone = "4" := by decide
    have hz : Atoi "4" = (4, none) := by decide
    have hd : date ["9400", "1001", "3/5/24", "90210", "12.5", "4"]
        (BuildHeaderIndex stagingHeaders) sampleColumns.CreatedAt
          = (⟨2024, 3, 5, 0, 0, 0, 0, Location.UTC⟩, none) := by decide
    have hi : buildInvoiceNumber sampleColumns ["9400", "1001", "3/5/24", "90210", "12.5", "4"]
        (BuildHeaderIndex stagingHeaders) ⟨2024, 3, 5, 0, 0, 0, 0, Location.UTC⟩
          = "1001-2024-03-05" := by decide
    have ht : Val ["9400", "1001", "3/5/24", "90210", "12.5", "4"]
        (BuildHeaderIndex stagingHeaders) sampleColumns.TrackingCode = "9400" := by decide
    have hf : Val ["9400", "1001", "3/5/24", "90210", "12.5", "4"]
        (BuildHeaderIndex stagingHeaders) sampleColumns.FromZip = "90210" := by decide
    have hs : Val ["9400", "1001", "3/5/24", "90210", "12.5", "4"]
        (BuildHeaderIndex stagingHeaders) sampleColumns.Service = "" := by decide
    simp only [Float, hr, hv, hx1, hz, hd, hi, ht, hf, hs, parseFailure_of_none,
      parseFailure_of_empty]
  · rw [extractBillRecords_of_three_cells fp hfp _ _ _ _ (by decide)]
    have hr : Val ["9400", "1001", "3/5/24", "90210", "", ""]
        (BuildHeaderIndex stagingHeaders) sampleColumns.Rate = "" := by decide
    have hv : Val ["9400", "1001", "3/5/24", "90210", "", ""]
        (BuildHeaderIndex stagingHeaders) sampleColumns.USPSZone = "" := by decide
    have hz := Atoi_of_empty
    have hd : date ["9400", "1001", "3/5/24", "90210", "", ""]
        (BuildHeaderIndex stagingHeaders) sampleColumns.CreatedAt
          = (⟨2024, 3, 5, 0, 0, 0, 0, Location.UTC⟩, none) := by decide
    have hi : buildInvoiceNumber sampleColumns ["9400", "1001", "3/5/24", "90210", "", ""]
        (BuildHeaderIndex stagingHeaders) ⟨2024, 3, 5, 0, 0, 0, 0, Location.UTC⟩
          = "1001-2024-03-05" := by decide
    have ht : Val ["9400", "1001", "3/5/24", "90210", "", ""]
        (BuildHeaderIndex stagingHeaders) sampleColumns.TrackingCode = "9400" := by decide
    have hf : Val ["9400", "1001", "3/5/24", "90210", "", ""]
        (BuildHeaderIndex stagingHeaders) sampleColumns.FromZip = "90210" := by decide
    have hs : Val ["9400", "1001", "3/5/24", "90210", "", ""]
        (BuildHeaderIndex stagingHeaders) sampleColumns.Service = "" := by decide
    simp only [Float, hr, hv, ParseFloat_of_empty fp hfp, hz, hd, hi, ht, hf, hs, parseFailure_of_none,
      parseFailure_of_empty]
  · rw [extractBillRecords_of_three_cells fp hfp _ _ _ _ (by decide)]
    have hr : Val ["9400", "1001", "3/5/24", "90210", "-0.25", "-12"]
        (BuildHeaderIndex stagingHeaders) sampleColumns.Rate = "-0.25" := by decide
    have hv : Val ["9400", "1001", "3/5/24", "90210", "-0.25", "-12"]
        (BuildHeaderIndex stagingHeaders) sampleColumns.USPSZone = "-12" := by decide
    have hz : Atoi "-12" = (-12, none) := by decide
    have hd : date ["9400", "1001", "3/5/24", "90210", "-0.25", "-12"]
        (BuildHeaderIndex stagingHeaders) sampleColumns.CreatedAt
          = (⟨2024, 3, 5, 0, 0, 0, 0, Location.UTC⟩, none) := by decide
    have hi : buildInvoiceNumber sampleColumns ["9400", "1001", "3/5/24", "90210", "-0.25", "-12"]
        (BuildHeaderIndex stagingHeaders) ⟨2024, 3, 5, 0, 0, 0, 0, Location.UTC⟩
          = "1001-2024-03-05" := by decide
    have ht : Val ["9400", "1001", "3/5/24", "90210", "-0.25", "-12"]
        (BuildHeaderIndex stagingHeaders) sampleColumns.TrackingCode = "9400" := by decide
    have hf : Val ["9400", "1001", "3/5/24", "90210", "-0.25", "-12"]
        (BuildHeaderIndex stagingHeaders) sampleColumns.FromZip = "90210" := by decide
    have hs : Val ["9400", "1001", "3/5/24", "90210", "-0.25", "-12"]
        (BuildHeaderIndex stagingHeaders) sampleColumns.Service = "" := by decide
    simp only [Float, hr, hv, hx2, hz, hd, hi, ht, hf, hs, parseFailure_of_none,
      parseFailure_of_empty]
  · rw [extractBillRecords_of_three_cells fp hfp _ _ _ _ (by decide)]
    have hr : Val ["9400", "1001", "3/5/24", "90210", "abc", "4"]
        (BuildHeaderIndex stagingHeaders) sampleColumns.Rate = "abc" := by decide
    have hv : Val ["9400", "1001", "3/5/24", "90210", "abc", "4"]
        (BuildHeaderIndex stagingHeaders) sampleColumns.USPSZone = "4" := by decide
    have hne : ("abc" : String) ≠ "" := by decide
    simp only [Float, hr, hx3, parseFailure, ne_eq, hne, not_false_eq_true, if_true]
  · rw [extractBillRecords_of_three_cells fp hfp _ _ _ _ (by decide)]
    have hr : Val ["9400", "1001", "3/5/24", "90210", "12.5", "abc"]
        (BuildHeaderIndex stagingHeaders) sampleColumns.Rate = "12.5" := by decide
    have hv : Val ["9400", "1001", "3/5/24", "90210", "12.5", "abc"]
        (BuildHeaderIndex stagingHeaders) sampleColumns.USPSZone = "abc" := by decide
    have hz : Atoi "abc" = (0, some (Error.numError "Atoi" "abc" "invalid syntax")) := by
      decide
    have hne : ("abc" : String) ≠ "" := by decide
    simp only [Float, hr, hv, hx1, hz, parseFailure_of_none, parseFailure, ne_eq, hne,
      not_false_eq_true, if_true]

/-- Witness of C9: the reading `exactDecimals` obeys the law, and with it the row with the
rate cell `12.5` and the zone cell `4` is accepted, the staged rate and zone being the
tolerant readings of those cells. -/
theorem extractBillRecords_tolerant_numbers_witness :
    ∃ r, (extractBillRecords exactDecimals sampleColumns
          ["9400", "1001", "3/5/24", "90210", "12.5", "4"]
          (BuildHeaderIndex stagingHeaders) []).1 = [] ++ [r] ∧
        HoldsFloat exactDecimals r 2 (Val ["9400", "1001", "3/5/24", "90210", "12.5", "4"]
          (BuildHeaderIndex stagingHeaders) sampleColumns.Rate) ∧
        HoldsInt r 5 (Val ["9400", "1001", "3/5/24", "90210", "12.5", "4"]
          (BuildHeaderIndex stagingHeaders) sampleColumns.USPSZone) :=
  let ⟨r, h0, _, h2, _, _, h5, _⟩ :=
    (extractBillRecords_tolerant_numbers exactDecimals exactDecimals_readsDecimals
      sampleColumns ["9400", "1001", "3/5/24", "90210", "12.5", "4"]
      (BuildHeaderIndex stagingHeaders) []).1
      (congrArg Prod.snd
        (extractBillRecords_tolerant_numbers exactDecimals exactDecimals_readsDecimals
          sampleColumns ["9400", "1001", "3/5/24", "90210", "12.5", "4"]
          (BuildHeaderIndex stagingHeaders) []).2.2.1)
  ⟨r, h0, h2, h5⟩

/-- C10: when all N rows parse, `BuildStagingPlan` returns a plan with exactly one batch,
named `usps_easypost_bill`, for table `elt_stage.usps_easy_post_bill`, with chunk size
5000 and N rows, and exactly one stored-procedure call, `elt_stage.usp_SyncUSPSEasyPost`,
whose `After` list is that batch's name and whose parameter function always returns the
empty list. -/
theorem buildStagingPlan_one_batch_one_call {F : Type} (fp : FloatParser F) (cols : Columns)
    (headers : List String) (rows : List (List String))
    (h : (BuildStagingPlan fp cols headers rows).2 = none) :
    ∃ batch sproc,
      (BuildStagingPlan fp cols headers rows).1.Batches = [batch] ∧
      batch.Name = "usps_easypost_bill" ∧
      batch.Table = "elt_stage.usps_easy_post_bill" ∧
      batch.Chunk = 5000 ∧
      batch.Rows.length = rows.length ∧
      (BuildStagingPlan fp cols headers rows).1.Sprocs = [sproc] ∧
      sproc.Name = "elt_stage.usp_SyncUSPSEasyPost" ∧
      sproc.After = [batch.Name] ∧
      ∀ b : BillUploadDetails, sproc.Params b = [] := by
  rw [BuildStagingPlan.plan_eq_of_ok fp cols headers rows h]
  exact ⟨_, _, rfl, rfl, rfl, rfl, by simp, rfl, rfl, rfl, fun _ => rfl⟩

/-- Witness of C10: the two sample rows parse and give one batch of two rows. -/
theorem buildStagingPlan_one_batch_one_call_witness :
    (BuildStagingPlan sampleFloats sampleColumns stagingHeaders stagingRows).2 = none ∧
    ∃ batch,
      (BuildStagingPlan sampleFloats sampleColumns stagingHeaders stagingRows).1.Batches
        = [batch] ∧ batch.Rows.length = 2 :=
  ⟨by decide,
    (let ⟨batch, _, h1, _, _, _, h5, _⟩ :=
      buildStagingPlan_one_batch_one_call sampleFloats sampleColumns stagingHeaders
        stagingRows (by decide)
    ⟨batch, h1, h5⟩)⟩

/-- C11: when all rows parse, the staging batch has one row per input row, in the same
order, each computed from that input row alone: the sixteen values tracking code, weight,
rate, label fee, postage fee, USPS zone, origin zip, length, width, height,
postage-label-created time, insurance fee, carbon-offset fee, bill date, invoice number
and service, with tracking code, origin zip and service the cells as read by `Val`. -/
theorem buildStagingPlan_rows_positional {F : Type} (fp : FloatParser F) (cols : Columns)
    (headers : List String) (rows : List (List String))
    (h : (BuildStagingPlan fp cols headers rows).2 = none) :
    ∃ batch,
      (BuildStagingPlan fp cols headers rows).1.Batches = [batch] ∧
      batch.Rows = rows.map (fun row =>
        [AnyVal.str (Val row (BuildHeaderIndex headers) cols.TrackingCode),
         AnyVal.float (Float fp row (BuildHeaderIndex headers) cols.Weight).1,
         AnyVal.float (Float fp row (BuildHeaderIndex headers) cols.Rate).1,
         AnyVal.float (Float fp row (BuildHeaderIndex headers) cols.LabelFee).1,
         AnyVal.float (Float fp row (BuildHeaderIndex headers) cols.PostageFee).1,
         AnyVal.int (Atoi (Val row (BuildHeaderIndex headers) cols.USPSZone)).1,
         AnyVal.str (Val row (BuildHeaderIndex headers) cols.FromZip),
         AnyVal.float (Float fp row (BuildHeaderIndex headers) cols.Length).1,
         AnyVal.float (Float fp row (BuildHeaderIndex headers) cols.Width).1,
         AnyVal.float (Float fp row (BuildHeaderIndex headers) cols.Height).1,
         AnyVal.time (date row (BuildHeaderIndex headers) cols.PostageLabelCreatedAt).1,
         AnyVal.float (Float fp row (BuildHeaderIndex headers) cols.InsuranceFee).1,
         AnyVal.float (Float fp row (BuildHeaderIndex headers) cols.CarbonOffsetFee).1,
         AnyVal.time (date row (BuildHeaderIndex headers) cols.CreatedAt).1,
         AnyVal.str (buildInvoiceNumber cols row (BuildHeaderIndex headers)
           (date row (BuildHeaderIndex headers) cols.CreatedAt).1),
         AnyVal.str (Val row (BuildHeaderIndex headers) cols.Service)]) ∧
      batch.Rows.length = rows.length ∧
      (∀ r ∈ batch.Rows, r.length = 16) ∧
      (∀ (row : List String) (col : String) (k : Nat), headers.Nodup →
        headers[k]? = some col → Val row (BuildHeaderIndex headers) col = row.getD k "") := by
  rw [BuildStagingPlan.plan_eq_of_ok fp cols headers rows h]
  refine ⟨_, rfl, rfl, by simp [buildStagingPlan], ?_, ?_⟩
  · intro r hr
    simp only [buildStagingPlan, List.mem_map] at hr
    obtain ⟨row, _, rfl⟩ := hr
    rfl
  · intro row col k hnd hk
    exact Val_BuildHeaderIndex headers row col k hnd hk

/-- Witness of C11: the two sample rows give a batch of two rows of sixteen values. -/
theorem buildStagingPlan_rows_positional_witness :
    (BuildStagingPlan sampleFloats sampleColumns stagingHeaders stagingRows).2 = none ∧
    ∃ batch,
      (BuildStagingPlan sampleFloats sampleColumns stagingHeaders stagingRows).1.Batches
        = [batch] ∧
      batch.Rows.length = stagingRows.length ∧ ∀ r ∈ batch.Rows, r.length = 16 :=
  ⟨by decide,
    (let ⟨batch, h1, _, h3, h4, _⟩ :=
      buildStagingPlan_rows_positional sampleFloats sampleColumns stagingHeaders
        stagingRows (by decide)
    ⟨batch, h1, h3, h4⟩)⟩

/-- C12: `Validate` returns, in bill order, exactly one error for each bill whose account
number is non-empty and differs from the expected one, and none for the other bills; it
goes through all the bills. A bill with account `A1` against the expected `A2` gives one
error and a bill with an empty account gives none. -/
theorem validate_collects_every_mismatch (billDetails : List BillDetails)
    (billUploadDetails : BillUploadDetails) :
    Validate billDetails billUploadDetails
      = (billDetails.filter (fun b =>
            decide (b.AccountNo ≠ "" ∧ b.AccountNo ≠ billUploadDetails.AccountNumber))).map
          (fun b => Error.accountMismatch b.AccountNo billUploadDetails.AccountNumber) ∧
    (Validate billDetails billUploadDetails).length
      = billDetails.countP (fun b =>
          decide (b.AccountNo ≠ "" ∧ b.AccountNo ≠ billUploadDetails.AccountNumber)) ∧
    Validate [billWithAccount "A1"] ⟨"A2"⟩ = [Error.accountMismatch "A1" "A2"] ∧
    Validate [billWithAccount ""] billUploadDetails = [] ∧
    Validate [billWithAccount "A1", billWithAccount "A2", billWithAccount "", billWithAccount "A3"]
        ⟨"A2"⟩
      = [Error.accountMismatch "A1" "A2", Error.accountMismatch "A3" "A2"] := by
  have key := Validate.loop_eq billUploadDetails billDetails []
  refine ⟨by simpa [Validate] using key, ?_, by decide, ?_, by decide⟩
  · unfold Validate
    rw [key, List.nil_append, List.length_map, List.countP_eq_length_filter]
  · simp [Validate, Validate.loop, billWithAccount]

/-- C13: a column that the header row lacks is read as an empty cell: `Val` gives the
empty string, `date` the zero date without error, a float column zero and an integer
column zero, and none of the error checks of `extractBillRecords` fires for it. Hence
`GetBills` fails exactly when the creation-date column is present and some row has a
non-empty cell there that parses in neither layout, so never when that column is absent;
its bills then have the zero date (and the invoice ID of that date), the empty zip when
the from-zip column is absent and the empty account when the account column is absent.
`BuildStagingPlan` fails exactly when some row has, in a parsed column that is present, a
non-empty cell that does not parse, so never when no parsed column is present; when it
succeeds, every staged row holds at the position of each absent column the value of an
empty cell: the empty string for a text column, zero for a numeric column, the zero date
for the postage-label date and the bill date. -/
theorem absent_column_is_an_empty_cell (tz : LocalZone) {F : Type} (fp : FloatParser F)
    (cols : Columns) (headers : List String) (rows : List (List String)) :
    (∀ col, col ∉ headers → ∀ (row : List String) (msg : String),
      Val row (BuildHeaderIndex headers) col = "" ∧
      date row (BuildHeaderIndex headers) col = (Time.zero, none) ∧
      (Float fp row (BuildHeaderIndex headers) col).1 = fp.zero ∧
      parseFailure msg (Float fp row (BuildHeaderIndex headers) col).2
        (Val row (BuildHeaderIndex headers) col) = none ∧
      (Atoi (Val row (BuildHeaderIndex headers) col)).1 = 0 ∧
      parseFailure msg (Atoi (Val row (BuildHeaderIndex headers) col)).2
        (Val row (BuildHeaderIndex headers) col) = none) ∧
    ((GetBills tz cols headers rows).2 ≠ none ↔
      cols.CreatedAt ∈ headers ∧
      ∃ row ∈ rows, Val row (BuildHeaderIndex headers) cols.CreatedAt ≠ "" ∧
        Parse_RFC3339 (Val row (BuildHeaderIndex headers) cols.CreatedAt) = none ∧
        Parse_1_2_06 (Val row (BuildHeaderIndex headers) cols.CreatedAt) = none) ∧
    (cols.CreatedAt ∉ headers → (GetBills tz cols headers rows).2 = none) ∧
    ((GetBills tz cols headers rows).2 = none → ∀ b ∈ (GetBills tz cols headers rows).1,
      (cols.CreatedAt ∉ headers →
        b.InvoiceDate = Time.zero ∧ b.InvoiceID = b.AccountNo ++ "-0001-01-01") ∧
      (cols.FromZip ∉ headers → b.WarehouseZip = "") ∧
      (cols.CarrierAccountID ∉ headers → b.AccountNo = "")) ∧
    ((BuildStagingPlan fp cols headers rows).2 ≠ none ↔
      ∃ row ∈ rows, RowRejectedPresent fp cols headers row) ∧
    ((∀ c ∈ parsedColumns cols, c ∉ headers) →
      (BuildStagingPlan fp cols headers rows).2 = none) ∧
    ((BuildStagingPlan fp cols headers rows).2 = none →
      ∃ batch,
        (BuildStagingPlan fp cols headers rows).1.Batches = [batch] ∧
        batch.Rows = rows.map (fun row => stagingRow fp cols row (BuildHeaderIndex headers)) ∧
        ∀ row : List String,
          (∀ t ∈ emptyValues fp cols, t.1 ∉ headers →
            (stagingRow fp cols row (BuildHeaderIndex headers))[t.2.1]? = some t.2.2) ∧
          (cols.CreatedAt ∉ headers →
            (stagingRow fp cols row (BuildHeaderIndex headers))[14]?
              = some (AnyVal.str (Val row (BuildHeaderIndex headers) cols.CarrierAccountID
                  ++ "-0001-01-01")))) := by
  have hget : (GetBills tz cols headers rows).2 ≠ none ↔
      cols.CreatedAt ∈ headers ∧
      ∃ row ∈ rows, Val row (BuildHeaderIndex headers) cols.CreatedAt ≠ "" ∧
        Parse_RFC3339 (Val row (BuildHeaderIndex headers) cols.CreatedAt) = none ∧
        Parse_1_2_06 (Val row (BuildHeaderIndex headers) cols.CreatedAt) = none := by
    rw [GetBills.error_iff]
    constructor
    · rintro ⟨row, hr, hne⟩
      have hbad := (date_error_iff _ _ _).1 hne
      exact ⟨mem_of_Val_ne_empty headers row _ hbad.1, row, hr, hbad⟩
    · rintro ⟨_, row, hr, hbad⟩
      exact ⟨row, hr, (date_error_iff _ _ _).2 hbad⟩
  have hplan : (BuildStagingPlan fp cols headers rows).2 ≠ none ↔
      ∃ row ∈ rows, RowRejectedPresent fp cols headers row := by
    rw [Ne, BuildStagingPlan.ok_iff]
    push_neg
    constructor
    · rintro ⟨row, hr, hrej⟩
      exact ⟨row, hr, (RowRejected_iff_present fp cols headers row).1 hrej⟩
    · rintro ⟨row, hr, hrej⟩
      exact ⟨row, hr, (RowRejected_iff_present fp cols headers row).2 hrej⟩
  refine ⟨?_, hget, ?_, ?_, hplan, ?_, ?_⟩
  · intro col hcol row msg
    have hv := Val_of_not_mem headers row col hcol
    refine ⟨hv, date_of_empty _ _ _ hv, ?_, ?_, ?_, ?_⟩
    · rw [Float_of_empty_cell fp row _ col hv]
    · rw [parseFailure_eq_none_iff]
      exact Or.inr hv
    · rw [hv, Atoi_of_empty]
    · rw [parseFailure_eq_none_iff]
      exact Or.inr hv
  · intro habs
    by_contra hne
    exact habs (hget.1 hne).1
  · intro hok b hb
    rw [GetBills.mem_iff_of_ok tz cols headers rows hok b, List.mem_map] at hb
    obtain ⟨row, _, rfl⟩ := hb
    refine ⟨?_, ?_, ?_⟩
    · intro habs
      rw [rowBill_of_empty_date cols _ row (Val_of_not_mem headers row _ habs)]
      exact ⟨rfl, rfl⟩
    · intro habs
      exact Val_of_not_mem headers row _ habs
    · intro habs
      exact Val_of_not_mem headers row _ habs
  · intro habs
    by_contra hne
    obtain ⟨row, _, hrej⟩ := hplan.1 hne
    obtain ⟨c, hc, hh⟩ := RowRejectedPresent.exists_parsed_column fp cols headers row hrej
    exact habs c hc hh
  · intro hok
    rw [BuildStagingPlan.plan_eq_of_ok fp cols headers rows hok]
    exact ⟨_, rfl, rfl, fun row =>
      ⟨stagingRow_of_absent fp cols headers row,
        stagingRow_invoice_of_absent_date fp cols headers row⟩⟩

/-- Witness of C13: with the weight column only and one row with the weight `5`, both
functions succeed; the bill has the zero date and the empty zip, and the staged row has
the rate zero and the zero postage-label date. -/
theorem absent_column_is_an_empty_cell_witness :
    (GetBills utcZone sampleColumns ["weight"] [["5"]]).2 = none ∧
    (∀ b ∈ (GetBills utcZone sampleColumns ["weight"] [["5"]]).1,
      b.InvoiceDate = Time.zero ∧ b.WarehouseZip = "") ∧
    (BuildStagingPlan sampleFloats sampleColumns ["weight"] [["5"]]).2 = none ∧
    (stagingRow sampleFloats sampleColumns ["5"] (BuildHeaderIndex ["weight"]))[2]?
      = some (AnyVal.float sampleFloats.zero) ∧
    (stagingRow sampleFloats sampleColumns ["5"] (BuildHeaderIndex ["weight"]))[10]?
      = some (AnyVal.time Time.zero) :=
  ⟨(absent_column_is_an_empty_cell utcZone sampleFloats sampleColumns ["weight"]
      [["5"]]).2.2.1 (by decide),
    fun b hb =>
      ⟨(((absent_column_is_an_empty_cell utcZone sampleFloats sampleColumns ["weight"]
          [["5"]]).2.2.2.1 (by decide) b hb).1 (by decide)).1,
        ((absent_column_is_an_empty_cell utcZone sampleFloats sampleColumns ["weight"]
          [["5"]]).2.2.2.1 (by decide) b hb).2.1 (by decide)⟩,
    by decide,
    (let ⟨_, _, _, h⟩ :=
      (absent_column_is_an_empty_cell utcZone sampleFloats sampleColumns ["weight"]
        [["5"]]).2.2.2.2.2.2 (by decide)
    ((h ["5"]).1 (sampleColumns.Rate, 2, AnyVal.float sampleFloats.zero)
      (by simp [emptyValues]) (by decide))),
    (let ⟨_, _, _, h⟩ :=
      (absent_column_is_an_empty_cell utcZone sampleFloats sampleColumns ["weight"]
        [["5"]]).2.2.2.2.2.2 (by decide)
    ((h ["5"]).1 (sampleColumns.PostageLabelCreatedAt, 10, AnyVal.time Time.zero)
      (by simp [emptyValues]) (by decide)))⟩

/-- C14, as stated, fails: there is no input on which trying the `1/2/06` layout before
the RFC 3339 layout gives a result (value or error) different from the implemented
order. -/
theorem date_order_never_matters :
    ¬ ∃ (record : List String) (idx : HeaderIndex) (header : String),
        dateCompactFirst record idx header ≠ date record idx header := by
  rintro ⟨record, idx, header, h⟩
  exact h (dateCompactFirst_eq_date record idx header)

/-- C14, amended: no string is accepted by both layouts (an RFC 3339 timestamp starts
with four digits, a `1/2/06` date has a slash after one or two digits), so the date helper
returns the same value or error whichever layout is tried first. -/
theorem date_order_is_immaterial (record : List String) (idx : HeaderIndex)
    (header : String) :
    (∀ s : String, Parse_RFC3339 s = none ∨ Parse_1_2_06 s = none) ∧
    dateCompactFirst record idx header = date record idx header :=
  ⟨parse_layouts_disjoint, dateCompactFirst_eq_date record idx header⟩

/-- C15: when both `GetBills` and `BuildStagingPlan` succeed, the staging tuple of the
i-th row holds, at the bill-date and invoice-number positions, the `InvoiceDate` and the
`InvoiceID` of the bill that `GetBills` derives from the same row, and that bill is in the
output of `GetBills`. -/
theorem staging_row_agrees_with_bill (tz : LocalZone) {F : Type} (fp : FloatParser F) (cols : Columns)
    (headers : List String) (rows : List (List String))
    (hb : (GetBills tz cols headers rows).2 = none)
    (hs : (BuildStagingPlan fp cols headers rows).2 = none) :
    ∃ batch,
      (BuildStagingPlan fp cols headers rows).1.Batches = [batch] ∧
      ∀ (i : Nat) (row : List String), rows[i]? = some row →
        ∃ r bill,
          batch.Rows[i]? = some r ∧
          bill ∈ (GetBills tz cols headers rows).1 ∧
          bill.WarehouseZip = Val row (BuildHeaderIndex headers) cols.FromZip ∧
          bill.AccountNo = Val row (BuildHeaderIndex headers) cols.CarrierAccountID ∧
          bill.InvoiceDate = (date row (BuildHeaderIndex headers) cols.CreatedAt).1 ∧
          bill.InvoiceID = buildInvoiceNumber cols row (BuildHeaderIndex headers)
            bill.InvoiceDate ∧
          r[13]? = some (AnyVal.time bill.InvoiceDate) ∧
          r[14]? = some (AnyVal.str bill.InvoiceID) := by
  rw [BuildStagingPlan.plan_eq_of_ok fp cols headers rows hs]
  refine ⟨_, rfl, ?_⟩
  intro i row hi
  refine ⟨stagingRow fp cols row (BuildHeaderIndex headers),
    rowBill cols (BuildHeaderIndex headers) row, ?_, ?_, rfl, rfl, rfl, rfl, rfl, rfl⟩
  · simp [buildStagingPlan, List.getElem?_map, hi]
  · rw [GetBills.mem_iff_of_ok tz cols headers rows hb]
    exact List.mem_map.2 ⟨row, List.getElem?_mem hi, rfl⟩

/-- Witness of C15: on two rows of the same bill both operations succeed and the second
staging row carries the invoice date and number of that bill. -/
theorem staging_row_agrees_with_bill_witness :
    (GetBills utcZone sampleColumns fullHeaders stagingRows).2 = none ∧
    (BuildStagingPlan sampleFloats sampleColumns fullHeaders stagingRows).2 = none ∧
    ∃ batch r bill,
      (BuildStagingPlan sampleFloats sampleColumns fullHeaders stagingRows).1.Batches
        = [batch] ∧
      batch.Rows[1]? = some r ∧
      bill ∈ (GetBills utcZone sampleColumns fullHeaders stagingRows).1 ∧
      r[13]? = some (AnyVal.time bill.InvoiceDate) ∧
      r[14]? = some (AnyVal.str bill.InvoiceID) :=
  ⟨by decide, by decide,
    (let ⟨batch, h1, h2⟩ :=
      staging_row_agrees_with_bill utcZone sampleFloats sampleColumns fullHeaders stagingRows
        (by decide) (by decide)
    let ⟨r, bill, h3, h4, _, _, _, _, h5, h6⟩ :=
      h2 1 ["9401", "1001", "2024-03-05T00:00:00Z", "90210", "", ""] (by decide)
    ⟨batch, r, bill, h1, h3, h4, h5, h6⟩)⟩

/-- C16: a row whose creation-date cell is empty does not make `GetBills` fail: on that
row alone `GetBills` returns the single bill with the zero invoice date and the invoice ID
made of the account number followed by `-0001-01-01`, and in every batch on which
`GetBills` succeeds that bill is in the output. -/
theorem getBills_empty_creation_date (tz : LocalZone) (cols : Columns) (headers : List String)
    (row : List String)
    (h : Val row (BuildHeaderIndex headers) cols.CreatedAt = "") :
    date row (BuildHeaderIndex headers) cols.CreatedAt = (Time.zero, none) ∧
    GetBills tz cols headers [row]
      = ([{ InvoiceID := Val row (BuildHeaderIndex headers) cols.CarrierAccountID
              ++ "-0001-01-01"
            InvoiceDate := Time.zero
            WarehouseZip := Val row (BuildHeaderIndex headers) cols.FromZip
            AccountNo := Val row (BuildHeaderIndex headers) cols.CarrierAccountID }],
          none) ∧
    (∀ rows : List (List String), row ∈ rows → (GetBills tz cols headers rows).2 = none →
      ({ InvoiceID := Val row (BuildHeaderIndex headers) cols.CarrierAccountID
            ++ "-0001-01-01"
         InvoiceDate := Time.zero
         WarehouseZip := Val row (BuildHeaderIndex headers) cols.FromZip
         AccountNo := Val row (BuildHeaderIndex headers) cols.CarrierAccountID }
        : BillDetails) ∈ (GetBills tz cols headers rows).1) := by
  have hd := date_of_empty row (BuildHeaderIndex headers) cols.CreatedAt h
  have hbill := rowBill_of_empty_date cols (BuildHeaderIndex headers) row h
  refine ⟨hd, ?_, ?_⟩
  · have hall : ∀ r ∈ [row], (date r (BuildHeaderIndex headers) cols.CreatedAt).2 = none := by
      intro r hr
      rw [List.mem_singleton] at hr
      rw [hr, hd]
    have := GetBills.loop_of_all_ok tz cols (BuildHeaderIndex headers) [row] NewOrderedSet hall
    unfold GetBills
    rw [this, ← hbill]
    simp [OrderedSet.Add, OrderedSet.Values, NewOrderedSet]
  · intro rows hmem hok
    rw [GetBills.mem_iff_of_ok tz cols headers rows hok, ← hbill]
    exact List.mem_map.2 ⟨row, hmem, rfl⟩

/-- Witness of C16: the sample row of account 1002 with an empty creation date gives the
bill with invoice ID `1002-0001-01-01`. -/
theorem getBills_empty_creation_date_witness :
    GetBills utcZone sampleColumns sampleHeaders [["1002", "", "10001"]]
      = ([{ InvoiceID := Val ["1002", "", "10001"] (BuildHeaderIndex sampleHeaders)
              sampleColumns.CarrierAccountID ++ "-0001-01-01"
            InvoiceDate := Time.zero
            WarehouseZip := Val ["1002", "", "10001"] (BuildHeaderIndex sampleHeaders)
              sampleColumns.FromZip
            AccountNo := Val ["1002", "", "10001"] (BuildHeaderIndex sampleHeaders)
              sampleColumns.CarrierAccountID }], none) ∧
    Val ["1002", "", "10001"] (BuildHeaderIndex sampleHeaders) sampleColumns.CarrierAccountID
      ++ "-0001-01-01" = "1002-0001-01-01" :=
  ⟨(getBills_empty_creation_date utcZone sampleColumns sampleHeaders ["1002", "", "10001"]
      (by decide)).2.1, by decide⟩

/-- C17: invoice IDs are not unique in a result of `GetBills`: two rows of one account and
one calendar day give two distinct bills with the same invoice ID when their from-zip
cells differ, and also when only the time of day of their RFC 3339 creation timestamps
differs. -/
theorem getBills_distinct_bills_share_invoice_id (tz : LocalZone) :
    ((GetBills tz sampleColumns sampleHeaders twoZipRows).2 = none ∧
      ∃ b1 ∈ (GetBills tz sampleColumns sampleHeaders twoZipRows).1,
        ∃ b2 ∈ (GetBills tz sampleColumns sampleHeaders twoZipRows).1,
          b1 ≠ b2 ∧ b1.InvoiceID = b2.InvoiceID ∧ b1.InvoiceDate = b2.InvoiceDate ∧
            b1.WarehouseZip ≠ b2.WarehouseZip) ∧
    ((GetBills tz sampleColumns sampleHeaders twoTimeRows).2 = none ∧
      ∃ b1 ∈ (GetBills tz sampleColumns sampleHeaders twoTimeRows).1,
        ∃ b2 ∈ (GetBills tz sampleColumns sampleHeaders twoTimeRows).1,
          b1 ≠ b2 ∧ b1.InvoiceID = b2.InvoiceID ∧ b1.WarehouseZip = b2.WarehouseZip ∧
            b1.InvoiceDate ≠ b2.InvoiceDate) ∧
    (GetBills tz sampleColumns sampleHeaders twoTimeRows).1.map (fun b => b.InvoiceID)
      = ["1001-2024-03-05", "1001-2024-03-05"] := by
  rw [GetBills.eq_of_all_utc tz utcZone sampleColumns sampleHeaders twoZipRows (by decide),
    GetBills.eq_of_all_utc tz utcZone sampleColumns sampleHeaders twoTimeRows (by decide)]
  decide

/-- C18: if `BuildStagingPlan` succeeds then `GetBills` succeeds on the same header and
rows, and it returns at most as many bills as the staging batch has rows, which is the
number of input rows. -/
theorem getBills_succeeds_when_staging_does (tz : LocalZone) {F : Type} (fp : FloatParser F) (cols : Columns)
    (headers : List String) (rows : List (List String))
    (h : (BuildStagingPlan fp cols headers rows).2 = none) :
    (GetBills tz cols headers rows).2 = none ∧
    ∃ batch,
      (BuildStagingPlan fp cols headers rows).1.Batches = [batch] ∧
      batch.Rows.length = rows.length ∧
      (GetBills tz cols headers rows).1.length ≤ batch.Rows.length := by
  have hok := GetBills.ok_of_staging_ok tz fp cols headers rows h
  refine ⟨hok, ?_⟩
  rw [BuildStagingPlan.plan_eq_of_ok fp cols headers rows h,
    GetBills.bills_eq_of_ok tz cols headers rows hok]
  refine ⟨_, rfl, by simp [buildStagingPlan], ?_⟩
  have := OrderedSet.length_foldl_Add_le (BillDetails.goEq tz)
    (rows.map (rowBill cols (BuildHeaderIndex headers))) NewOrderedSet
  simpa [buildStagingPlan, NewOrderedSet] using this

/-- Witness of C18: the two sample staging rows parse, so `GetBills` succeeds on them, and
it returns one bill for the two rows. -/
theorem getBills_succeeds_when_staging_does_witness :
    (BuildStagingPlan sampleFloats sampleColumns fullHeaders stagingRows).2 = none ∧
    (GetBills utcZone sampleColumns fullHeaders stagingRows).2 = none ∧
    (GetBills utcZone sampleColumns fullHeaders stagingRows).1.length = 1 :=
  ⟨by decide,
    (getBills_succeeds_when_staging_does utcZone sampleFloats sampleColumns fullHeaders stagingRows
      (by decide)).1,
    by decide⟩

/-- C19: `BuildStagingPlan` treats rows independently: it succeeds on `r1` followed by
`r2` exactly when it succeeds on `r1` and on `r2`, and then the rows of the batch for the
concatenation are the rows of the batch for `r1` followed by those of the batch for
`r2`. -/
theorem buildStagingPlan_append {F : Type} (fp : FloatParser F) (cols : Columns)
    (headers : List String) (r1 r2 : List (List String)) :
    ((BuildStagingPlan fp cols headers (r1 ++ r2)).2 = none ↔
      ((BuildStagingPlan fp cols headers r1).2 = none ∧
        (BuildStagingPlan fp cols headers r2).2 = none)) ∧
    ((BuildStagingPlan fp cols headers (r1 ++ r2)).2 = none →
      ∃ b b1 b2,
        (BuildStagingPlan fp cols headers (r1 ++ r2)).1.Batches = [b] ∧
        (BuildStagingPlan fp cols headers r1).1.Batches = [b1] ∧
        (BuildStagingPlan fp cols headers r2).1.Batches = [b2] ∧
        b.Rows = b1.Rows ++ b2.Rows) := by
  have hiff : (BuildStagingPlan fp cols headers (r1 ++ r2)).2 = none ↔
      ((BuildStagingPlan fp cols headers r1).2 = none ∧
        (BuildStagingPlan fp cols headers r2).2 = none) := by
    simp only [BuildStagingPlan.ok_iff, List.mem_append]
    constructor
    · intro h
      exact ⟨fun row hr => h row (Or.inl hr), fun row hr => h row (Or.inr hr)⟩
    · rintro ⟨h1, h2⟩ row (hr | hr)
      · exact h1 row hr
      · exact h2 row hr
  refine ⟨hiff, ?_⟩
  intro h
  obtain ⟨h1, h2⟩ := hiff.1 h
  rw [BuildStagingPlan.plan_eq_of_ok fp cols headers _ h,
    BuildStagingPlan.plan_eq_of_ok fp cols headers _ h1,
    BuildStagingPlan.plan_eq_of_ok fp cols headers _ h2]
  exact ⟨_, _, _, rfl, rfl, rfl, by simp [buildStagingPlan]⟩

/-- Witness of C19: the two sample staging rows, taken as two one-row lists, parse
together and give a batch of one row followed by one row. -/
theorem buildStagingPlan_append_witness :
    (BuildStagingPlan sampleFloats sampleColumns fullHeaders
        ([["9400", "1001", "3/5/24", "90210", "12.5", "4"]] ++
          [["9401", "1001", "2024-03-05T00:00:00Z", "90210", "", ""]])).2 = none ∧
    ∃ b b1 b2,
      (BuildStagingPlan sampleFloats sampleColumns fullHeaders
        ([["9400", "1001", "3/5/24", "90210", "12.5", "4"]] ++
          [["9401", "1001", "2024-03-05T00:00:00Z", "90210", "", ""]])).1.Batches = [b] ∧
      (BuildStagingPlan sampleFloats sampleColumns fullHeaders
        [["9400", "1001", "3/5/24", "90210", "12.5", "4"]]).1.Batches = [b1] ∧
      (BuildStagingPlan sampleFloats sampleColumns fullHeaders
        [["9401", "1001", "2024-03-05T00:00:00Z", "90210", "", ""]]).1.Batches = [b2] ∧
      b.Rows = b1.Rows ++ b2.Rows :=
  ⟨by decide,
    (buildStagingPlan_append sampleFloats sampleColumns fullHeaders
      [["9400", "1001", "3/5/24", "90210", "12.5", "4"]]
      [["9401", "1001", "2024-03-05T00:00:00Z", "90210", "", ""]]).2 (by decide)⟩

end UspsEasypost
